import Mathlib

/-!
Verification of the BUSCO-style genome-completeness pipeline
(profile-search result processor, predictor driver, exon reconciler).

Python dictionaries are modelled as insertion-ordered association lists
(`List (String × α)`); Python floats are modelled as exact rationals `ℚ`;
Python ints as `ℤ`; fallible code returns `Option`/`Except`.
-/

namespace Busco

/-! ## Association-list primitives (Python dict semantics) -/

/-- Lookup of a key in an association list (Python `d[k]` read / `k in d`). -/
def alookup (k : String) : List (String × α) → Option α
  | [] => none
  | p :: t => if p.1 = k then some p.2 else alookup k t

/-- Python `d.pop(k)`: remove the binding of `k` (dict keys are unique,
so removing the first binding is removing the binding). -/
def aerase (k : String) : List (String × α) → List (String × α)
  | [] => []
  | p :: t => if p.1 = k then t else p :: aerase k t

/-- Python `d[k] = v`: replace the value in place when the key is present,
append a new binding at the end otherwise (insertion order preserved). -/
def aset (k : String) (v : α) : List (String × α) → List (String × α)
  | [] => [(k, v)]
  | p :: t => if p.1 = k then (k, v) :: t else p :: aset k v t

/-- Modify the value bound to `k` in place when present, no-op otherwise. -/
def amodify (k : String) (f : α → α) : List (String × α) → List (String × α)
  | [] => []
  | p :: t => if p.1 = k then (p.1, f p.2) :: t else p :: amodify k f t

/-- The key list of an association list (Python `list(d.keys())`). -/
def keysOf (l : List (String × α)) : List String := l.map Prod.fst

/-- Python `defaultdict(list)` append: `d[k].append(v)`. -/
def adappend (k : String) (v : β) (l : List (String × List β)) : List (String × List β) :=
  aset k ((alookup k l).getD [] ++ [v]) l

/-! ## Data model of the profile-search result processor (hmmer.py) -/

/-- One classified hit record: the dict
`{"bitscore": float, "length": int, "frame": str|None}` built
by `_sort_matches` (hmmer.py line 370). -/
structure HmmerMatch where
  bitscore : ℚ
  length : ℤ
  frame : Option String
deriving DecidableEq, Repr

/-- One parsed gene record of `parse_hmmer_output` (hmmer.py lines 311-324):
`{"tlen": int, "hmm_len": int, "env_coords": [(int,int)], "score": float,
"frame": str|None}`. -/
structure GeneRecord where
  tlen : ℤ
  hmm_len : ℤ
  env_coords : List (ℤ × ℤ)
  score : ℚ
  frame : Option String
deriving DecidableEq, Repr

/-- Per-SCO cutoff record from the dataset loader
(`cutoff_dict[taxid]` with keys sigma / length / score). -/
structure CutoffRecord where
  sigma : ℚ
  length : ℚ
  score : ℚ
deriving DecidableEq, Repr

/-- Gene-id-keyed map of hit-record lists (the value type of
`is_complete` / `is_very_large` / `is_fragment` at one BUSCO id). -/
abbrev GeneMap := List (String × List HmmerMatch)

/-- A rank map: BUSCO id -> gene id -> hit records
(`is_complete`, `is_very_large`, `is_fragment`). -/
abbrev BuscoDict := List (String × GeneMap)

/-- An inverse index: gene id -> BUSCO ids currently claiming it
(`matched_genes_complete` / `_vlarge` / `_fragment`). -/
abbrev MatchedGenes := List (String × List String)

/-- The six classification maps of `HMMERRunner` that the deduplicator and
pruner mutate. -/
structure HmmerState where
  is_complete : BuscoDict
  is_very_large : BuscoDict
  is_fragment : BuscoDict
  matched_genes_complete : MatchedGenes
  matched_genes_vlarge : MatchedGenes
  matched_genes_fragment : MatchedGenes
deriving DecidableEq, Repr

/-! ## Match classifier (`_sort_matches`, hmmer.py lines 332-376) -/

/-- The z-like score of `_sort_matches`:
`zeta = (cutoff_dict[q]["length"] - size) / cutoff_dict[q]["sigma"]`. -/
def zeta_of (cut : CutoffRecord) (size : ℤ) : ℚ :=
  (cut.length - (size : ℚ)) / cut.sigma

/-- Accumulator of one `_sort_matches` call: the three fresh per-call rank
dictionaries plus the three class-level inverse indices it mutates. -/
structure SortAcc where
  busco_complete : GeneMap
  busco_vlarge : GeneMap
  busco_fragment : GeneMap
  matched_genes_complete : MatchedGenes
  matched_genes_vlarge : MatchedGenes
  matched_genes_fragment : MatchedGenes
deriving DecidableEq, Repr

/-- Body of the `for gene_id, record in matched_record.items()` loop of
`_sort_matches`: classify one gene record by `zeta` and append both to the
rank dictionary and to the inverse index of that rank. -/
def sort_matches_step (cut : CutoffRecord) (busco_query : String)
    (acc : SortAcc) (p : String × GeneRecord) : SortAcc :=
  let gene_id := p.1
  let record := p.2
  let size := record.hmm_len
  let zeta := zeta_of cut size
  let m : HmmerMatch := { bitscore := record.score, length := size, frame := record.frame }
  if -2 ≤ zeta ∧ zeta ≤ 2 then
    { acc with busco_complete := adappend gene_id m acc.busco_complete,
               matched_genes_complete := adappend gene_id busco_query acc.matched_genes_complete }
  else if zeta < -2 then
    { acc with busco_vlarge := adappend gene_id m acc.busco_vlarge,
               matched_genes_vlarge := adappend gene_id busco_query acc.matched_genes_vlarge }
  else
    { acc with busco_fragment := adappend gene_id m acc.busco_fragment,
               matched_genes_fragment := adappend gene_id busco_query acc.matched_genes_fragment }

/-- `_sort_matches(matched_record, busco_query)` (hmmer.py lines 332-376):
fold the classification step over the parsed records, starting from empty
per-call rank dictionaries and the current inverse indices `mc`, `mv`, `mf`. -/
def sort_matches (cut : CutoffRecord) (busco_query : String)
    (matched_record : List (String × GeneRecord))
    (mc mv mf : MatchedGenes) : SortAcc :=
  matched_record.foldl (sort_matches_step cut busco_query)
    { busco_complete := [], busco_vlarge := [], busco_fragment := [],
      matched_genes_complete := mc, matched_genes_vlarge := mv, matched_genes_fragment := mf }

/-! ## Cross-SCO deduplicator (`_remove_duplicates` and helpers,
hmmer.py lines 428-559) -/

/-- `_update_used_gene_set` (hmmer.py lines 428-438): add every gene id of
the given rank map to `_already_used_genes` (a set: only membership
matters, so a list with possible repetitions models it). -/
def update_used_gene_set (busco_dict : BuscoDict) (used : List String) : List String :=
  used ++ (busco_dict.map (fun p => keysOf p.2)).flatten

/-- The inverse-index cleanup fragment used by `_remove_lower_ranked_duplicates`
(hmmer.py lines 466-470 and 477-483):
`matched_genes[gene_id] = [x for x in matched_genes[gene_id] if x != busco_id]`
followed by `matched_genes.pop(gene_id)` when the list was left empty.
Python indexes `matched_genes[gene_id]` directly and would raise `KeyError`
on a missing key; that state is unreachable when the inverse index is
consistent with the forward map, and is modelled as a no-op. -/
def remove_busco_from_matched (gene_id busco_id : String) (mg : MatchedGenes) : MatchedGenes :=
  match alookup gene_id mg with
  | none => mg
  | some l =>
    let l2 := l.filter (fun x => x ≠ busco_id)
    if l2 = [] then aerase gene_id mg else aset gene_id l2 mg

/-- Body of the `for gene_id in list(matches.keys())` loop of
`_remove_lower_ranked_duplicates` (hmmer.py lines 474-483): when the gene
was already claimed by a higher rank, pop it from this BUSCO's gene map,
clean the inverse index, and pop the BUSCO itself when its gene map was
left empty. -/
def remove_used_gene_step (busco_id : String) (used : List String)
    (st2 : BuscoDict × MatchedGenes) (gene_id : String) : BuscoDict × MatchedGenes :=
  if gene_id ∈ used then
    let bd2 := amodify busco_id (aerase gene_id) st2.1
    let mg2 := remove_busco_from_matched gene_id busco_id st2.2
    let bd3 := if (alookup busco_id bd2).getD [] = [] then aerase busco_id bd2 else bd2
    (bd3, mg2)
  else st2

/-- Body of the `for busco_id in list(busco_dict.keys())` loop of
`_remove_lower_ranked_duplicates` (hmmer.py lines 460-483). A BUSCO that
also appears in a higher rank is popped wholesale (and the inverse index
cleaned for each of its genes); otherwise its genes that are in the
already-used set are removed one by one. -/
def remove_lower_ranked_step (higher_rank_buscos used : List String)
    (st : BuscoDict × MatchedGenes) (busco_id : String) : BuscoDict × MatchedGenes :=
  match alookup busco_id st.1 with
  | none => st
  | some gm =>
    if busco_id ∈ higher_rank_buscos then
      (aerase busco_id st.1,
       (keysOf gm).foldl (fun mg gene_id => remove_busco_from_matched gene_id busco_id mg) st.2)
    else
      (keysOf gm).foldl (remove_used_gene_step busco_id used) st

/-- `_remove_lower_ranked_duplicates(busco_dict)` (hmmer.py lines 440-485),
parametrised by the higher-rank BUSCO id list and the already-used gene
set that the Python method reads from `self`. -/
def remove_lower_ranked_duplicates (higher_rank_buscos used : List String)
    (busco_dict : BuscoDict) (matched_genes : MatchedGenes) : BuscoDict × MatchedGenes :=
  (keysOf busco_dict).foldl (remove_lower_ranked_step higher_rank_buscos used)
    (busco_dict, matched_genes)

/-- Python `max(range(len(xs)), key=xs.__getitem__)` on a nonempty list:
the first index attaining the maximum. Helper carrying the running best. -/
def argmax_first_go (i best : ℕ) (bestVal : ℚ) : List ℚ → ℕ
  | [] => best
  | y :: ys =>
    if bestVal < y then argmax_first_go (i + 1) i y ys
    else argmax_first_go (i + 1) best bestVal ys

/-- First index of the maximum element (`0` for `[]`, where Python `max`
would raise `ValueError`; callers guard against the empty case). -/
def argmax_first : List ℚ → ℕ
  | [] => 0
  | x :: xs => argmax_first_go 1 0 x xs

/-- The `(bitscore, busco)` pairs gathered by the
`for busco in buscos: for match in matches:` loops of
`_remove_remaining_duplicate_matches` (hmmer.py lines 527-534), reading
`busco_dict[busco][gene_id]`. A missing key would raise `KeyError` in
Python; it is unreachable when the inverse index is consistent and is
modelled as contributing no pairs. -/
def rrdm_pairs (bd : BuscoDict) (g : String) (buscos : List String) : List (ℚ × String) :=
  (buscos.map (fun busco =>
    ((alookup g ((alookup busco bd).getD [])).getD []).map
      (fun m => (m.bitscore, busco)))).flatten

/-- The guard deciding whether `_remove_remaining_duplicate_matches`
acts on a gene: `len(buscos) > 1` (line 526) and not
`len(set(buscos)) == 1` (lines 536-539). The additional
`rrdm_pairs ... ≠ []` conjunct models the fact that Python would raise
`ValueError` in `max` on an empty score list (unreachable when the
forward map is consistent and its record lists are nonempty). -/
def rrdm_processedL (bd : BuscoDict) (g : String) (buscos : List String) : Bool :=
  decide (buscos.length > 1) && !(decide (rrdm_pairs bd g buscos = [])) &&
    !(decide (buscos.dedup.length = 1))

/-- `busco_matches[best_match_ind]` (hmmer.py lines 540-542): the BUSCO id
owning the first highest-bitscore record among the gathered pairs. -/
def rrdm_winnerL (bd : BuscoDict) (g : String) (buscos : List String) : String :=
  let pairs := rrdm_pairs bd g buscos
  ((pairs.map Prod.snd).get? (argmax_first (pairs.map Prod.fst))).getD ""

/-- Body of the `for gene_id, buscos in matched_genes.items()` loop of
`_remove_remaining_duplicate_matches` (hmmer.py lines 525-551): when a
gene is claimed by more than one distinct BUSCO, keep the BUSCO owning
the single highest-bitscore record; pop the gene from every other
claiming BUSCO (popping a BUSCO left empty), and record the
`(gene_id, duplicate)` pairs in `busco_matches_to_remove`. Python
iterates `list(set(buscos))`, whose order is unspecified; the removals
commute, and `dedup` is one deterministic choice of that order. -/
def remove_remaining_gene (st : BuscoDict × List (String × String))
    (p : String × List String) : BuscoDict × List (String × String) :=
  let gene_id := p.1
  let buscos := p.2
  if rrdm_processedL st.1 gene_id buscos then
    let winner := rrdm_winnerL st.1 gene_id buscos
    let losers := (buscos.filter (fun x => x ≠ winner)).dedup
    (losers.foldl (fun bd duplicate =>
        let bd2 := amodify duplicate (aerase gene_id) bd
        if (alookup duplicate bd2).getD [] = [] then aerase duplicate bd2 else bd2) st.1,
     st.2 ++ losers.map (fun d => (gene_id, d)))
  else st

/-- The final loop of `_remove_remaining_duplicate_matches`
(hmmer.py lines 553-557): `matched_genes[gene_id].remove(busco_id)`
(first occurrence) for every recorded pair, popping gene entries left
empty. -/
def apply_matches_to_remove (mg : MatchedGenes) (toRemove : List (String × String)) :
    MatchedGenes :=
  toRemove.foldl (fun m pr =>
    match alookup pr.1 m with
    | none => m
    | some l =>
      let l2 := l.erase pr.2
      if l2 = [] then aerase pr.1 m else aset pr.1 l2 m) mg

/-- `_remove_remaining_duplicate_matches(busco_dict)` (hmmer.py lines
505-559), parametrised by the matching inverse index. -/
def remove_remaining_duplicate_matches (busco_dict : BuscoDict) (matched_genes : MatchedGenes) :
    BuscoDict × MatchedGenes :=
  let r := matched_genes.foldl remove_remaining_gene (busco_dict, [])
  (r.1, apply_matches_to_remove matched_genes r.2)

/-- `_remove_duplicates` (hmmer.py lines 487-503). `_already_used_genes`
is reset to the empty set in `configure_runner` (line 110) before each
load/filter cycle, and one cycle calls `_remove_duplicates` exactly once,
so the used-gene set starts empty. -/
def remove_duplicates (st : HmmerState) : HmmerState :=
  let used1 := update_used_gene_set st.is_complete []
  let r1 := remove_lower_ranked_duplicates (keysOf st.is_complete) used1
      st.is_very_large st.matched_genes_vlarge
  let used2 := update_used_gene_set r1.1 used1
  let r2 := remove_lower_ranked_duplicates (keysOf st.is_complete ++ keysOf r1.1) used2
      st.is_fragment st.matched_genes_fragment
  let r3 := remove_remaining_duplicate_matches st.is_complete st.matched_genes_complete
  let r4 := remove_remaining_duplicate_matches r1.1 r1.2
  let r5 := remove_remaining_duplicate_matches r2.1 r2.2
  { is_complete := r3.1, is_very_large := r4.1, is_fragment := r5.1,
    matched_genes_complete := r3.2, matched_genes_vlarge := r4.2,
    matched_genes_fragment := r5.2 }

/-! ## Low-score pruner (`_remove_low_scoring_matches`, hmmer.py lines
561-597) -/

/-- `_get_best_scoring_match` (hmmer.py lines 599-619): flatten all
`(gene, bitscore)` pairs in iteration order and take the first-index
argmax; returns `("", 0)` on an empty flattening, where Python `max`
would raise (callers only reach it with at least one record). -/
def get_best_scoring_match (gene_matches : GeneMap) : String × ℚ :=
  let pairs := (gene_matches.map (fun p => p.2.map (fun m => (p.1, m.bitscore)))).flatten
  (pairs.get? (argmax_first (pairs.map Prod.snd))).getD ("", 0)

/-- `_remove_low_scoring_matches(busco_dict)` (hmmer.py lines 561-597).
For each BUSCO with more than one gene entry, records with
`bitscore < 0.85 * max_bitscore` are deleted (Python collects their
indices and deletes in descending order, which keeps exactly the records
failing that comparison), and the `(busco, gene)` addresses of gene
entries left empty are popped after the loop. BUSCO keys themselves are
never removed, and BUSCOs with at most one gene entry are not touched. -/
def remove_low_scoring_matches (busco_dict : BuscoDict) : BuscoDict :=
  busco_dict.map (fun p =>
    if p.2.length > 1 then
      let max_bitscore := (get_best_scoring_match p.2).2
      (p.1, (p.2.map (fun q =>
          (q.1, q.2.filter (fun m => ¬ (m.bitscore < (85 / 100) * max_bitscore))))).filter
          (fun q => q.2 ≠ []))
    else p)

/-- `filter` (hmmer.py lines 621-630): deduplicate, then prune each rank. -/
def filter_matches (st : HmmerState) : HmmerState :=
  let st1 := remove_duplicates st
  { st1 with is_complete := remove_low_scoring_matches st1.is_complete,
             is_very_large := remove_low_scoring_matches st1.is_very_large,
             is_fragment := remove_low_scoring_matches st1.is_fragment }

/-! ## Invariant and wellformedness predicates -/

/-- Does `busco_id` claim `gene_id` in the forward rank map
(`gene_id in busco_dict[busco_id]`). -/
def claimsB (bd : BuscoDict) (busco_id gene_id : String) : Bool :=
  (alookup gene_id ((alookup busco_id bd).getD [])).isSome

/-- Does the inverse index list `busco_id` for `gene_id`
(`busco_id in matched_genes[gene_id]`). -/
def inv_containsB (mg : MatchedGenes) (gene_id busco_id : String) : Bool :=
  ((alookup gene_id mg).getD []).contains busco_id

/-- Does `gene_id` appear anywhere in the rank map. -/
def gene_in_rankB (bd : BuscoDict) (gene_id : String) : Bool :=
  bd.any (fun p => (alookup gene_id p.2).isSome)

/-- Invariant: no gene id appears in more than one of the three ranks
(complete / very-large / fragmented). -/
def RankDisjoint (st : HmmerState) : Prop :=
  ∀ g : String,
    (gene_in_rankB st.is_complete g = true → gene_in_rankB st.is_very_large g = false) ∧
    (gene_in_rankB st.is_complete g = true → gene_in_rankB st.is_fragment g = false) ∧
    (gene_in_rankB st.is_very_large g = true → gene_in_rankB st.is_fragment g = false)

/-- Invariant: within one rank every gene is claimed by at most one BUSCO. -/
def UniqueClaim (bd : BuscoDict) : Prop :=
  ∀ g b1 b2 : String, claimsB bd b1 g = true → claimsB bd b2 g = true → b1 = b2

/-- Invariant: the inverse index lists `b` for `g` iff the forward map has
the entry, for all ids. -/
def Consistent (bd : BuscoDict) (mg : MatchedGenes) : Prop :=
  ∀ b g : String, claimsB bd b g = inv_containsB mg g b

/-- One direction of consistency: every forward entry is listed in the
inverse index. -/
def FwdSubInv (bd : BuscoDict) (mg : MatchedGenes) : Prop :=
  ∀ b g : String, claimsB bd b g = true → inv_containsB mg g b = true

/-- Executable consistency check, bounded to the keys actually present
(equivalent to `Consistent`, which quantifies over all ids). -/
def consistentB (bd : BuscoDict) (mg : MatchedGenes) : Bool :=
  bd.all (fun p => p.2.all (fun q => ((alookup q.1 mg).getD []).contains p.1)) &&
  mg.all (fun p => p.2.all (fun b => claimsB bd b p.1))

/-- Wellformedness of a rank map as produced by the pipeline: distinct
BUSCO keys, distinct gene keys per BUSCO, no empty BUSCO entry, no empty
record list (every entry was appended nonempty and emptied entries are
popped). -/
def BdWF (bd : BuscoDict) : Prop :=
  (keysOf bd).Nodup ∧ ∀ p ∈ bd, (keysOf p.2).Nodup ∧ p.2 ≠ [] ∧ ∀ q ∈ p.2, q.2 ≠ []

/-- Wellformedness of an inverse index as produced by the pipeline:
distinct gene keys, nonempty lists without repeated BUSCO ids (a repeat
would require the same BUSCO to be re-matched while still holding its
match, which the rerun logic excludes). -/
def MgWF (mg : MatchedGenes) : Prop :=
  (keysOf mg).Nodup ∧ ∀ p ∈ mg, p.2.Nodup ∧ p.2 ≠ []

/-- Combined hypothesis on a classification state entering `filter`. -/
def StateWF (st : HmmerState) : Prop :=
  BdWF st.is_complete ∧ BdWF st.is_very_large ∧ BdWF st.is_fragment ∧
  MgWF st.matched_genes_complete ∧ MgWF st.matched_genes_vlarge ∧
  MgWF st.matched_genes_fragment ∧
  consistentB st.is_complete st.matched_genes_complete = true ∧
  consistentB st.is_very_large st.matched_genes_vlarge = true ∧
  consistentB st.is_fragment st.matched_genes_fragment = true

/-! ## Specification-form cleaning functionals, used to characterise the
deduplicator -/

/-- Remove from an inverse index every pair selected by `rem`, dropping
gene entries left empty. -/
def clean_pairs (rem : String → String → Bool) (mg : MatchedGenes) : MatchedGenes :=
  mg.filterMap (fun p =>
    let l := p.2.filter (fun b => !(rem p.1 b))
    if l = [] then none else some (p.1, l))

/-- Remove from a rank map every `(busco, gene)` entry selected by `rem`,
dropping BUSCO entries left empty. -/
def bd_clean_pairs (rem : String → String → Bool) (bd : BuscoDict) : BuscoDict :=
  bd.filterMap (fun p =>
    let gm := p.2.filter (fun q => !(rem p.1 q.1))
    if gm = [] then none else some (p.1, gm))

/-- The pairs removed by `_remove_lower_ranked_duplicates`: entries of a
BUSCO in a higher rank, and genes already used by a higher rank. -/
def rlrd_removes (higher used : List String) (g b : String) : Bool :=
  decide (b ∈ higher) || decide (g ∈ used)

/-- The pairs removed by `_remove_remaining_duplicate_matches`: for a
processed gene, every claiming BUSCO other than the winner. -/
def rrdm_loser (bd : BuscoDict) (mg : MatchedGenes) (g b : String) : Bool :=
  match alookup g mg with
  | none => false
  | some l => rrdm_processedL bd g l && decide (b ∈ l) && !(decide (b = rrdm_winnerL bd g l))

/-- Post-condition of one `_remove_lower_ranked_duplicates` key iteration:
the BUSCO is gone unless it was absent from the higher ranks, and its
surviving gene entries avoid the already-used set. -/
def rlrd_done (higher used : List String) (bd : BuscoDict) (b : String) : Prop :=
  (b ∈ keysOf bd → b ∉ higher) ∧
  ∀ gm, alookup b bd = some gm → ∀ q ∈ gm, q.1 ∉ used

/-- The state shape left behind by `_remove_duplicates`: lower ranks hold
no BUSCO of a higher rank and no gene of a higher rank, and every
inverse-index list has at most one entry. On such a state every loop of
`_remove_duplicates` is a no-op. -/
def DedupFixed (st : HmmerState) : Prop :=
  (∀ b ∈ keysOf st.is_very_large, b ∉ keysOf st.is_complete) ∧
  (∀ p ∈ st.is_very_large, ∀ q ∈ p.2, q.1 ∉ update_used_gene_set st.is_complete []) ∧
  (∀ b ∈ keysOf st.is_fragment, b ∉ keysOf st.is_complete ++ keysOf st.is_very_large) ∧
  (∀ p ∈ st.is_fragment, ∀ q ∈ p.2,
    q.1 ∉ update_used_gene_set st.is_very_large (update_used_gene_set st.is_complete [])) ∧
  (∀ p ∈ st.matched_genes_complete, p.2.length ≤ 1) ∧
  (∀ p ∈ st.matched_genes_vlarge, p.2.length ≤ 1) ∧
  (∀ p ∈ st.matched_genes_fragment, p.2.length ≤ 1)

instance decidableBdWF (bd : BuscoDict) : Decidable (BdWF bd) := by
  unfold BdWF; infer_instance

instance decidableMgWF (mg : MatchedGenes) : Decidable (MgWF mg) := by
  unfold MgWF; infer_instance

instance decidableStateWF (st : HmmerState) : Decidable (StateWF st) := by
  unfold StateWF; infer_instance

/-! ## Pass-2 runner configuration and result-file selection
(`configure_runner` and `_load_matched_genes`, hmmer.py lines 97-129 and
378-426) -/

/-- The effect of `HMMERRunner.configure_runner` (hmmer.py lines 97-113)
on the six classification maps: `is_fragment` and
`matched_genes_fragment` are reset to empty dicts; the complete and
very-large maps and their inverse indices are not touched and carry over
from the previous pass. -/
def hmmer_configure_runner (st : HmmerState) : HmmerState :=
  { st with is_fragment := [], matched_genes_fragment := [] }

/-- The result-file selection of `_load_matched_genes` (hmmer.py lines
384-409): run 1 reads the sorted listing of the initial-run directory;
run 2 reads only the sorted listing of the rerun directory (the
initial-run files are listed on lines 393-397 but not used); any later
run number raises `ValueError`. Hidden files (leading dot) are skipped. -/
def load_results_files (run_number : ℕ) (initial_files rerun_files : List String) :
    Option (List String) :=
  if run_number = 1 then
    some ((initial_files.filter (fun f => !(f.startsWith "."))).mergeSort (fun a b => a ≤ b))
  else if run_number = 2 then
    some ((rerun_files.filter (fun f => !(f.startsWith "."))).mergeSort (fun a b => a ≤ b))
  else none

/-! ## Predictor header parsing (`parse_header`, metaeuk.py lines 498-576) -/

/-- The value of a decimal digit character. -/
def digitVal (c : Char) : Option ℕ :=
  if c = '0' then some 0 else if c = '1' then some 1
  else if c = '2' then some 2 else if c = '3' then some 3
  else if c = '4' then some 4 else if c = '5' then some 5
  else if c = '6' then some 6 else if c = '7' then some 7
  else if c = '8' then some 8 else if c = '9' then some 9
  else none

/-- Digit-string to number; `none` on the empty string or any non-digit
character (where Python `int` raises `ValueError`). -/
def digitsToNat (cs : List Char) : Option ℕ :=
  if cs.isEmpty then none
  else cs.foldl (fun acc c =>
    match acc, digitVal c with
    | some n, some d => some (10 * n + d)
    | _, _ => none) (some 0)

/-- Python `int(s)` for the decimal forms the predictor emits (optional
leading minus; no whitespace or plus forms appear in headers). -/
def parseInt (s : String) : Option ℤ :=
  match s.toList with
  | '-' :: rest => (digitsToNat rest).map (fun n => -(n : ℤ))
  | cs => (digitsToNat cs).map (fun n => (n : ℤ))

/-- Positive decimal (`digits` or `digits.digits`) to an exact rational. -/
def parseRatPos (cs : List Char) : Option ℚ :=
  let intPart := cs.takeWhile (fun c => c ≠ '.')
  match cs.dropWhile (fun c => c ≠ '.') with
  | [] => (digitsToNat intPart).map (fun n => (n : ℚ))
  | _ :: frac =>
    match digitsToNat intPart, digitsToNat frac with
    | some n, some f => some ((n : ℚ) + (f : ℚ) / (10 : ℚ) ^ frac.length)
    | _, _ => none

/-- Python `float(s)` for the plain decimal forms the predictor emits
(scientific notation does not occur in the parsed fields). -/
def parseRat (s : String) : Option ℚ :=
  match s.toList with
  | '-' :: rest => (parseRatPos rest).map Neg.neg
  | cs => parseRatPos cs

/-- Is `sep` a prefix of `l` (used by the structural split below). -/
def isPrefixOfChars : List Char → List Char → Bool
  | [], _ => true
  | a :: as, l =>
    match l with
    | [] => false
    | b :: bs => a = b && isPrefixOfChars as bs

/-- Fuel-driven worker for `splitChars` (fuel bounds the input length so
the recursion is structural and kernel-reducible). -/
def splitCharsGo (sep : List Char) : ℕ → List Char → List (List Char)
  | _, [] => [[]]
  | 0, l => [l]
  | fuel + 1, c :: rest =>
    if isPrefixOfChars sep (c :: rest) then
      [] :: splitCharsGo sep fuel (rest.drop (sep.length - 1))
    else
      match splitCharsGo sep fuel rest with
      | [] => [[c]]
      | h :: t => (c :: h) :: t

/-- Python `str.split(sep)` for a nonempty separator on character lists. -/
def splitChars (sep : List Char) (l : List Char) : List (List Char) :=
  if sep = [] then [l] else splitCharsGo sep l.length l

/-- Python `s.split(sep)` (separator occurrences delimit the fields). -/
def pysplit (s sep : String) : List String :=
  (splitChars sep.toList s.toList).map (fun cs => String.mk cs)

/-- Python `s.replace(old, new)` for a nonempty `old`. -/
def pyreplace (s old new : String) : String :=
  String.intercalate new (pysplit s old)

/-- Python `s.strip()` whitespace characters. -/
def pytrim (s : String) : String :=
  String.mk (((s.toList.dropWhile (fun c => c.isWhitespace)).reverse.dropWhile
      (fun c => c.isWhitespace)).reverse)

/-- Python `s.startswith(pre)`. -/
def pystartswith (s pre : String) : Bool :=
  isPrefixOfChars pre.toList s.toList

/-- Python `str.strip(chars)`: drop any of the given characters from both
ends. -/
def stripSet (cs : List Char) (s : String) : String :=
  String.mk (((s.toList.dropWhile (fun c => cs.contains c)).reverse.dropWhile
      (fun c => cs.contains c)).reverse)

/-- Python `str.rstrip(chars)`: drop any of the given characters from the
right end. -/
def rstripSet (cs : List Char) (s : String) : String :=
  String.mk ((s.toList.reverse.dropWhile (fun c => cs.contains c)).reverse)

/-- Python `list.pop(i)`: remove the element at index `i`. -/
def list_pop (l : List α) (i : ℕ) : List α := l.take i ++ l.drop (i + 1)

/-- The `C_acc`-fixup applied when `header_parts[2]` is not a strand
symbol (metaeuk.py lines 505-511): with `strand_ind` the anchor index,
`header_parts[1] = "|".join(header_parts[1:strand_ind])`, then
`for i in range(2, strand_ind): header_parts.pop(i)` — note the pops use
indices into the shrinking list. -/
def fix_header_parts_at (strand_ind : ℕ) (parts : List String) : List String :=
  let joined := String.intercalate "|" ((parts.drop 1).take (strand_ind - 1))
  let parts1 := parts.set 1 joined
  (List.range' 2 (strand_ind - 2)).foldl (fun l i => list_pop l i) parts1

/-- The branch of `parse_header` (metaeuk.py lines 500-511) dealing with
sequence ids containing `"|"`: anchor on `header_parts.index("+")`,
falling back to `header_parts.index("-")` on `ValueError`; `none` when
neither symbol occurs (uncaught `ValueError`). -/
def fix_header_parts (parts : List String) : Option (List String) :=
  if parts.getD 2 "" = "+" ∨ parts.getD 2 "" = "-" then some parts
  else
    match parts.findIdx? (fun x => x = "+") with
    | some i => some (fix_header_parts_at i parts)
    | none =>
      match parts.findIdx? (fun x => x = "-") with
      | some i => some (fix_header_parts_at i parts)
      | none => none

/-- The structured record returned by `parse_header`
(metaeuk.py lines 559-576). -/
structure HeaderDetails where
  T_acc : String
  C_acc : String
  S : String
  bitscore : ℚ
  e_value : ℚ
  num_exons : ℤ
  low_coord : ℤ
  high_coord : ℤ
  all_low_exon_coords : List ℤ
  all_taken_low_exon_coords : List ℤ
  all_high_exon_coords : List ℤ
  all_taken_high_exon_coords : List ℤ
  all_exon_nucl_len : List ℤ
  all_taken_exon_nucl_len : List ℤ
  gene_id : String
deriving DecidableEq, Repr

/-- One `exon_i` field `low[taken_low]:high[taken_high]:nt_len[taken_nt_len]`
(metaeuk.py lines 529-555), including the minus-strand taken-low
correction: when `taken_high + taken_nt_len - 1 != taken_low`, replace
`taken_low` by that value. Returns
`(low, taken_low, high, taken_high, nucl_len, taken_nucl_len)`. -/
def parse_exon (strand : String) (exon : String) : Option (ℤ × ℤ × ℤ × ℤ × ℤ × ℤ) :=
  match pysplit exon ":" with
  | [lows, highs, lens] =>
    match pysplit lows "[", pysplit highs "[", pysplit lens "[" with
    | [low, tlow], [high, thigh], [nl, tnl] => do
      let lowv ← parseInt low
      let tlowv ← parseInt (stripSet [']'] tlow)
      let highv ← parseInt high
      let thighv ← parseInt (stripSet [']'] thigh)
      let nlv ← parseInt nl
      let tnlv ← parseInt (rstripSet [']'] (pytrim tnl))
      let tlowv2 := if strand = "-" ∧ thighv + tnlv - 1 ≠ tlowv then thighv + tnlv - 1 else tlowv
      some (lowv, tlowv2, highv, thighv, nlv, tnlv)
    | _, _, _ => none
  | _ => none

/-- `parse_header` (metaeuk.py lines 498-576) working on the already
pipe-split field list. Out-of-range reads and failed numeric conversions
(Python `IndexError` / `ValueError`) yield `none`. -/
def parse_header_from_parts (parts0 : List String) : Option HeaderDetails := do
  let parts ← fix_header_parts parts0
  let T_acc := parts.getD 0 ""
  let C_acc := parts.getD 1 ""
  let strand := parts.getD 2 ""
  let bitscore ← parseRat (parts.getD 3 "")
  let e_value ← parseRat (parts.getD 4 "")
  let num_exons ← parseInt (parts.getD 5 "")
  let low_coord ← parseInt (parts.getD 6 "")
  let high_coord ← parseInt (parts.getD 7 "")
  let exons ← (parts.drop 8).mapM (parse_exon strand)
  some {
    T_acc := T_acc, C_acc := C_acc, S := strand, bitscore := bitscore,
    e_value := e_value, num_exons := num_exons,
    low_coord := low_coord, high_coord := high_coord,
    all_low_exon_coords := exons.map (fun e => e.1),
    all_taken_low_exon_coords := exons.map (fun e => e.2.1),
    all_high_exon_coords := exons.map (fun e => e.2.2.1),
    all_taken_high_exon_coords := exons.map (fun e => e.2.2.2.1),
    all_exon_nucl_len := exons.map (fun e => e.2.2.2.2.1),
    all_taken_exon_nucl_len := exons.map (fun e => e.2.2.2.2.2),
    gene_id := C_acc ++ ":" ++ toString low_coord ++ "-" ++ toString high_coord }

/-- `parse_header(header)` on the raw header string
(`header.split("|")`, metaeuk.py line 500). -/
def parse_header (header : String) : Option HeaderDetails :=
  parse_header_from_parts (pysplit header "|")

/-! ## Predictor parameter parsing and job construction
(`parse_parameters` / `configure_job`, metaeuk.py lines 28-132, 185-229,
340-370, 445-496) -/

/-- `ACCEPTED_PARAMETERS` (metaeuk.py lines 28-123). -/
def ACCEPTED_PARAMETERS : List String :=
  ["comp-bias-corr", "add-self-matches", "seed-sub-mat", "s", "k", "k-score",
   "alph-size", "max-seqs", "split", "split-mode", "split-memory-limit",
   "diag-score", "exact-kmer-matching", "mask", "mask-lower-case",
   "min-ungapped-score", "spaced-kmer-mode", "spaced-kmer-pattern",
   "local-tmp", "disk-space-limit", "a", "alignment-mode", "wrapped-scoring",
   "e", "min-seq-id", "min-aln-len", "seq-id-mode", "alt-ali", "c",
   "cov-mode", "realign", "max-rejected", "max-accept", "score-bias",
   "gap-open", "gap-extend", "zdrop", "pca", "pcb", "mask-profile",
   "e-profile", "wg", "filter-msa", "max-seq-id", "qid", "qsc", "cov",
   "diff", "num-iterations", "slice-search", "rescore-mode",
   "allow-deletion", "min-length", "max-length", "max-gaps",
   "contig-start-mode", "contig-end-mode", "orf-start-mode",
   "forward-frames", "reverse-frames", "translation-table", "translate",
   "use-all-table-starts", "id-offset", "add-orf-stop", "search-type",
   "start-sens", "sens-steps", "metaeuk-eval", "metaeuk-tcov",
   "min-intron", "min-exon-aa", "max-overlap", "set-gap-open",
   "set-gap-extend", "overlap", "protein", "target-key",
   "reverse-fragments", "sub-mat", "db-load-mode", "force-reuse",
   "remove-tmp-files", "filter-hits", "sort-results", "omit-consensus",
   "create-lookup", "chain-alignments", "merge-query", "strand",
   "compressed", "v", "max-intron", "max-seq-len"]

/-- The MetaeukRunner option attributes read by `configure_job`: the six
preset option values (kept as strings, as the Python attributes are only
interpolated into the command) and the `s_set` flag. -/
structure MetaeukParams where
  max_intron : String
  max_seq_len : String
  min_exon_aa : String
  max_overlap : String
  min_intron : String
  overlap : String
  s_set : Bool
deriving DecidableEq, Repr

/-- The per-chunk split `kv.strip("- ").split("=")` of metaeuk.py
line 454. -/
def chunk_key_vals (kv : String) : List String :=
  pysplit (stripSet ['-', ' '] kv) "="

/-- The `for kv in key_val_pairs` loop of `parse_parameters`
(metaeuk.py lines 453-487). Returns the updated option state, the
accepted key and value lists, and whether `MetaeukParsingError` was
raised (a malformed chunk aborts the loop; attribute mutations made
before the abort persist, as in Python). -/
def parse_parameters_go (mp : MetaeukParams) (ks vs : List String) :
    List String → MetaeukParams × List String × List String × Bool
  | [] => (mp, ks, vs, false)
  | kv :: rest =>
    match chunk_key_vals kv with
    | [key, val] =>
      if key ∈ ACCEPTED_PARAMETERS then
        if key = "min-exon-aa" then
          parse_parameters_go { mp with min_exon_aa := pytrim val } ks vs rest
        else if key = "max-intron" then
          parse_parameters_go { mp with max_intron := pytrim val } ks vs rest
        else if key = "max-seq-len" then
          parse_parameters_go { mp with max_seq_len := pytrim val } ks vs rest
        else if key = "max-overlap" then
          parse_parameters_go { mp with max_overlap := pytrim val } ks vs rest
        else if key = "min-intron" then
          parse_parameters_go { mp with min_intron := pytrim val } ks vs rest
        else if key = "overlap" then
          parse_parameters_go { mp with overlap := pytrim val } ks vs rest
        else if key = "s" then
          parse_parameters_go { mp with s_set := true }
            (ks ++ [pytrim key]) (vs ++ [pytrim val]) rest
        else
          parse_parameters_go mp (ks ++ [pytrim key]) (vs ++ [pytrim val]) rest
      else
        parse_parameters_go mp ks vs rest
    | _ => (mp, ks, vs, true)

/-- `parse_parameters` (metaeuk.py lines 445-496). An empty
`extra_params` is falsy and the method is not called (metaeuk.py line
387); a parameter string not starting with `-`, or containing a chunk
that does not split into `key=value`, raises `MetaeukParsingError`,
caught at the top: `[], []` is returned and mutations made before the
abort persist. -/
def parse_parameters (mp : MetaeukParams) (extra_params : String) :
    MetaeukParams × List String × List String :=
  if extra_params = "" then (mp, [], [])
  else
    let ep := stripSet [Char.ofNat 34, ' ', Char.ofNat 39] extra_params
    if pystartswith ep "-" then
      let r := parse_parameters_go mp [] [] (pysplit ep " -")
      if r.2.2.2 then (r.1, [], []) else (r.1, r.2.1, r.2.2.1)
    else (mp, [], [])

/-- The option-state updates of `configure_runner` (metaeuk.py lines
185-229) relevant to the command line: per-pass preset values for
min-exon-aa / max-overlap / min-intron. `overlap` and `s_set` are
instance attributes initialised once (lines 155-156) and *not* reset
between passes. -/
def metaeuk_configure_runner (run_number : ℕ) (mp : MetaeukParams) : MetaeukParams :=
  if run_number > 1 then
    { mp with min_exon_aa := "5", max_overlap := "5", min_intron := "1" }
  else
    { mp with min_exon_aa := "15", max_overlap := "15", min_intron := "5" }

/-- `configure_job` (metaeuk.py lines 340-370): the Metaeuk command
parameter list. The `-s 6` pair is added exactly when
`run_number > 1 and s_set == False`; the accepted user parameters follow,
each key prefixed with `-` (single-letter) or `--`. -/
def metaeuk_configure_job (run_number : ℕ) (mp : MetaeukParams)
    (param_keys param_values : List String)
    (cpus input_file refseq_db output_basename tmp_folder : String) : List String :=
  ["easy-predict", "--threads", cpus, input_file, refseq_db, output_basename, tmp_folder,
   "--max-intron", mp.max_intron, "--max-seq-len", mp.max_seq_len,
   "--min-exon-aa", mp.min_exon_aa, "--max-overlap", mp.max_overlap,
   "--min-intron", mp.min_intron, "--overlap", mp.overlap] ++
  (if run_number > 1 ∧ mp.s_set = false then ["-s", "6"] else []) ++
  ((param_keys.zip param_values).map (fun kv =>
      [(if kv.1.length = 1 then "-" else "--") ++ kv.1, kv.2])).flatten

/-- One Metaeuk pass as driven by `run` (metaeuk.py lines 382-395):
configure the runner for this pass, parse this pass's extra parameter
string (the config value with `","` replaced by `" "`,
metaeuk.py lines 209-219), and build the job command. Returns the
command parameter list and the option state left for the next pass. -/
def metaeuk_pass (run_number : ℕ) (extra_params : String) (mp : MetaeukParams)
    (cpus input_file refseq_db output_basename tmp_folder : String) :
    List String × MetaeukParams :=
  let mp1 := metaeuk_configure_runner run_number mp
  let r := parse_parameters mp1 (pyreplace extra_params "," " ")
  (metaeuk_configure_job run_number r.1 r.2.1 r.2.2
      cpus input_file refseq_db output_basename tmp_folder, r.1)

/-- Specification-level predicate: does the user parameter string set the
`s` parameter, i.e. does its well-formed accepted prefix (the chunks
before the first malformed `key=value` pair) contain the key `s`. -/
def user_sets_s (extra_params : String) : Bool :=
  if pyreplace extra_params "," " " = "" then false
  else
    let ep := stripSet [Char.ofNat 34, ' ', Char.ofNat 39] (pyreplace extra_params "," " ")
    pystartswith ep "-" &&
      ((pysplit ep " -").takeWhile (fun kv => (chunk_key_vals kv).length = 2)).any
        (fun kv => chunk_key_vals kv = ["s", ((chunk_key_vals kv).getD 1 "")])

/-! ## Exon reconciliation (GenomeAnalysis.py lines 436-789 and
metaeuk.py lines 274-299) -/

/-- One row of the exon dataframe built by `records_to_df` /
`exons_to_df` (metaeuk.py lines 256-272, GenomeAnalysis.py lines
589-601), with its pandas index label. -/
structure ExonRow where
  label : ℕ
  busco_id : String
  sequence : String
  start : ℤ
  stop : ℤ
  strand : String
  score : ℚ
  run_found : ℕ
  orig_gene_id : String
deriving DecidableEq, Repr, Inhabited

/-- `detect_overlap` (metaeuk.py lines 274-278): candidate overlaps are
kept when on the same strand. -/
def detect_overlap (m1 m2 : ExonRow) : Bool := m1.strand = m2.strand

/-- `test_for_overlaps(record_df)` (metaeuk.py lines 280-299): group rows
by sequence id (pandas iterates group keys in sorted order), sort each
group by start, and for every row pair with it each same-strand row
whose start lies strictly between its start and stop. Returns pairs of
dataframe index labels. -/
def test_for_overlaps (df : List ExonRow) : List (ℕ × ℕ) :=
  let seqs := ((df.map (fun r => r.sequence)).dedup).mergeSort (fun a b => a ≤ b)
  (seqs.map (fun s =>
    let g := (df.filter (fun r => r.sequence = s)).mergeSort (fun a b => a.start ≤ b.start)
    (g.map (fun r1 =>
      ((g.filter (fun r2 => r1.start < r2.start && r2.start < r1.stop)).filter
          (fun r2 => detect_overlap r1 r2)).map (fun r2 => (r1.label, r2.label)))).flatten)).flatten

/-- Failure modes of the reconciliation functions. -/
inductive WalkError
  | fractionalFrame
  | stopIter
  | valueErr
  | attrErr
deriving DecidableEq, Repr

/-- Executable success check for `Except`. -/
def except_isOk : Except ε α → Bool
  | .ok _ => true
  | .error _ => false

/-- The `while hmm_coords[0] < exon_cumul_len + 1` loop of
`find_unused_exons` (GenomeAnalysis.py lines 770-784). The loop is only
entered when `remaining_hmm_region == 0`. Returns the matched flag, the
envelope iterator position (current element and rest, `none` when
exhausted), and the updated `remaining_hmm_region`. -/
def env_while (cumul sizeAa : ℚ) :
    Bool → (ℤ × ℤ) → List (ℤ × ℤ) → Bool × Option ((ℤ × ℤ) × List (ℤ × ℤ)) × ℚ
  | matched, hc, rest =>
    if (hc.1 : ℚ) < cumul + 1 then
      if (hc.2 : ℚ) ≤ cumul + 1 then
        match rest with
        | [] => (true, none, 0)
        | h :: t => env_while cumul sizeAa true h t
      else (true, some (hc, rest), (hc.2 : ℚ) - sizeAa + 1)
    else (matched, some (hc, rest), 0)

/-- State of the exon walk of `find_unused_exons`
(GenomeAnalysis.py lines 746-789). -/
structure WalkState where
  remaining_hmm_region : ℚ
  env : Option ((ℤ × ℤ) × List (ℤ × ℤ))
  exon_cumul_len : ℚ
  used_exons : List ExonRow
  unused_exons : List ExonRow
deriving DecidableEq, Repr

/-- Body of the `for idx, entry in exons.iterrows()` loop of
`find_unused_exons` (GenomeAnalysis.py lines 753-788): a fatal
`BuscoError` when the exon nucleotide length is not divisible by 3,
otherwise classify the exon as used or unused against the envelope
coordinates. -/
def find_unused_step_body (st : WalkState) (entry : ExonRow) (exon_size_aa : ℚ) :
    WalkState :=
  let cumul := st.exon_cumul_len + exon_size_aa
  if st.remaining_hmm_region > exon_size_aa then
    { st with remaining_hmm_region := st.remaining_hmm_region - exon_size_aa,
              exon_cumul_len := cumul, used_exons := st.used_exons ++ [entry] }
  else if st.remaining_hmm_region ≠ 0 then
    { st with exon_cumul_len := cumul, used_exons := st.used_exons ++ [entry] }
  else
    match st.env with
    | none => { st with exon_cumul_len := cumul,
                        unused_exons := st.unused_exons ++ [entry] }
    | some (hc, rest) =>
      let r := env_while cumul exon_size_aa false hc rest
      if r.1 then
        { st with env := r.2.1, remaining_hmm_region := r.2.2,
                  exon_cumul_len := cumul, used_exons := st.used_exons ++ [entry] }
      else
        { st with env := r.2.1, remaining_hmm_region := r.2.2,
                  exon_cumul_len := cumul, unused_exons := st.unused_exons ++ [entry] }

/-- One iteration of the exon loop: the fatal frame check
(GenomeAnalysis.py lines 756-760) guards the pure classification body. -/
def find_unused_step (st : WalkState) (entry : ExonRow) : Except WalkError WalkState :=
  let exon_size_nt : ℤ := entry.stop - entry.start + 1
  if exon_size_nt % 3 ≠ 0 then .error .fractionalFrame
  else .ok (find_unused_step_body st entry ((exon_size_nt : ℚ) / 3))

/-- `find_unused_exons(env_coords, exons)` (GenomeAnalysis.py lines
746-789). `next(env_coords)` before the loop raises `StopIteration` on
an empty envelope list. Returns `(used_exons, unused_exons)`. -/
def find_unused_exons (env_coords : List (ℤ × ℤ)) (exons : List ExonRow) :
    Except WalkError (List ExonRow × List ExonRow) :=
  match env_coords with
  | [] => .error .stopIter
  | h :: t => do
    let st ← exons.foldlM find_unused_step
      { remaining_hmm_region := 0, env := some (h, t), exon_cumul_len := 0,
        used_exons := [], unused_exons := [] }
    return (st.used_exons, st.unused_exons)

/-- `.loc[label]`: the row with the given index label (labels are unique
in the reconciler's frames; `default` is unreachable because the labels
come from `test_for_overlaps` over the same frame). -/
def loc_row (df : List ExonRow) (label : ℕ) : ExonRow :=
  (df.find? (fun r => r.label = label)).getD default

/-- `get_indices_to_remove(priority_exons, secondary_exons)`
(GenomeAnalysis.py lines 726-744). The arguments are dataframes or
`None` (empty exon groups are passed as `None`); `pd.concat` raises
`ValueError` when both are `None`, caught and turned into `[]`;
`secondary_exons.iloc[0]` on `None` would raise an uncaught
`AttributeError` when overlaps exist without a secondary frame. For
each overlap pair, the label removed is the first when its row's BUSCO
id equals the BUSCO id of the secondary frame, the second otherwise. -/
def get_indices_to_remove (priority_exons secondary_exons : Option (List ExonRow)) :
    Except WalkError (List ℕ) :=
  match priority_exons, secondary_exons with
  | none, none => .ok []
  | _, _ =>
    let exons_to_check := (priority_exons.getD []) ++ (secondary_exons.getD [])
    let overlaps := test_for_overlaps exons_to_check
    if overlaps = [] then .ok []
    else
      match secondary_exons with
      | none => .error .attrErr
      | some sx =>
        .ok (overlaps.map (fun ov =>
          let match1 := loc_row exons_to_check ov.1
          if (sx.getD 0 default).busco_id = match1.busco_id then ov.1 else ov.2))

/-- The empty-dataframe-to-`None` conversion of
GenomeAnalysis.py lines 679-698. -/
def df_or_none (l : List ExonRow) : Option (List ExonRow) :=
  if l = [] then none else some l

/-- `handle_diff_busco_overlap` (GenomeAnalysis.py lines 623-724) from
the priority selection on. The two per-SCO profile-search hit records
(the first gene record of each parsed output file, lines 645-669) and
the exon dataframe slices of the two BUSCOs are inputs; the file reads
producing them are not modelled. The BUSCO whose hit record has the
strictly higher bitscore is the priority match. `pd.concat` of the two
used-exon frames raises an uncaught `ValueError` when both are `None`. -/
def handle_diff_busco_overlap (hit1 hit2 : GeneRecord) (exons1 exons2 : List ExonRow) :
    Except WalkError (List ℕ) := do
  let priority_match := if hit1.score > hit2.score then hit1 else hit2
  let secondary_match := if hit1.score > hit2.score then hit2 else hit1
  let priority_exons := if hit1.score > hit2.score then exons1 else exons2
  let secondary_exons := if hit1.score > hit2.score then exons2 else exons1
  let pu ← find_unused_exons priority_match.env_coords priority_exons
  let su ← find_unused_exons secondary_match.env_coords secondary_exons
  let priority_used := df_or_none pu.1
  let priority_unused := df_or_none pu.2
  let secondary_used := df_or_none su.1
  let secondary_unused := df_or_none su.2
  if priority_used = none ∧ secondary_used = none then .error .valueErr
  else
    let used_exons := (priority_used.getD []) ++ (secondary_used.getD [])
    if test_for_overlaps used_exons ≠ [] then
      .ok (secondary_exons.map (fun r => r.label))
    else do
      let r1 ← get_indices_to_remove secondary_used priority_unused
      let r2 ← get_indices_to_remove priority_used secondary_unused
      let r3 ← get_indices_to_remove priority_unused secondary_unused
      .ok (r1 ++ r2 ++ r3)

/-! ## Two-pass orchestrator failure handling
(`GenomeAnalysisEukaryotesMetaeuk.run_analysis`, GenomeAnalysis.py lines
385-434; `edit_protein_file` / `get_gene_details`, metaeuk.py lines
578-651) -/

/-- The two exception classes raised by the Metaeuk output readers.
`NoGenesError` and `NoRerunFile` are distinct exception classes
(imported separately from `busco_tools.base`); neither is a subclass of
the other. -/
inductive MetaeukExc
  | noGenesError
  | noRerunFile
deriving DecidableEq, Repr

/-- Presence of the two predictor output files a pass is expected to
produce. -/
structure PassFiles where
  protein_file_present : Bool
  headers_file_present : Bool
deriving DecidableEq, Repr

/-- `_run_metaeuk` (GenomeAnalysis.py lines 422-434) reduced to its
exception behaviour: `edit_protein_file` opens the pass's predicted
protein file and raises `NoGenesError` on `FileNotFoundError`
(metaeuk.py lines 578-603); `get_gene_details` then opens the headers
file and raises `NoRerunFile` on `FileNotFoundError` (metaeuk.py lines
628-651). -/
def run_metaeuk_pass (files : PassFiles) : Except MetaeukExc Unit :=
  if files.protein_file_present = false then .error .noGenesError
  else if files.headers_file_present = false then .error .noRerunFile
  else .ok ()

/-- Observable outcome of the two-pass loop of `run_analysis`. -/
inductive RunOutcome
  | fatal (e : MetaeukExc)
  | fatalNoGenes
  | loggedNoGenesOnRerun
  | finished
deriving DecidableEq, Repr

/-- The two-pass loop of `GenomeAnalysisEukaryotesMetaeuk.run_analysis`
(GenomeAnalysis.py lines 385-410): the `try` block catches only
`NoRerunFile`; on pass 1 (`i == 0`) that is re-raised as the fatal
`BuscoError` "Metaeuk did not find any genes in the input file", on
pass 2 (`i == 1`) it is logged ("Metaeuk rerun did not find any genes")
and absorbed. Any other exception — in particular `NoGenesError` —
propagates out of `run_analysis` and the run aborts (run_BUSCO.py
re-raises every exception; exit status 1). `incomplete_after_pass1` is
whether missing or fragmented BUSCOs remain after pass 1 (an empty list
breaks the loop before pass 2). -/
def run_analysis_outcome (pass1 pass2 : PassFiles) (incomplete_after_pass1 : Bool) :
    RunOutcome :=
  match run_metaeuk_pass pass1 with
  | .error .noRerunFile => .fatalNoGenes
  | .error e => .fatal e
  | .ok _ =>
    if incomplete_after_pass1 = false then .finished
    else
      match run_metaeuk_pass pass2 with
      | .error .noRerunFile => .loggedNoGenesOnRerun
      | .error e => .fatal e
      | .ok _ => .finished

/-- The combined-output fallback after the loop (GenomeAnalysis.py lines
411-419): `combine_run_results` raises `FileNotFoundError` when the
rerun modified-protein file is missing; the handler then points the
combined output at the pass-1 modified file
(`pred_protein_mod_files[0]`). -/
def combined_protein_choice (rerun_modified_present : Bool)
    (combined pass1_modified : String) : String :=
  if rerun_modified_present then combined else pass1_modified

/-! ## Association-list lemmas -/

theorem alookup_nil (k : String) : alookup k ([] : List (String × α)) = none := rfl

theorem alookup_cons (k : String) (p : String × α) (t : List (String × α)) :
    alookup k (p :: t) = if p.1 = k then some p.2 else alookup k t := rfl

theorem alookup_eq_some_mem {k : String} {l : List (String × α)} {v : α}
    (h : alookup k l = some v) : (k, v) ∈ l := by
  induction l with
  | nil => simp [alookup] at h
  | cons p t ih =>
    rw [alookup_cons] at h
    by_cases hp : p.1 = k
    · rw [if_pos hp] at h
      obtain ⟨a, b⟩ := p
      cases hp
      cases Option.some.inj h
      exact List.mem_cons_self _ _
    · rw [if_neg hp] at h
      exact List.mem_cons_of_mem _ (ih h)

theorem mem_keys_of_alookup_eq_some {k : String} {l : List (String × α)} {v : α}
    (h : alookup k l = some v) : k ∈ keysOf l :=
  List.mem_map.mpr ⟨(k, v), alookup_eq_some_mem h, rfl⟩

theorem alookup_eq_none_of_not_mem {k : String} {l : List (String × α)}
    (h : k ∉ keysOf l) : alookup k l = none := by
  induction l with
  | nil => rfl
  | cons p t ih =>
    simp only [keysOf, List.map_cons, List.mem_cons, not_or] at h
    rw [alookup_cons, if_neg (fun hc => h.1 hc.symm)]
    exact ih h.2

theorem alookup_isSome_iff_mem_keys {k : String} {l : List (String × α)} :
    (alookup k l).isSome = true ↔ k ∈ keysOf l := by
  induction l with
  | nil => simp [alookup, keysOf]
  | cons p t ih =>
    rw [alookup_cons]
    simp only [keysOf, List.map_cons, List.mem_cons]
    by_cases hp : p.1 = k
    · rw [if_pos hp]
      simp only [Option.isSome_some]
      exact ⟨fun _ => Or.inl hp.symm, fun _ => trivial⟩
    · rw [if_neg hp]
      constructor
      · intro hs
        exact Or.inr (ih.mp hs)
      · rintro (hk | hk)
        · exact absurd hk.symm hp
        · exact ih.mpr hk

theorem alookup_aerase_ne {k2 k : String} {l : List (String × α)} (h : k2 ≠ k) :
    alookup k2 (aerase k l) = alookup k2 l := by
  induction l with
  | nil => rfl
  | cons p t ih =>
    by_cases hp : p.1 = k
    · have h1 : aerase k (p :: t) = t := by simp [aerase, hp]
      have h2 : p.1 ≠ k2 := by rw [hp]; exact fun hc => h hc.symm
      rw [h1, alookup_cons, if_neg h2]
    · have h1 : aerase k (p :: t) = p :: aerase k t := by simp [aerase, hp]
      rw [h1, alookup_cons, alookup_cons, ih]

theorem alookup_aerase_self {k : String} {l : List (String × α)}
    (hnd : (keysOf l).Nodup) : alookup k (aerase k l) = none := by
  induction l with
  | nil => rfl
  | cons p t ih =>
    simp only [keysOf, List.map_cons, List.nodup_cons] at hnd
    by_cases hp : p.1 = k
    · have h1 : aerase k (p :: t) = t := by simp [aerase, hp]
      rw [h1]
      exact alookup_eq_none_of_not_mem (hp ▸ hnd.1)
    · have h1 : aerase k (p :: t) = p :: aerase k t := by simp [aerase, hp]
      rw [h1, alookup_cons, if_neg hp]
      exact ih hnd.2

theorem alookup_aset_self {k : String} {v : α} {l : List (String × α)} :
    alookup k (aset k v l) = some v := by
  induction l with
  | nil => simp [aset, alookup_cons]
  | cons p t ih =>
    by_cases hp : p.1 = k
    · simp [aset, hp, alookup_cons]
    · simp [aset, hp, alookup_cons, ih]

theorem alookup_aset_ne {k2 k : String} {v : α} {l : List (String × α)} (h : k2 ≠ k) :
    alookup k2 (aset k v l) = alookup k2 l := by
  induction l with
  | nil =>
    have h2 : k ≠ k2 := fun hc => h hc.symm
    simp [aset, alookup_cons, h2]
  | cons p t ih =>
    by_cases hp : p.1 = k
    · have h2 : k ≠ k2 := fun hc => h hc.symm
      have h3 : p.1 ≠ k2 := by rw [hp]; exact h2
      simp only [aset, if_pos hp, alookup_cons, if_neg h2, if_neg h3]
    · simp only [aset, if_neg hp, alookup_cons]
      rw [ih]

theorem alookup_amodify_self {k : String} {f : α → α} {l : List (String × α)} :
    alookup k (amodify k f l) = (alookup k l).map f := by
  induction l with
  | nil => rfl
  | cons p t ih =>
    by_cases hp : p.1 = k
    · simp [amodify, hp, alookup_cons]
    · simp [amodify, hp, alookup_cons, ih]

theorem alookup_amodify_ne {k2 k : String} {f : α → α} {l : List (String × α)} (h : k2 ≠ k) :
    alookup k2 (amodify k f l) = alookup k2 l := by
  induction l with
  | nil => rfl
  | cons p t ih =>
    by_cases hp : p.1 = k
    · have h3 : p.1 ≠ k2 := by rw [hp]; exact fun hc => h hc.symm
      simp only [amodify, if_pos hp, alookup_cons, if_neg h3]
    · simp only [amodify, if_neg hp, alookup_cons]
      rw [ih]

theorem alookup_adappend_self {k : String} {v : β} {l : List (String × List β)} :
    alookup k (adappend k v l) = some ((alookup k l).getD [] ++ [v]) := by
  simp [adappend, alookup_aset_self]

theorem alookup_adappend_ne {k2 k : String} {v : β} {l : List (String × List β)}
    (h : k2 ≠ k) : alookup k2 (adappend k v l) = alookup k2 l := by
  simp [adappend, alookup_aset_ne h]

/-! ## Match classifier: characterisation of `_sort_matches` (claim C2) -/

theorem sort_matches_step_ne (cut : CutoffRecord) (q : String) (acc : SortAcc)
    (p : String × GeneRecord) {g : String} (h : g ≠ p.1) :
    alookup g (sort_matches_step cut q acc p).busco_complete =
      alookup g acc.busco_complete ∧
    alookup g (sort_matches_step cut q acc p).busco_vlarge =
      alookup g acc.busco_vlarge ∧
    alookup g (sort_matches_step cut q acc p).busco_fragment =
      alookup g acc.busco_fragment ∧
    alookup g (sort_matches_step cut q acc p).matched_genes_complete =
      alookup g acc.matched_genes_complete ∧
    alookup g (sort_matches_step cut q acc p).matched_genes_vlarge =
      alookup g acc.matched_genes_vlarge ∧
    alookup g (sort_matches_step cut q acc p).matched_genes_fragment =
      alookup g acc.matched_genes_fragment := by
  simp only [sort_matches_step]
  split_ifs
  · exact ⟨alookup_adappend_ne h, rfl, rfl, alookup_adappend_ne h, rfl, rfl⟩
  · exact ⟨rfl, alookup_adappend_ne h, rfl, rfl, alookup_adappend_ne h, rfl⟩
  · exact ⟨rfl, rfl, alookup_adappend_ne h, rfl, rfl, alookup_adappend_ne h⟩

theorem sort_matches_step_complete (cut : CutoffRecord) (q : String) (acc : SortAcc)
    (p : String × GeneRecord)
    (hz : -2 ≤ zeta_of cut p.2.hmm_len ∧ zeta_of cut p.2.hmm_len ≤ 2) :
    sort_matches_step cut q acc p =
      { acc with
        busco_complete :=
          adappend p.1 ⟨p.2.score, p.2.hmm_len, p.2.frame⟩ acc.busco_complete,
        matched_genes_complete := adappend p.1 q acc.matched_genes_complete } := by
  simp only [sort_matches_step, zeta_of]
  simp only [zeta_of] at hz
  rw [if_pos hz]

theorem sort_matches_step_vlarge (cut : CutoffRecord) (q : String) (acc : SortAcc)
    (p : String × GeneRecord) (hz : zeta_of cut p.2.hmm_len < -2) :
    sort_matches_step cut q acc p =
      { acc with
        busco_vlarge :=
          adappend p.1 ⟨p.2.score, p.2.hmm_len, p.2.frame⟩ acc.busco_vlarge,
        matched_genes_vlarge := adappend p.1 q acc.matched_genes_vlarge } := by
  have hn1 : ¬(-2 ≤ zeta_of cut p.2.hmm_len ∧ zeta_of cut p.2.hmm_len ≤ 2) := by
    intro hc
    linarith [hc.1]
  simp only [sort_matches_step, zeta_of]
  simp only [zeta_of] at hn1 hz
  rw [if_neg hn1, if_pos hz]

theorem sort_matches_step_fragment (cut : CutoffRecord) (q : String) (acc : SortAcc)
    (p : String × GeneRecord) (hz : 2 < zeta_of cut p.2.hmm_len) :
    sort_matches_step cut q acc p =
      { acc with
        busco_fragment :=
          adappend p.1 ⟨p.2.score, p.2.hmm_len, p.2.frame⟩ acc.busco_fragment,
        matched_genes_fragment := adappend p.1 q acc.matched_genes_fragment } := by
  have hn1 : ¬(-2 ≤ zeta_of cut p.2.hmm_len ∧ zeta_of cut p.2.hmm_len ≤ 2) := by
    intro hc
    linarith [hc.2]
  have hn2 : ¬(zeta_of cut p.2.hmm_len < -2) := by linarith
  simp only [sort_matches_step, zeta_of]
  simp only [zeta_of] at hn1 hn2
  rw [if_neg hn1, if_neg hn2]

theorem sort_matches_fold_frame (cut : CutoffRecord) (q : String)
    (input : List (String × GeneRecord)) (g : String)
    (h : g ∉ keysOf input) (acc : SortAcc) :
    alookup g (input.foldl (sort_matches_step cut q) acc).busco_complete =
      alookup g acc.busco_complete ∧
    alookup g (input.foldl (sort_matches_step cut q) acc).busco_vlarge =
      alookup g acc.busco_vlarge ∧
    alookup g (input.foldl (sort_matches_step cut q) acc).busco_fragment =
      alookup g acc.busco_fragment ∧
    alookup g (input.foldl (sort_matches_step cut q) acc).matched_genes_complete =
      alookup g acc.matched_genes_complete ∧
    alookup g (input.foldl (sort_matches_step cut q) acc).matched_genes_vlarge =
      alookup g acc.matched_genes_vlarge ∧
    alookup g (input.foldl (sort_matches_step cut q) acc).matched_genes_fragment =
      alookup g acc.matched_genes_fragment := by
  induction input generalizing acc with
  | nil => exact ⟨rfl, rfl, rfl, rfl, rfl, rfl⟩
  | cons p t ih =>
    simp only [keysOf, List.map_cons, List.mem_cons, not_or] at h
    have hstep := sort_matches_step_ne cut q acc p h.1
    have ht := ih (by
      intro hm
      exact h.2 hm) (sort_matches_step cut q acc p)
    rw [List.foldl_cons]
    exact ⟨ht.1.trans hstep.1, ht.2.1.trans hstep.2.1, ht.2.2.1.trans hstep.2.2.1,
      ht.2.2.2.1.trans hstep.2.2.2.1, ht.2.2.2.2.1.trans hstep.2.2.2.2.1,
      ht.2.2.2.2.2.trans hstep.2.2.2.2.2⟩

/-- C2, general form over an arbitrary accumulator. -/
theorem sort_matches_fold_char (cut : CutoffRecord) (q : String)
    (input : List (String × GeneRecord)) (g : String) (r : GeneRecord)
    (hnd : (keysOf input).Nodup) (hmem : (g, r) ∈ input) (acc : SortAcc) :
    (-2 ≤ zeta_of cut r.hmm_len ∧ zeta_of cut r.hmm_len ≤ 2 →
      alookup g (input.foldl (sort_matches_step cut q) acc).busco_complete =
        some ((alookup g acc.busco_complete).getD [] ++
          [⟨r.score, r.hmm_len, r.frame⟩]) ∧
      alookup g (input.foldl (sort_matches_step cut q) acc).busco_vlarge =
        alookup g acc.busco_vlarge ∧
      alookup g (input.foldl (sort_matches_step cut q) acc).busco_fragment =
        alookup g acc.busco_fragment ∧
      alookup g (input.foldl (sort_matches_step cut q) acc).matched_genes_complete =
        some ((alookup g acc.matched_genes_complete).getD [] ++ [q]) ∧
      alookup g (input.foldl (sort_matches_step cut q) acc).matched_genes_vlarge =
        alookup g acc.matched_genes_vlarge ∧
      alookup g (input.foldl (sort_matches_step cut q) acc).matched_genes_fragment =
        alookup g acc.matched_genes_fragment) ∧
    (zeta_of cut r.hmm_len < -2 →
      alookup g (input.foldl (sort_matches_step cut q) acc).busco_vlarge =
        some ((alookup g acc.busco_vlarge).getD [] ++
          [⟨r.score, r.hmm_len, r.frame⟩]) ∧
      alookup g (input.foldl (sort_matches_step cut q) acc).busco_complete =
        alookup g acc.busco_complete ∧
      alookup g (input.foldl (sort_matches_step cut q) acc).busco_fragment =
        alookup g acc.busco_fragment ∧
      alookup g (input.foldl (sort_matches_step cut q) acc).matched_genes_vlarge =
        some ((alookup g acc.matched_genes_vlarge).getD [] ++ [q]) ∧
      alookup g (input.foldl (sort_matches_step cut q) acc).matched_genes_complete =
        alookup g acc.matched_genes_complete ∧
      alookup g (input.foldl (sort_matches_step cut q) acc).matched_genes_fragment =
        alookup g acc.matched_genes_fragment) ∧
    (2 < zeta_of cut r.hmm_len →
      alookup g (input.foldl (sort_matches_step cut q) acc).busco_fragment =
        some ((alookup g acc.busco_fragment).getD [] ++
          [⟨r.score, r.hmm_len, r.frame⟩]) ∧
      alookup g (input.foldl (sort_matches_step cut q) acc).busco_complete =
        alookup g acc.busco_complete ∧
      alookup g (input.foldl (sort_matches_step cut q) acc).busco_vlarge =
        alookup g acc.busco_vlarge ∧
      alookup g (input.foldl (sort_matches_step cut q) acc).matched_genes_fragment =
        some ((alookup g acc.matched_genes_fragment).getD [] ++ [q]) ∧
      alookup g (input.foldl (sort_matches_step cut q) acc).matched_genes_complete =
        alookup g acc.matched_genes_complete ∧
      alookup g (input.foldl (sort_matches_step cut q) acc).matched_genes_vlarge =
        alookup g acc.matched_genes_vlarge) := by
  induction input generalizing acc with
  | nil => simp at hmem
  | cons p t ih =>
    simp only [keysOf, List.map_cons, List.nodup_cons] at hnd
    rcases List.mem_cons.mp hmem with hhead | htail
    · -- the head is (g, r); the rest of the fold does not touch g
      have hp2 : p = (g, r) := hhead.symm
      subst hp2
      have hgt : g ∉ keysOf t := hnd.1
      rw [List.foldl_cons]
      refine ⟨?_, ?_, ?_⟩
      · intro hz
        rw [sort_matches_step_complete cut q acc (g, r) hz]
        have hframe := sort_matches_fold_frame cut q t g hgt
          { acc with
            busco_complete := adappend g ⟨r.score, r.hmm_len, r.frame⟩ acc.busco_complete,
            matched_genes_complete := adappend g q acc.matched_genes_complete }
        exact ⟨hframe.1.trans alookup_adappend_self, hframe.2.1, hframe.2.2.1,
          hframe.2.2.2.1.trans alookup_adappend_self, hframe.2.2.2.2.1,
          hframe.2.2.2.2.2⟩
      · intro hz
        rw [sort_matches_step_vlarge cut q acc (g, r) hz]
        have hframe := sort_matches_fold_frame cut q t g hgt
          { acc with
            busco_vlarge := adappend g ⟨r.score, r.hmm_len, r.frame⟩ acc.busco_vlarge,
            matched_genes_vlarge := adappend g q acc.matched_genes_vlarge }
        exact ⟨hframe.2.1.trans alookup_adappend_self, hframe.1, hframe.2.2.1,
          hframe.2.2.2.2.1.trans alookup_adappend_self, hframe.2.2.2.1,
          hframe.2.2.2.2.2⟩
      · intro hz
        rw [sort_matches_step_fragment cut q acc (g, r) hz]
        have hframe := sort_matches_fold_frame cut q t g hgt
          { acc with
            busco_fragment := adappend g ⟨r.score, r.hmm_len, r.frame⟩ acc.busco_fragment,
            matched_genes_fragment := adappend g q acc.matched_genes_fragment }
        exact ⟨hframe.2.2.1.trans alookup_adappend_self, hframe.1, hframe.2.1,
          hframe.2.2.2.2.2.trans alookup_adappend_self, hframe.2.2.2.1,
          hframe.2.2.2.2.1⟩
    · -- (g, r) is in the tail; the head key differs from g
      have hgp : g ≠ p.1 := by
        intro hc
        exact hnd.1 (hc ▸ List.mem_map.mpr ⟨(g, r), htail, rfl⟩)
      have hstep := sort_matches_step_ne cut q acc p hgp
      have hrec := ih hnd.2 htail (sort_matches_step cut q acc p)
      rw [List.foldl_cons]
      refine ⟨?_, ?_, ?_⟩
      · intro hz
        have h0 := hrec.1 hz
        exact ⟨hstep.1 ▸ h0.1, h0.2.1.trans hstep.2.1, h0.2.2.1.trans hstep.2.2.1,
          hstep.2.2.2.1 ▸ h0.2.2.2.1, h0.2.2.2.2.1.trans hstep.2.2.2.2.1,
          h0.2.2.2.2.2.trans hstep.2.2.2.2.2⟩
      · intro hz
        have h0 := hrec.2.1 hz
        exact ⟨hstep.2.1 ▸ h0.1, h0.2.1.trans hstep.1, h0.2.2.1.trans hstep.2.2.1,
          hstep.2.2.2.2.1 ▸ h0.2.2.2.1, h0.2.2.2.2.1.trans hstep.2.2.2.1,
          h0.2.2.2.2.2.trans hstep.2.2.2.2.2⟩
      · intro hz
        have h0 := hrec.2.2 hz
        exact ⟨hstep.2.2.1 ▸ h0.1, h0.2.1.trans hstep.1, h0.2.2.1.trans hstep.2.1,
          hstep.2.2.2.2.2 ▸ h0.2.2.2.1, h0.2.2.2.2.1.trans hstep.2.2.2.1,
          h0.2.2.2.2.2.trans hstep.2.2.2.2.1⟩

/-- C2: for every SCO and gene hit surviving the score cutoff, with
size = hmm_len the classifier computes ζ = (length_cutoff − size)/sigma
and appends the hit record to the complete map iff −2 ≤ ζ ≤ 2, to the
very-large map iff ζ < −2 and to the fragmented map iff ζ > 2; the
inverse index of the same rank is updated in the same step and the
other two rank maps and inverse indices are untouched at that gene. -/
theorem c2_sort_matches_classification (cut : CutoffRecord) (busco_query : String)
    (matched_record : List (String × GeneRecord)) (mc mv mf : MatchedGenes)
    (g : String) (r : GeneRecord)
    (hnd : (keysOf matched_record).Nodup) (hmem : (g, r) ∈ matched_record) :
    (-2 ≤ zeta_of cut r.hmm_len ∧ zeta_of cut r.hmm_len ≤ 2 →
      alookup g (sort_matches cut busco_query matched_record mc mv mf).busco_complete =
        some [⟨r.score, r.hmm_len, r.frame⟩] ∧
      alookup g (sort_matches cut busco_query matched_record mc mv mf).busco_vlarge = none ∧
      alookup g (sort_matches cut busco_query matched_record mc mv mf).busco_fragment = none ∧
      alookup g (sort_matches cut busco_query matched_record mc mv mf).matched_genes_complete =
        some ((alookup g mc).getD [] ++ [busco_query]) ∧
      alookup g (sort_matches cut busco_query matched_record mc mv mf).matched_genes_vlarge =
        alookup g mv ∧
      alookup g (sort_matches cut busco_query matched_record mc mv mf).matched_genes_fragment =
        alookup g mf) ∧
    (zeta_of cut r.hmm_len < -2 →
      alookup g (sort_matches cut busco_query matched_record mc mv mf).busco_vlarge =
        some [⟨r.score, r.hmm_len, r.frame⟩] ∧
      alookup g (sort_matches cut busco_query matched_record mc mv mf).busco_complete = none ∧
      alookup g (sort_matches cut busco_query matched_record mc mv mf).busco_fragment = none ∧
      alookup g (sort_matches cut busco_query matched_record mc mv mf).matched_genes_vlarge =
        some ((alookup g mv).getD [] ++ [busco_query]) ∧
      alookup g (sort_matches cut busco_query matched_record mc mv mf).matched_genes_complete =
        alookup g mc ∧
      alookup g (sort_matches cut busco_query matched_record mc mv mf).matched_genes_fragment =
        alookup g mf) ∧
    (2 < zeta_of cut r.hmm_len →
      alookup g (sort_matches cut busco_query matched_record mc mv mf).busco_fragment =
        some [⟨r.score, r.hmm_len, r.frame⟩] ∧
      alookup g (sort_matches cut busco_query matched_record mc mv mf).busco_complete = none ∧
      alookup g (sort_matches cut busco_query matched_record mc mv mf).busco_vlarge = none ∧
      alookup g (sort_matches cut busco_query matched_record mc mv mf).matched_genes_fragment =
        some ((alookup g mf).getD [] ++ [busco_query]) ∧
      alookup g (sort_matches cut busco_query matched_record mc mv mf).matched_genes_complete =
        alookup g mc ∧
      alookup g (sort_matches cut busco_query matched_record mc mv mf).matched_genes_vlarge =
        alookup g mv) := by
  have h := sort_matches_fold_char cut busco_query matched_record g r hnd hmem
    { busco_complete := [], busco_vlarge := [], busco_fragment := [],
      matched_genes_complete := mc, matched_genes_vlarge := mv,
      matched_genes_fragment := mf }
  unfold sort_matches
  refine ⟨fun hz => ?_, fun hz => ?_, fun hz => ?_⟩
  · have h0 := h.1 hz
    simpa [alookup] using h0
  · have h0 := h.2.1 hz
    simpa [alookup] using h0
  · have h0 := h.2.2 hz
    simpa [alookup] using h0

/-- Witness for C2 at a concrete complete-rank hit:
σ = 1, length cutoff 100, hmm_len 99 gives ζ = 1. -/
theorem c2_sort_matches_classification_witness :
    alookup "g1" (sort_matches ⟨1, 100, 50⟩ "10at2759"
        [("g1", ⟨300, 99, [], 200, none⟩)] [] [] []).busco_complete =
      some [⟨200, 99, none⟩] ∧
    alookup "g1" (sort_matches ⟨1, 100, 50⟩ "10at2759"
        [("g1", ⟨300, 99, [], 200, none⟩)] [] [] []).matched_genes_complete =
      some ["10at2759"] := by
  have h := (c2_sort_matches_classification ⟨1, 100, 50⟩ "10at2759"
      [("g1", ⟨300, 99, [], 200, none⟩)] [] [] [] "g1" ⟨300, 99, [], 200, none⟩
      (by decide) (by simp)).1 (by norm_num [zeta_of])
  exact ⟨h.1, by simpa using h.2.2.2.1⟩

/-! ## C7: the exon-walk frame check -/

theorem except_bind_ok (a : α) (f : α → Except ε β) :
    ((Except.ok a : Except ε α) >>= f) = f a := rfl

theorem except_bind_error (e : ε) (f : α → Except ε β) :
    ((Except.error e : Except ε α) >>= f) = Except.error e := rfl

theorem find_unused_step_bad (st : WalkState) (e : ExonRow)
    (h : (e.stop - e.start + 1) % 3 ≠ 0) :
    find_unused_step st e = .error .fractionalFrame := by
  unfold find_unused_step
  exact if_pos h

theorem find_unused_step_good (st : WalkState) (e : ExonRow)
    (h : (e.stop - e.start + 1) % 3 = 0) :
    find_unused_step st e =
      .ok (find_unused_step_body st e (((e.stop - e.start + 1 : ℤ) : ℚ) / 3)) := by
  unfold find_unused_step
  exact if_neg (by simp [h])

theorem walk_fold_char (exons : List ExonRow) :
    ∀ st : WalkState,
      (except_isOk (exons.foldlM find_unused_step st) = true ↔
        ∀ e ∈ exons, (e.stop - e.start + 1) % 3 = 0) ∧
      ((∃ e ∈ exons, (e.stop - e.start + 1) % 3 ≠ 0) →
        exons.foldlM find_unused_step st = .error .fractionalFrame) := by
  induction exons with
  | nil =>
    intro st
    refine ⟨⟨fun _ e he => absurd he (List.not_mem_nil e), fun _ => rfl⟩, ?_⟩
    rintro ⟨e, he, _⟩
    exact absurd he (List.not_mem_nil e)
  | cons e t ih =>
    intro st
    by_cases hb : (e.stop - e.start + 1) % 3 = 0
    · have hstep := find_unused_step_good st e hb
      have hrec := ih (find_unused_step_body st e (((e.stop - e.start + 1 : ℤ) : ℚ) / 3))
      refine ⟨?_, ?_⟩
      · rw [List.foldlM_cons, hstep, except_bind_ok]
        constructor
        · intro hok e2 hm
          rcases List.mem_cons.mp hm with h1 | h2
          · exact h1 ▸ hb
          · exact (hrec.1.mp hok) e2 h2
        · intro hall
          exact hrec.1.mpr (fun x hx => hall x (List.mem_cons_of_mem _ hx))
      · rintro ⟨e2, hm, hbad⟩
        rcases List.mem_cons.mp hm with h1 | h2
        · exact absurd (h1 ▸ hb) hbad
        · rw [List.foldlM_cons, hstep, except_bind_ok]
          exact hrec.2 ⟨e2, h2, hbad⟩
    · have hstep := find_unused_step_bad st e hb
      refine ⟨?_, ?_⟩
      · rw [List.foldlM_cons, hstep, except_bind_error]
        constructor
        · intro hok
          exact absurd hok (by simp [except_isOk])
        · intro hall
          exact absurd (hall e (List.mem_cons_self _ _)) hb
      · intro _
        rw [List.foldlM_cons, hstep, except_bind_error]

theorem find_unused_exons_cons (h0 : ℤ × ℤ) (t0 : List (ℤ × ℤ)) (exons : List ExonRow) :
    find_unused_exons (h0 :: t0) exons =
      (exons.foldlM find_unused_step
        { remaining_hmm_region := 0, env := some (h0, t0), exon_cumul_len := 0,
          used_exons := [], unused_exons := [] }) >>=
        fun st => pure (st.used_exons, st.unused_exons) := rfl

/-- C7: during the exon walk of the reconciler, every processed exon
record with `(high − low + 1)` not divisible by 3 raises the fatal
frame error and the walk aborts; when every record is divisible by 3
that check raises no error and the walk completes. (An empty envelope
list fails before the loop, with the iterator error instead.) -/
theorem c7_exon_walk_frame_check (env_coords : List (ℤ × ℤ)) (exons : List ExonRow)
    (h : env_coords ≠ []) :
    (except_isOk (find_unused_exons env_coords exons) = true ↔
      ∀ e ∈ exons, (e.stop - e.start + 1) % 3 = 0) ∧
    ((∃ e ∈ exons, (e.stop - e.start + 1) % 3 ≠ 0) →
      find_unused_exons env_coords exons = .error .fractionalFrame) := by
  obtain ⟨h0, t0, rfl⟩ : ∃ h0 t0, env_coords = h0 :: t0 := by
    cases env_coords with
    | nil => exact absurd rfl h
    | cons a b => exact ⟨a, b, rfl⟩
  have hc := walk_fold_char exons
    { remaining_hmm_region := 0, env := some (h0, t0), exon_cumul_len := 0,
      used_exons := [], unused_exons := [] }
  refine ⟨?_, ?_⟩
  · rw [find_unused_exons_cons, ← hc.1]
    cases hfold : exons.foldlM find_unused_step
        { remaining_hmm_region := 0, env := some (h0, t0), exon_cumul_len := 0,
          used_exons := [], unused_exons := [] } with
    | error e => rw [except_bind_error]; exact Iff.rfl
    | ok st => rw [except_bind_ok]; exact Iff.rfl
  · intro hbad
    rw [find_unused_exons_cons, hc.2 hbad, except_bind_error]

/-- Witness for C7: a 30-nt exon walks through; a 31-nt exon aborts. -/
theorem c7_exon_walk_frame_check_witness :
    except_isOk (find_unused_exons [(1, 10)]
      [⟨0, "A", "chr", 1, 30, "+", 0, 1, "g"⟩]) = true ∧
    find_unused_exons [(1, 10)] [⟨0, "A", "chr", 1, 31, "+", 0, 1, "g"⟩] =
      .error .fractionalFrame := by
  constructor
  · exact (c7_exon_walk_frame_check [(1, 10)]
      [⟨0, "A", "chr", 1, 30, "+", 0, 1, "g"⟩] (by decide)).1.mpr (by decide)
  · exact (c7_exon_walk_frame_check [(1, 10)]
      [⟨0, "A", "chr", 1, 31, "+", 0, 1, "g"⟩] (by decide)).2
      ⟨_, List.mem_singleton.mpr rfl, by decide⟩

/-! ## C5: fatal and non-fatal missing predictor output -/

/-- C5 counterexample: with the pass-1 outputs present, rerun needed,
and the pass-2 protein file absent (headers present), the orchestrator
outcome is the propagated fatal `NoGenesError` — not the non-fatal
logged fallback the claim describes for a missing pass-2 protein file. -/
theorem c5_counterexample :
    run_analysis_outcome ⟨true, true⟩ ⟨false, true⟩ true =
      RunOutcome.fatal MetaeukExc.noGenesError ∧
    RunOutcome.fatal MetaeukExc.noGenesError ≠ RunOutcome.loggedNoGenesOnRerun := by
  exact ⟨rfl, by intro h; cases h⟩

/-- C5 amended: a missing protein file aborts the run fatally after
either pass (`NoGenesError` is not caught by the loop, which catches
only `NoRerunFile`); the non-fatal path — treat pass 2 as empty, log
"no genes on rerun" — is taken when the pass-2 *headers* file is absent
while the protein-file check passed, and the same condition after pass 1
is the fatal "did not find any genes" error; the combined-output
fallback selects the pass-1 modified protein file when the rerun file is
missing. -/
theorem c5_missing_protein_fatal (hb : Bool) (p2 : PassFiles) (inc : Bool) :
    run_analysis_outcome ⟨false, hb⟩ p2 inc = RunOutcome.fatal MetaeukExc.noGenesError ∧
    run_analysis_outcome ⟨true, true⟩ ⟨false, hb⟩ true =
      RunOutcome.fatal MetaeukExc.noGenesError ∧
    run_analysis_outcome ⟨true, true⟩ ⟨true, false⟩ true =
      RunOutcome.loggedNoGenesOnRerun ∧
    run_analysis_outcome ⟨true, false⟩ p2 inc = RunOutcome.fatalNoGenes ∧
    combined_protein_choice false "combined_pred_proteins.fas" "pass1.modified.fas" =
      "pass1.modified.fas" := by
  exact ⟨rfl, rfl, rfl, rfl, rfl⟩

/-! ## C10: pass-2 configuration carries the higher ranks over and reads
only rerun output -/

/-- C10: configuring the profile-search processor for the second pass
clears the fragmented rank map and its inverse index while leaving the
complete and very-large maps and their inverse indices untouched, and
loading matches on run 2 selects only the rerun output files. -/
theorem c10_pass2_carryover (st : HmmerState) (initial_files rerun_files : List String) :
    (hmmer_configure_runner st).is_complete = st.is_complete ∧
    (hmmer_configure_runner st).is_very_large = st.is_very_large ∧
    (hmmer_configure_runner st).matched_genes_complete = st.matched_genes_complete ∧
    (hmmer_configure_runner st).matched_genes_vlarge = st.matched_genes_vlarge ∧
    (hmmer_configure_runner st).is_fragment = [] ∧
    (hmmer_configure_runner st).matched_genes_fragment = [] ∧
    load_results_files 2 initial_files rerun_files =
      some ((rerun_files.filter (fun f => !(f.startsWith "."))).mergeSort (fun a b => a ≤ b)) ∧
    (∀ f ∈ (load_results_files 2 initial_files rerun_files).getD [], f ∈ rerun_files) := by
  refine ⟨rfl, rfl, rfl, rfl, rfl, rfl, rfl, ?_⟩
  intro f hf
  have hf2 : f ∈ (rerun_files.filter (fun f => !(f.startsWith "."))).mergeSort
      (fun a b => a ≤ b) := by
    simpa [load_results_files] using hf
  rw [List.mem_mergeSort] at hf2
  exact List.mem_of_mem_filter hf2

/-! ## C6: header parsing with pipe-containing sequence ids -/

theorem findIdx?_cons_pos {p : α → Bool} {a : α} (l : List α) (h : p a = true) :
    (a :: l).findIdx? p = some 0 := by
  simp [List.findIdx?_cons, h]

theorem findIdx?_cons_neg {p : α → Bool} {a : α} (l : List α) (h : p a = false) :
    (a :: l).findIdx? p = (l.findIdx? p).map (· + 1) := by
  simp [List.findIdx?_cons, h]

/-- Two-component `C_acc`, plus-strand anchor. -/
theorem parse_header_two_component_plus (t c1 c2 sb se sn slo shi : String)
    (exs : List String) (b e : ℚ) (n lo hi : ℤ) (es : List (ℤ × ℤ × ℤ × ℤ × ℤ × ℤ))
    (ht : t ≠ "+") (hc1 : c1 ≠ "+") (hc2p : c2 ≠ "+") (hc2m : c2 ≠ "-")
    (hb : parseRat sb = some b) (he : parseRat se = some e)
    (hn : parseInt sn = some n) (hlo : parseInt slo = some lo) (hhi : parseInt shi = some hi)
    (hexs : exs.mapM (parse_exon "+") = some es) :
    parse_header_from_parts (t :: c1 :: c2 :: "+" :: sb :: se :: sn :: slo :: shi :: exs) =
      some { T_acc := t, C_acc := String.intercalate "|" [c1, c2], S := "+",
             bitscore := b, e_value := e, num_exons := n, low_coord := lo, high_coord := hi,
             all_low_exon_coords := es.map (fun x => x.1),
             all_taken_low_exon_coords := es.map (fun x => x.2.1),
             all_high_exon_coords := es.map (fun x => x.2.2.1),
             all_taken_high_exon_coords := es.map (fun x => x.2.2.2.1),
             all_exon_nucl_len := es.map (fun x => x.2.2.2.2.1),
             all_taken_exon_nucl_len := es.map (fun x => x.2.2.2.2.2),
             gene_id := String.intercalate "|" [c1, c2] ++ ":" ++ toString lo ++ "-" ++
               toString hi } := by
  have hcond : ¬(List.getD (t :: c1 :: c2 :: "+" :: sb :: se :: sn :: slo :: shi :: exs) 2 ""
        = "+" ∨
      List.getD (t :: c1 :: c2 :: "+" :: sb :: se :: sn :: slo :: shi :: exs) 2 "" = "-") := by
    simp [List.getD_cons_succ, List.getD_cons_zero, hc2p, hc2m]
  have hfind : (t :: c1 :: c2 :: "+" :: sb :: se :: sn :: slo :: shi :: exs).findIdx?
      (fun x => x = "+") = some 3 := by
    rw [findIdx?_cons_neg _ (by simp [ht]), findIdx?_cons_neg _ (by simp [hc1]),
      findIdx?_cons_neg _ (by simp [hc2p]), findIdx?_cons_pos _ (by simp)]
    rfl
  have hfix : fix_header_parts (t :: c1 :: c2 :: "+" :: sb :: se :: sn :: slo :: shi :: exs) =
      some (t :: (String.intercalate "|" [c1, c2]) :: "+" :: sb :: se :: sn :: slo :: shi ::
        exs) := by
    unfold fix_header_parts
    rw [if_neg hcond, hfind]
    rfl
  unfold parse_header_from_parts
  rw [hfix]
  simp only [Option.bind_eq_bind, Option.some_bind, List.getD_cons_succ, List.getD_cons_zero]
  rw [hb]
  simp only [Option.some_bind]
  rw [he]
  simp only [Option.some_bind]
  rw [hn]
  simp only [Option.some_bind]
  rw [hlo]
  simp only [Option.some_bind]
  rw [hhi]
  simp only [Option.some_bind]
  have hdrop : (t :: (String.intercalate "|" [c1, c2]) :: "+" :: sb :: se :: sn :: slo ::
      shi :: exs).drop 8 = exs := rfl
  rw [hdrop, hexs]
  simp only [Option.some_bind]

/-- Two-component `C_acc`, minus-strand anchor (no `"+"` field exists). -/
theorem parse_header_two_component_minus (t c1 c2 sb se sn slo shi : String)
    (exs : List String) (b e : ℚ) (n lo hi : ℤ) (es : List (ℤ × ℤ × ℤ × ℤ × ℤ × ℤ))
    (hplus : "+" ∉ (t :: c1 :: c2 :: "-" :: sb :: se :: sn :: slo :: shi :: exs))
    (ht : t ≠ "-") (hc1 : c1 ≠ "-") (hc2m : c2 ≠ "-")
    (hb : parseRat sb = some b) (he : parseRat se = some e)
    (hn : parseInt sn = some n) (hlo : parseInt slo = some lo) (hhi : parseInt shi = some hi)
    (hexs : exs.mapM (parse_exon "-") = some es) :
    parse_header_from_parts (t :: c1 :: c2 :: "-" :: sb :: se :: sn :: slo :: shi :: exs) =
      some { T_acc := t, C_acc := String.intercalate "|" [c1, c2], S := "-",
             bitscore := b, e_value := e, num_exons := n, low_coord := lo, high_coord := hi,
             all_low_exon_coords := es.map (fun x => x.1),
             all_taken_low_exon_coords := es.map (fun x => x.2.1),
             all_high_exon_coords := es.map (fun x => x.2.2.1),
             all_taken_high_exon_coords := es.map (fun x => x.2.2.2.1),
             all_exon_nucl_len := es.map (fun x => x.2.2.2.2.1),
             all_taken_exon_nucl_len := es.map (fun x => x.2.2.2.2.2),
             gene_id := String.intercalate "|" [c1, c2] ++ ":" ++ toString lo ++ "-" ++
               toString hi } := by
  have hc2p : c2 ≠ "+" := by
    intro hc
    exact hplus (by rw [← hc]; exact List.mem_cons_of_mem _ (List.mem_cons_of_mem _
      (List.mem_cons_self _ _)))
  have hcond : ¬(List.getD (t :: c1 :: c2 :: "-" :: sb :: se :: sn :: slo :: shi :: exs) 2 ""
        = "+" ∨
      List.getD (t :: c1 :: c2 :: "-" :: sb :: se :: sn :: slo :: shi :: exs) 2 "" = "-") := by
    simp [List.getD_cons_succ, List.getD_cons_zero, hc2p, hc2m]
  have hnone : (t :: c1 :: c2 :: "-" :: sb :: se :: sn :: slo :: shi :: exs).findIdx?
      (fun x => x = "+") = none := by
    rw [List.findIdx?_eq_none_iff]
    intro x hx
    simp only [decide_eq_false_iff_not]
    intro hc
    exact hplus (hc ▸ hx)
  have hfind : (t :: c1 :: c2 :: "-" :: sb :: se :: sn :: slo :: shi :: exs).findIdx?
      (fun x => x = "-") = some 3 := by
    rw [findIdx?_cons_neg _ (by simp [ht]), findIdx?_cons_neg _ (by simp [hc1]),
      findIdx?_cons_neg _ (by simp [hc2m]), findIdx?_cons_pos _ (by simp)]
    rfl
  have hfix : fix_header_parts (t :: c1 :: c2 :: "-" :: sb :: se :: sn :: slo :: shi :: exs) =
      some (t :: (String.intercalate "|" [c1, c2]) :: "-" :: sb :: se :: sn :: slo :: shi ::
        exs) := by
    unfold fix_header_parts
    rw [if_neg hcond, hnone, hfind]
    rfl
  unfold parse_header_from_parts
  rw [hfix]
  simp only [Option.bind_eq_bind, Option.some_bind, List.getD_cons_succ, List.getD_cons_zero]
  rw [hb]
  simp only [Option.some_bind]
  rw [he]
  simp only [Option.some_bind]
  rw [hn]
  simp only [Option.some_bind]
  rw [hlo]
  simp only [Option.some_bind]
  rw [hhi]
  simp only [Option.some_bind]
  have hdrop : (t :: (String.intercalate "|" [c1, c2]) :: "-" :: sb :: se :: sn :: slo ::
      shi :: exs).drop 8 = exs := rfl
  rw [hdrop, hexs]
  simp only [Option.some_bind]

/-- Three-component `C_acc`, plus-strand anchor: the pop loop mis-shifts
and the strand field receives the last `C_acc` component `c3`; all other
scalar fields and the gene id still parse from the right positions. -/
theorem parse_header_three_component_plus (t c1 c2 c3 sb se sn slo shi : String)
    (exs : List String) (b e : ℚ) (n lo hi : ℤ) (es : List (ℤ × ℤ × ℤ × ℤ × ℤ × ℤ))
    (ht : t ≠ "+") (hc1 : c1 ≠ "+") (hc2p : c2 ≠ "+") (hc2m : c2 ≠ "-") (hc3 : c3 ≠ "+")
    (hb : parseRat sb = some b) (he : parseRat se = some e)
    (hn : parseInt sn = some n) (hlo : parseInt slo = some lo) (hhi : parseInt shi = some hi)
    (hexs : exs.mapM (parse_exon c3) = some es) :
    parse_header_from_parts
        (t :: c1 :: c2 :: c3 :: "+" :: sb :: se :: sn :: slo :: shi :: exs) =
      some { T_acc := t, C_acc := String.intercalate "|" [c1, c2, c3], S := c3,
             bitscore := b, e_value := e, num_exons := n, low_coord := lo, high_coord := hi,
             all_low_exon_coords := es.map (fun x => x.1),
             all_taken_low_exon_coords := es.map (fun x => x.2.1),
             all_high_exon_coords := es.map (fun x => x.2.2.1),
             all_taken_high_exon_coords := es.map (fun x => x.2.2.2.1),
             all_exon_nucl_len := es.map (fun x => x.2.2.2.2.1),
             all_taken_exon_nucl_len := es.map (fun x => x.2.2.2.2.2),
             gene_id := String.intercalate "|" [c1, c2, c3] ++ ":" ++ toString lo ++ "-" ++
               toString hi } := by
  have hcond : ¬(List.getD (t :: c1 :: c2 :: c3 :: "+" :: sb :: se :: sn :: slo :: shi :: exs)
        2 "" = "+" ∨
      List.getD (t :: c1 :: c2 :: c3 :: "+" :: sb :: se :: sn :: slo :: shi :: exs) 2 ""
        = "-") := by
    simp [List.getD_cons_succ, List.getD_cons_zero, hc2p, hc2m]
  have hfind : (t :: c1 :: c2 :: c3 :: "+" :: sb :: se :: sn :: slo :: shi :: exs).findIdx?
      (fun x => x = "+") = some 4 := by
    rw [findIdx?_cons_neg _ (by simp [ht]), findIdx?_cons_neg _ (by simp [hc1]),
      findIdx?_cons_neg _ (by simp [hc2p]), findIdx?_cons_neg _ (by simp [hc3]),
      findIdx?_cons_pos _ (by simp)]
    rfl
  have hfix : fix_header_parts
      (t :: c1 :: c2 :: c3 :: "+" :: sb :: se :: sn :: slo :: shi :: exs) =
      some (t :: (String.intercalate "|" [c1, c2, c3]) :: c3 :: sb :: se :: sn :: slo ::
        shi :: exs) := by
    unfold fix_header_parts
    rw [if_neg hcond, hfind]
    rfl
  unfold parse_header_from_parts
  rw [hfix]
  simp only [Option.bind_eq_bind, Option.some_bind, List.getD_cons_succ, List.getD_cons_zero]
  rw [hb]
  simp only [Option.some_bind]
  rw [he]
  simp only [Option.some_bind]
  rw [hn]
  simp only [Option.some_bind]
  rw [hlo]
  simp only [Option.some_bind]
  rw [hhi]
  simp only [Option.some_bind]
  have hdrop : (t :: (String.intercalate "|" [c1, c2, c3]) :: c3 :: sb :: se :: sn :: slo ::
      shi :: exs).drop 8 = exs := rfl
  rw [hdrop, hexs]
  simp only [Option.some_bind]

/-- C6 counterexample: a header whose `C_acc` has three `|`-separated
components. The claim predicts the strand is parsed from the field
following the anchor (`"+"`); the parser instead leaves the last
`C_acc` component in the strand slot. -/
theorem c6_counterexample :
    (parse_header "T|c1|c2|c3|+|11|0.5|0|100|200").map HeaderDetails.S = some "c3" ∧
    "c3" ≠ "+" ∧ "c3" ≠ "-" ∧
    (parse_header "T|c1|c2|c3|+|11|0.5|0|100|200").map HeaderDetails.gene_id =
      some "c1|c2|c3:100-200" := by
  refine ⟨by decide, by decide, by decide, by decide⟩

/-- C6 amended: the anchor is the first field equal to `"+"` when one
exists, otherwise the first field equal to `"-"`; the fields between
position 1 and the anchor are re-joined into `C_acc`. When `C_acc` has
exactly two components, strand, bitscore, e-value, exon count, low and
high parse from the fields following the anchor and
`gene_id = C_acc:low-high`, as the claim states. When `C_acc` has three
components, the index-shifting pop loop leaves the last component in
the strand slot (bitscore through high and `gene_id` still parse
correctly). -/
theorem c6_header_anchor_parse :
    (∀ (t c1 c2 sb se sn slo shi : String) (exs : List String) (b e : ℚ) (n lo hi : ℤ)
      (es : List (ℤ × ℤ × ℤ × ℤ × ℤ × ℤ)),
      t ≠ "+" → c1 ≠ "+" → c2 ≠ "+" → c2 ≠ "-" →
      parseRat sb = some b → parseRat se = some e → parseInt sn = some n →
      parseInt slo = some lo → parseInt shi = some hi →
      exs.mapM (parse_exon "+") = some es →
      parse_header_from_parts (t :: c1 :: c2 :: "+" :: sb :: se :: sn :: slo :: shi :: exs) =
        some { T_acc := t, C_acc := String.intercalate "|" [c1, c2], S := "+",
               bitscore := b, e_value := e, num_exons := n, low_coord := lo, high_coord := hi,
               all_low_exon_coords := es.map (fun x => x.1),
               all_taken_low_exon_coords := es.map (fun x => x.2.1),
               all_high_exon_coords := es.map (fun x => x.2.2.1),
               all_taken_high_exon_coords := es.map (fun x => x.2.2.2.1),
               all_exon_nucl_len := es.map (fun x => x.2.2.2.2.1),
               all_taken_exon_nucl_len := es.map (fun x => x.2.2.2.2.2),
               gene_id := String.intercalate "|" [c1, c2] ++ ":" ++ toString lo ++ "-" ++
                 toString hi }) ∧
    (∀ (t c1 c2 sb se sn slo shi : String) (exs : List String) (b e : ℚ) (n lo hi : ℤ)
      (es : List (ℤ × ℤ × ℤ × ℤ × ℤ × ℤ)),
      "+" ∉ (t :: c1 :: c2 :: "-" :: sb :: se :: sn :: slo :: shi :: exs) →
      t ≠ "-" → c1 ≠ "-" → c2 ≠ "-" →
      parseRat sb = some b → parseRat se = some e → parseInt sn = some n →
      parseInt slo = some lo → parseInt shi = some hi →
      exs.mapM (parse_exon "-") = some es →
      parse_header_from_parts (t :: c1 :: c2 :: "-" :: sb :: se :: sn :: slo :: shi :: exs) =
        some { T_acc := t, C_acc := String.intercalate "|" [c1, c2], S := "-",
               bitscore := b, e_value := e, num_exons := n, low_coord := lo, high_coord := hi,
               all_low_exon_coords := es.map (fun x => x.1),
               all_taken_low_exon_coords := es.map (fun x => x.2.1),
               all_high_exon_coords := es.map (fun x => x.2.2.1),
               all_taken_high_exon_coords := es.map (fun x => x.2.2.2.1),
               all_exon_nucl_len := es.map (fun x => x.2.2.2.2.1),
               all_taken_exon_nucl_len := es.map (fun x => x.2.2.2.2.2),
               gene_id := String.intercalate "|" [c1, c2] ++ ":" ++ toString lo ++ "-" ++
                 toString hi }) ∧
    (∀ (t c1 c2 c3 sb se sn slo shi : String) (exs : List String) (b e : ℚ) (n lo hi : ℤ)
      (es : List (ℤ × ℤ × ℤ × ℤ × ℤ × ℤ)),
      t ≠ "+" → c1 ≠ "+" → c2 ≠ "+" → c2 ≠ "-" → c3 ≠ "+" →
      parseRat sb = some b → parseRat se = some e → parseInt sn = some n →
      parseInt slo = some lo → parseInt shi = some hi →
      exs.mapM (parse_exon c3) = some es →
      parse_header_from_parts
          (t :: c1 :: c2 :: c3 :: "+" :: sb :: se :: sn :: slo :: shi :: exs) =
        some { T_acc := t, C_acc := String.intercalate "|" [c1, c2, c3], S := c3,
               bitscore := b, e_value := e, num_exons := n, low_coord := lo, high_coord := hi,
               all_low_exon_coords := es.map (fun x => x.1),
               all_taken_low_exon_coords := es.map (fun x => x.2.1),
               all_high_exon_coords := es.map (fun x => x.2.2.1),
               all_taken_high_exon_coords := es.map (fun x => x.2.2.2.1),
               all_exon_nucl_len := es.map (fun x => x.2.2.2.2.1),
               all_taken_exon_nucl_len := es.map (fun x => x.2.2.2.2.2),
               gene_id := String.intercalate "|" [c1, c2, c3] ++ ":" ++ toString lo ++ "-" ++
                 toString hi }) := by
  refine ⟨?_, ?_, ?_⟩
  · intro t c1 c2 sb se sn slo shi exs b e n lo hi es h1 h2 h3 h4 h5 h6 h7 h8 h9 h10
    exact parse_header_two_component_plus t c1 c2 sb se sn slo shi exs b e n lo hi es
      h1 h2 h3 h4 h5 h6 h7 h8 h9 h10
  · intro t c1 c2 sb se sn slo shi exs b e n lo hi es h1 h2 h3 h4 h5 h6 h7 h8 h9 h10
    exact parse_header_two_component_minus t c1 c2 sb se sn slo shi exs b e n lo hi es
      h1 h2 h3 h4 h5 h6 h7 h8 h9 h10
  · intro t c1 c2 c3 sb se sn slo shi exs b e n lo hi es h1 h2 h3 h4 h5 h6 h7 h8 h9 h10 h11
    exact parse_header_three_component_plus t c1 c2 c3 sb se sn slo shi exs b e n lo hi es
      h1 h2 h3 h4 h5 h6 h7 h8 h9 h10 h11

/-- Witness for C6 at a concrete two-component plus-strand header with
one exon field. -/
theorem c6_header_anchor_parse_witness :
    parse_header_from_parts
        ["T", "c1", "c2", "+", "11", "7", "1", "100", "200", "100[100]:141[141]:42[42]"] =
      some { T_acc := "T", C_acc := String.intercalate "|" ["c1", "c2"], S := "+",
             bitscore := 11, e_value := 7, num_exons := 1, low_coord := 100,
             high_coord := 200,
             all_low_exon_coords := [((100 : ℤ), (100 : ℤ), (141 : ℤ), (141 : ℤ), (42 : ℤ),
               (42 : ℤ))].map (fun x => x.1),
             all_taken_low_exon_coords := [((100 : ℤ), (100 : ℤ), (141 : ℤ), (141 : ℤ),
               (42 : ℤ), (42 : ℤ))].map (fun x => x.2.1),
             all_high_exon_coords := [((100 : ℤ), (100 : ℤ), (141 : ℤ), (141 : ℤ), (42 : ℤ),
               (42 : ℤ))].map (fun x => x.2.2.1),
             all_taken_high_exon_coords := [((100 : ℤ), (100 : ℤ), (141 : ℤ), (141 : ℤ),
               (42 : ℤ), (42 : ℤ))].map (fun x => x.2.2.2.1),
             all_exon_nucl_len := [((100 : ℤ), (100 : ℤ), (141 : ℤ), (141 : ℤ), (42 : ℤ),
               (42 : ℤ))].map (fun x => x.2.2.2.2.1),
             all_taken_exon_nucl_len := [((100 : ℤ), (100 : ℤ), (141 : ℤ), (141 : ℤ),
               (42 : ℤ), (42 : ℤ))].map (fun x => x.2.2.2.2.2),
             gene_id := String.intercalate "|" ["c1", "c2"] ++ ":" ++ toString (100 : ℤ) ++
               "-" ++ toString (200 : ℤ) } :=
  c6_header_anchor_parse.1 "T" "c1" "c2" "11" "7" "1" "100" "200"
    ["100[100]:141[141]:42[42]"] 11 7 1 100 200 [(100, 100, 141, 141, 42, 42)]
    (by decide) (by decide) (by decide) (by decide) rfl rfl rfl rfl rfl rfl

/-! ## C9: the pass-2 `-s 6` flag -/

theorem parse_parameters_go_s_set (chunks : List String) :
    ∀ (mp : MetaeukParams) (ks vs : List String),
      (parse_parameters_go mp ks vs chunks).1.s_set =
        (mp.s_set ||
          (chunks.takeWhile (fun kv => (chunk_key_vals kv).length = 2)).any
            (fun kv => chunk_key_vals kv = ["s", ((chunk_key_vals kv).getD 1 "")])) := by
  induction chunks with
  | nil =>
    intro mp ks vs
    simp [parse_parameters_go]
  | cons kv rest ih =>
    intro mp ks vs
    cases hsplit : chunk_key_vals kv with
    | nil =>
      simp [parse_parameters_go, hsplit]
    | cons a tl =>
      cases tl with
      | nil =>
        simp [parse_parameters_go, hsplit]
      | cons b tl2 =>
        cases tl2 with
        | nil =>
          -- well-formed pair [a, b]
          have hwf : ((chunk_key_vals kv).length = 2) := by rw [hsplit]; rfl
          simp only [parse_parameters_go, hsplit]
          by_cases hacc : a ∈ ACCEPTED_PARAMETERS
          · rw [if_pos hacc]
            by_cases h1 : a = "min-exon-aa"
            · rw [if_pos h1, ih]
              simp [List.takeWhile_cons, hsplit, h1]
            · rw [if_neg h1]
              by_cases h2 : a = "max-intron"
              · rw [if_pos h2, ih]
                simp [List.takeWhile_cons, hsplit, h2]
              · rw [if_neg h2]
                by_cases h3 : a = "max-seq-len"
                · rw [if_pos h3, ih]
                  simp [List.takeWhile_cons, hsplit, h3]
                · rw [if_neg h3]
                  by_cases h4 : a = "max-overlap"
                  · rw [if_pos h4, ih]
                    simp [List.takeWhile_cons, hsplit, h4]
                  · rw [if_neg h4]
                    by_cases h5 : a = "min-intron"
                    · rw [if_pos h5, ih]
                      simp [List.takeWhile_cons, hsplit, h5]
                    · rw [if_neg h5]
                      by_cases h6 : a = "overlap"
                      · rw [if_pos h6, ih]
                        simp [List.takeWhile_cons, hsplit, h6]
                      · rw [if_neg h6]
                        by_cases h7 : a = "s"
                        · rw [if_pos h7, ih]
                          simp [List.takeWhile_cons, hsplit, h7]
                        · rw [if_neg h7, ih]
                          simp [List.takeWhile_cons, hsplit, h7]
          · rw [if_neg hacc, ih]
            have h7 : a ≠ "s" := by
              intro hc
              rw [hc] at hacc
              exact hacc (by decide)
            simp [List.takeWhile_cons, hsplit, h7]
        | cons c tl3 =>
          simp [parse_parameters_go, hsplit]

theorem metaeuk_configure_runner_s_set (n : ℕ) (mp : MetaeukParams) :
    (metaeuk_configure_runner n mp).s_set = mp.s_set := by
  unfold metaeuk_configure_runner
  split_ifs <;> rfl

theorem parse_parameters_s_set (mp : MetaeukParams) (extra : String) :
    (parse_parameters mp (pyreplace extra "," " ")).1.s_set =
      (mp.s_set || user_sets_s extra) := by
  unfold parse_parameters user_sets_s
  by_cases h0 : pyreplace extra "," " " = ""
  · rw [if_pos h0]
    simp [h0]
  · rw [if_neg h0]
    simp only [h0, if_false, if_neg h0]
    by_cases hs : pystartswith (stripSet [Char.ofNat 34, ' ', Char.ofNat 39]
        (pyreplace extra "," " ")) "-" = true
    · rw [if_pos hs]
      by_cases herr : (parse_parameters_go mp [] []
          (pysplit (stripSet [Char.ofNat 34, ' ', Char.ofNat 39]
            (pyreplace extra "," " ")) " -")).2.2.2 = true
      · rw [if_pos herr]
        rw [parse_parameters_go_s_set]
        simp [hs]
      · rw [if_neg herr]
        rw [parse_parameters_go_s_set]
        simp [hs]
    · rw [if_neg hs]
      simp only [Bool.not_eq_true] at hs
      simp [hs]

/-- C9: the `-s 6` option pair is appended by the driver exactly when the
invocation is pass 2 and the user has not set the `s` parameter in
either pass's extra-parameter string; on pass 1 the driver never adds
`-s`. The fixed option prefix and the accepted user parameters surround
the conditional pair. -/
theorem c9_s_flag_pass2_only (mp0 : MetaeukParams) (extra1 extra2 : String)
    (c i r o tm : String) (hs0 : mp0.s_set = false) :
    (∃ (mp1 : MetaeukParams) (ks1 vs1 : List String),
      (metaeuk_pass 1 extra1 mp0 c i r o tm).1 =
        ["easy-predict", "--threads", c, i, r, o, tm,
         "--max-intron", mp1.max_intron, "--max-seq-len", mp1.max_seq_len,
         "--min-exon-aa", mp1.min_exon_aa, "--max-overlap", mp1.max_overlap,
         "--min-intron", mp1.min_intron, "--overlap", mp1.overlap] ++
        ((ks1.zip vs1).map (fun kv =>
          [(if kv.1.length = 1 then "-" else "--") ++ kv.1, kv.2])).flatten) ∧
    (∃ (mp2 : MetaeukParams) (ks2 vs2 : List String),
      (metaeuk_pass 2 extra2 (metaeuk_pass 1 extra1 mp0 c i r o tm).2 c i r o tm).1 =
        ["easy-predict", "--threads", c, i, r, o, tm,
         "--max-intron", mp2.max_intron, "--max-seq-len", mp2.max_seq_len,
         "--min-exon-aa", mp2.min_exon_aa, "--max-overlap", mp2.max_overlap,
         "--min-intron", mp2.min_intron, "--overlap", mp2.overlap] ++
        (if user_sets_s extra1 || user_sets_s extra2 then [] else ["-s", "6"]) ++
        ((ks2.zip vs2).map (fun kv =>
          [(if kv.1.length = 1 then "-" else "--") ++ kv.1, kv.2])).flatten) := by
  constructor
  · refine ⟨(parse_parameters (metaeuk_configure_runner 1 mp0)
        (pyreplace extra1 "," " ")).1,
      (parse_parameters (metaeuk_configure_runner 1 mp0) (pyreplace extra1 "," " ")).2.1,
      (parse_parameters (metaeuk_configure_runner 1 mp0) (pyreplace extra1 "," " ")).2.2, ?_⟩
    unfold metaeuk_pass metaeuk_configure_job
    simp
  · refine ⟨(parse_parameters (metaeuk_configure_runner 2
        (metaeuk_pass 1 extra1 mp0 c i r o tm).2) (pyreplace extra2 "," " ")).1,
      (parse_parameters (metaeuk_configure_runner 2
        (metaeuk_pass 1 extra1 mp0 c i r o tm).2) (pyreplace extra2 "," " ")).2.1,
      (parse_parameters (metaeuk_configure_runner 2
        (metaeuk_pass 1 extra1 mp0 c i r o tm).2) (pyreplace extra2 "," " ")).2.2, ?_⟩
    have hpass1 : (metaeuk_pass 1 extra1 mp0 c i r o tm).2 =
        (parse_parameters (metaeuk_configure_runner 1 mp0) (pyreplace extra1 "," " ")).1 :=
      rfl
    have hsset : (parse_parameters (metaeuk_configure_runner 2
        (metaeuk_pass 1 extra1 mp0 c i r o tm).2) (pyreplace extra2 "," " ")).1.s_set =
        (user_sets_s extra1 || user_sets_s extra2) := by
      rw [parse_parameters_s_set, metaeuk_configure_runner_s_set, hpass1,
        parse_parameters_s_set, metaeuk_configure_runner_s_set, hs0]
      simp [Bool.or_assoc]
    conv_lhs => rw [show (metaeuk_pass 2 extra2 (metaeuk_pass 1 extra1 mp0 c i r o tm).2
        c i r o tm).1 = metaeuk_configure_job 2
        (parse_parameters (metaeuk_configure_runner 2
          (metaeuk_pass 1 extra1 mp0 c i r o tm).2) (pyreplace extra2 "," " ")).1
        (parse_parameters (metaeuk_configure_runner 2
          (metaeuk_pass 1 extra1 mp0 c i r o tm).2) (pyreplace extra2 "," " ")).2.1
        (parse_parameters (metaeuk_configure_runner 2
          (metaeuk_pass 1 extra1 mp0 c i r o tm).2) (pyreplace extra2 "," " ")).2.2
        c i r o tm from rfl]
    unfold metaeuk_configure_job
    by_cases hu : (user_sets_s extra1 || user_sets_s extra2) = true
    · rw [if_neg (by rw [hsset, hu]; simp), if_pos hu]
    · rw [if_pos ⟨by norm_num, by rw [hsset]; simpa using hu⟩,
        if_neg (by simpa using hu)]

/-- Witness for C9 with empty extra-parameter strings: the pass-2
command carries the `-s 6` pair, the pass-1 command does not. -/
theorem c9_s_flag_pass2_only_witness :
    (∃ (mp1 : MetaeukParams) (ks1 vs1 : List String),
      (metaeuk_pass 1 "" ⟨"50000", "100000", "15", "15", "5", "1", false⟩
          "4" "in.fna" "ref.faa" "out" "tmp").1 =
        ["easy-predict", "--threads", "4", "in.fna", "ref.faa", "out", "tmp",
         "--max-intron", mp1.max_intron, "--max-seq-len", mp1.max_seq_len,
         "--min-exon-aa", mp1.min_exon_aa, "--max-overlap", mp1.max_overlap,
         "--min-intron", mp1.min_intron, "--overlap", mp1.overlap] ++
        ((ks1.zip vs1).map (fun kv =>
          [(if kv.1.length = 1 then "-" else "--") ++ kv.1, kv.2])).flatten) ∧
    (∃ (mp2 : MetaeukParams) (ks2 vs2 : List String),
      (metaeuk_pass 2 "" (metaeuk_pass 1 "" ⟨"50000", "100000", "15", "15", "5", "1", false⟩
          "4" "in.fna" "ref.faa" "out" "tmp").2 "4" "in.fna" "ref.faa" "out" "tmp").1 =
        ["easy-predict", "--threads", "4", "in.fna", "ref.faa", "out", "tmp",
         "--max-intron", mp2.max_intron, "--max-seq-len", mp2.max_seq_len,
         "--min-exon-aa", mp2.min_exon_aa, "--max-overlap", mp2.max_overlap,
         "--min-intron", mp2.min_intron, "--overlap", mp2.overlap] ++
        (if user_sets_s "" || user_sets_s "" then [] else ["-s", "6"]) ++
        ((ks2.zip vs2).map (fun kv =>
          [(if kv.1.length = 1 then "-" else "--") ++ kv.1, kv.2])).flatten) :=
  c9_s_flag_pass2_only ⟨"50000", "100000", "15", "15", "5", "1", false⟩ "" ""
    "4" "in.fna" "ref.faa" "out" "tmp" rfl

/-! ## C3: the low-score pruner -/

theorem alookup_remove_low_scoring (bd : BuscoDict) (b : String) :
    alookup b (remove_low_scoring_matches bd) =
      (alookup b bd).map (fun gm =>
        if gm.length > 1 then
          (gm.map (fun q => (q.1, q.2.filter
            (fun m => ¬ m.bitscore < (85 / 100) * (get_best_scoring_match gm).2)))).filter
            (fun q => q.2 ≠ [])
        else gm) := by
  induction bd with
  | nil => rfl
  | cons p tl ih =>
    simp only [remove_low_scoring_matches, List.map_cons] at ih ⊢
    by_cases hl : p.2.length > 1
    · rw [if_pos hl]
      by_cases hp : p.1 = b
      · simp [alookup_cons, hp, hl]
      · simp only [alookup_cons, if_neg hp]
        exact ih
    · rw [if_neg hl]
      by_cases hp : p.1 = b
      · simp [alookup_cons, hp, hl]
      · simp only [alookup_cons, if_neg hp]
        exact ih

/-- C3 counterexample. First conjunct: a SCO with a single gene entry is
not pruned at all, so the record of bitscore 1 survives although it lies
below 85 percent of the top bitscore 10 of that SCO (second conjunct).
Third conjunct: when the top bitscore is negative, every record falls
below 85 percent of it, all gene entries are emptied and popped, yet the
SCO key itself stays in the map with an empty gene dictionary. -/
theorem c3_counterexample :
    remove_low_scoring_matches
        [("b", [("g", [⟨10, 5, none⟩, ⟨1, 5, none⟩])])] =
      [("b", [("g", [⟨10, 5, none⟩, ⟨1, 5, none⟩])])] ∧
    (1 : ℚ) < (85 / 100) *
      (get_best_scoring_match [("g", [⟨10, 5, none⟩, ⟨1, 5, none⟩])]).2 ∧
    remove_low_scoring_matches
        [("b2", [("g1", [⟨-10, 5, none⟩]), ("g2", [⟨-20, 5, none⟩])])] =
      [("b2", [])] := by
  refine ⟨rfl, ?_, ?_⟩
  · norm_num [get_best_scoring_match, argmax_first, argmax_first_go]
  · norm_num [remove_low_scoring_matches, get_best_scoring_match, argmax_first,
      argmax_first_go, List.filter]

/-- C3 (amended): the pruner never removes a SCO key (first conjunct),
and for every SCO that enters the pruner with more than one gene entry,
the SCO survives with every retained record scoring at least 85 percent
of the top bitscore among that SCO's input hits and every surviving gene
entry nonempty. SCOs with at most one gene entry are left untouched, and
a SCO whose gene entries are all emptied keeps its key with an empty
gene dictionary. -/
theorem c3_low_score_pruning (bd : BuscoDict) :
    (remove_low_scoring_matches bd).map Prod.fst = bd.map Prod.fst ∧
    ∀ b gm, alookup b bd = some gm → 1 < gm.length →
      ∃ gm', alookup b (remove_low_scoring_matches bd) = some gm' ∧
        ∀ g rs, alookup g gm' = some rs →
          rs ≠ [] ∧ ∀ m ∈ rs,
            (85 / 100) * (get_best_scoring_match gm).2 ≤ m.bitscore := by
  constructor
  · unfold remove_low_scoring_matches
    rw [List.map_map]
    apply List.map_congr_left
    intro p _
    by_cases hl : p.2.length > 1
    · simp only [Function.comp_apply, if_pos hl]
    · simp only [Function.comp_apply, if_neg hl]
  · intro b gm hb hlen
    rw [alookup_remove_low_scoring, hb]
    refine ⟨_, rfl, ?_⟩
    intro g rs hrs
    simp only at hrs
    rw [if_pos hlen] at hrs
    have hmem := alookup_eq_some_mem hrs
    rw [List.mem_filter] at hmem
    obtain ⟨hmem1, hne⟩ := hmem
    refine ⟨by simpa using hne, ?_⟩
    rw [List.mem_map] at hmem1
    obtain ⟨q0, hq0, heq⟩ := hmem1
    obtain ⟨hg, hrseq⟩ := Prod.mk.inj heq
    intro m hm
    rw [← hrseq] at hm
    rw [List.mem_filter] at hm
    exact le_of_not_lt (of_decide_eq_true hm.2)

/-- Witness for C3 at a two-gene SCO: the hypotheses of
`c3_low_score_pruning` hold at the concrete map and give the pruning
guarantees there. -/
theorem c3_low_score_pruning_witness :
    ∃ gm', alookup "b" (remove_low_scoring_matches
        [("b", [("g1", [(⟨10, 5, none⟩ : HmmerMatch)]), ("g2", [⟨1, 5, none⟩])])]) =
          some gm' ∧
      ∀ g rs, alookup g gm' = some rs →
        rs ≠ [] ∧ ∀ m ∈ rs,
          (85 / 100) * (get_best_scoring_match
            [("g1", [(⟨10, 5, none⟩ : HmmerMatch)]), ("g2", [⟨1, 5, none⟩])]).2 ≤
            m.bitscore :=
  (c3_low_score_pruning
      [("b", [("g1", [(⟨10, 5, none⟩ : HmmerMatch)]), ("g2", [⟨1, 5, none⟩])])]).2
    "b" [("g1", [(⟨10, 5, none⟩ : HmmerMatch)]), ("g2", [⟨1, 5, none⟩])] rfl
    (by decide)

/-! ## C4: resolution of cross-SCO same-frame exon overlaps -/

theorem find_unused_step_body_acc (st : WalkState) (e : ExonRow) (q : ℚ) :
    ((find_unused_step_body st e q).used_exons = st.used_exons ++ [e] ∧
     (find_unused_step_body st e q).unused_exons = st.unused_exons) ∨
    ((find_unused_step_body st e q).used_exons = st.used_exons ∧
     (find_unused_step_body st e q).unused_exons = st.unused_exons ++ [e]) := by
  rcases henv : st.env with _ | ⟨hc, rest⟩ <;>
    simp only [find_unused_step_body, henv] <;> split_ifs <;> simp

theorem find_unused_step_acc (st st' : WalkState) (e : ExonRow)
    (h : find_unused_step st e = .ok st') :
    (st'.used_exons = st.used_exons ++ [e] ∧ st'.unused_exons = st.unused_exons) ∨
    (st'.used_exons = st.used_exons ∧ st'.unused_exons = st.unused_exons ++ [e]) := by
  simp only [find_unused_step] at h
  split_ifs at h
  · have hb := Except.ok.inj h
    rw [← hb]
    exact find_unused_step_body_acc st e _

theorem walk_acc_sublist (exons : List ExonRow) :
    ∀ (st st' : WalkState), exons.foldlM find_unused_step st = .ok st' →
      ∃ u' n', st'.used_exons = st.used_exons ++ u' ∧
        st'.unused_exons = st.unused_exons ++ n' ∧ List.Sublist u' exons ∧ List.Sublist n' exons := by
  induction exons with
  | nil =>
    intro st st' h
    have hst : st = st' := Except.ok.inj h
    exact ⟨[], [], by simp [hst], by simp [hst], List.nil_sublist _, List.nil_sublist _⟩
  | cons e rest ih =>
    intro st st' h
    rw [List.foldlM_cons] at h
    cases h1 : find_unused_step st e with
    | error err => rw [h1, except_bind_error] at h; exact absurd h (by simp)
    | ok st1 =>
      rw [h1, except_bind_ok] at h
      obtain ⟨u', n', hu, hn, hus, hns⟩ := ih st1 st' h
      rcases find_unused_step_acc st st1 e h1 with ⟨ha, hb⟩ | ⟨ha, hb⟩
      · exact ⟨e :: u', n', by rw [hu, ha]; simp, by rw [hn, hb],
          List.Sublist.cons₂ e hus, List.Sublist.cons e hns⟩
      · exact ⟨u', e :: n', by rw [hu, ha], by rw [hn, hb]; simp,
          List.Sublist.cons e hus, List.Sublist.cons₂ e hns⟩

theorem find_unused_exons_sublist {env : List (ℤ × ℤ)} {exons u n : List ExonRow}
    (h : find_unused_exons env exons = .ok (u, n)) : List.Sublist u exons ∧ List.Sublist n exons := by
  match env with
  | [] => exact absurd h (by simp [find_unused_exons])
  | h0 :: t =>
    simp only [find_unused_exons] at h
    cases hf : exons.foldlM find_unused_step
        { remaining_hmm_region := 0, env := some (h0, t), exon_cumul_len := 0,
          used_exons := [], unused_exons := [] } with
    | error err => rw [hf, except_bind_error] at h; exact absurd h (by simp)
    | ok st =>
      rw [hf, except_bind_ok] at h
      have hp := Except.ok.inj h
      obtain ⟨hu1, hn1⟩ := Prod.mk.inj hp
      obtain ⟨u', n', hu, hn, hus, hns⟩ := walk_acc_sublist exons _ st hf
      constructor
      · rw [← hu1, hu]
        simpa using hus
      · rw [← hn1, hn]
        simpa using hns

theorem test_for_overlaps_mem {ov : ℕ × ℕ} {df : List ExonRow}
    (h : ov ∈ test_for_overlaps df) :
    ∃ r1, r1 ∈ df ∧ ∃ r2, r2 ∈ df ∧ ov = (r1.label, r2.label) ∧
      r1.sequence = r2.sequence ∧ r1.strand = r2.strand ∧
      r1.start < r2.start ∧ r2.start < r1.stop := by
  simp only [test_for_overlaps] at h
  rw [List.mem_flatten] at h
  obtain ⟨inner, hin, hov⟩ := h
  rw [List.mem_map] at hin
  obtain ⟨s, hs, hfs⟩ := hin
  rw [← hfs] at hov
  rw [List.mem_flatten] at hov
  obtain ⟨li, hli, hov2⟩ := hov
  rw [List.mem_map] at hli
  obtain ⟨r1, hr1, hfr1⟩ := hli
  rw [← hfr1] at hov2
  rw [List.mem_map] at hov2
  obtain ⟨r2, hr2, hoveq⟩ := hov2
  rw [List.mem_filter] at hr2
  obtain ⟨hr2f, hdet⟩ := hr2
  rw [List.mem_filter] at hr2f
  obtain ⟨hr2g, hcond⟩ := hr2f
  have hr1' := (List.mem_mergeSort).mp hr1
  rw [List.mem_filter] at hr1'
  have hr2' := (List.mem_mergeSort).mp hr2g
  rw [List.mem_filter] at hr2'
  simp only [Bool.and_eq_true, decide_eq_true_eq] at hcond
  refine ⟨r1, hr1'.1, r2, hr2'.1, hoveq.symm, ?_, ?_, hcond.1, hcond.2⟩
  · have h1 : r1.sequence = s := of_decide_eq_true hr1'.2
    have h2 : r2.sequence = s := of_decide_eq_true hr2'.2
    rw [h1, h2]
  · have := hdet
    simp only [detect_overlap, decide_eq_true_eq] at this
    exact this

theorem test_for_overlaps_intro {r1 r2 : ExonRow} {df : List ExonRow}
    (h1 : r1 ∈ df) (h2 : r2 ∈ df) (hseq : r1.sequence = r2.sequence)
    (hstr : r1.strand = r2.strand) (ha : r1.start < r2.start) (hb : r2.start < r1.stop) :
    (r1.label, r2.label) ∈ test_for_overlaps df := by
  simp only [test_for_overlaps]
  have hs : r1.sequence ∈ ((df.map (fun r => r.sequence)).dedup).mergeSort
      (fun a b => a ≤ b) := by
    rw [List.mem_mergeSort, List.mem_dedup, List.mem_map]
    exact ⟨r1, h1, rfl⟩
  rw [List.mem_flatten]
  refine ⟨_, List.mem_map_of_mem _ hs, ?_⟩
  have hg1 : r1 ∈ (df.filter (fun r => r.sequence = r1.sequence)).mergeSort
      (fun a b => a.start ≤ b.start) := by
    rw [List.mem_mergeSort, List.mem_filter]
    exact ⟨h1, by simp⟩
  have hg2 : r2 ∈ (df.filter (fun r => r.sequence = r1.sequence)).mergeSort
      (fun a b => a.start ≤ b.start) := by
    rw [List.mem_mergeSort, List.mem_filter]
    exact ⟨h2, by simp [hseq]⟩
  rw [List.mem_flatten]
  refine ⟨_, List.mem_map_of_mem _ hg1, ?_⟩
  apply List.mem_map_of_mem
  rw [List.mem_filter]
  refine ⟨?_, by simp [detect_overlap, hstr]⟩
  rw [List.mem_filter]
  exact ⟨hg2, by simp [ha, hb]⟩

theorem loc_row_eq_of_mem {df : List ExonRow} {r : ExonRow}
    (hnd : (df.map ExonRow.label).Nodup) (hr : r ∈ df) : loc_row df r.label = r := by
  induction df with
  | nil => simp at hr
  | cons p t ih =>
    rw [List.map_cons, List.nodup_cons] at hnd
    rcases List.mem_cons.mp hr with hrp | hrt
    · rw [hrp]
      simp [loc_row, List.find?]
    · have hne : ¬ p.label = r.label := by
        intro he
        exact hnd.1 (he ▸ List.mem_map_of_mem ExonRow.label hrt)
      simp only [loc_row, List.find?, hne, decide_eq_true_eq, if_neg hne] at ih ⊢
      simpa [loc_row, List.find?] using ih hnd.2 hrt

theorem labels_nodup_swap {X Y : List ExonRow}
    (hnd : ((X ++ Y).map ExonRow.label).Nodup) : ((Y ++ X).map ExonRow.label).Nodup := by
  rw [List.map_append, List.nodup_append] at hnd ⊢
  exact ⟨hnd.2.1, hnd.1, fun x hx hy => hnd.2.2 hy hx⟩

theorem labels_nodup_append {a b X Y : List ExonRow}
    (ha : List.Sublist a X) (hb : List.Sublist b Y)
    (hnd : ((X ++ Y).map ExonRow.label).Nodup) :
    ((a ++ b).map ExonRow.label).Nodup := by
  rw [List.map_append, List.nodup_append] at hnd ⊢
  obtain ⟨hX, hY, hdisj⟩ := hnd
  refine ⟨(ha.map ExonRow.label).nodup hX, (hb.map ExonRow.label).nodup hY, ?_⟩
  intro x hxa hxb
  exact hdisj ((ha.map ExonRow.label).subset hxa) ((hb.map ExonRow.label).subset hxb)

theorem get_itr_none_some (sx : List ExonRow) :
    get_indices_to_remove none (some sx) =
      if test_for_overlaps sx = [] then .ok []
      else .ok ((test_for_overlaps sx).map (fun ov =>
        if (sx.getD 0 default).busco_id = (loc_row sx ov.1).busco_id
        then ov.1 else ov.2)) := rfl

theorem get_itr_some_none (px : List ExonRow) :
    get_indices_to_remove (some px) none =
      if test_for_overlaps (px ++ []) = [] then .ok []
      else .error .attrErr := rfl

theorem get_itr_some_some (px sx : List ExonRow) :
    get_indices_to_remove (some px) (some sx) =
      if test_for_overlaps (px ++ sx) = [] then .ok []
      else .ok ((test_for_overlaps (px ++ sx)).map (fun ov =>
        if (sx.getD 0 default).busco_id = (loc_row (px ++ sx) ov.1).busco_id
        then ov.1 else ov.2)) := rfl

theorem get_indices_to_remove_side (px sx : List ExonRow) (bp bs : String)
    (hpx : ∀ r ∈ px, r.busco_id = bp) (hsx : ∀ r ∈ sx, r.busco_id = bs)
    (hne : bp ≠ bs)
    (hnd : ((px ++ sx).map ExonRow.label).Nodup)
    (hs1 : test_for_overlaps px = []) (hs2 : test_for_overlaps sx = []) :
    ∃ out, get_indices_to_remove (df_or_none px) (df_or_none sx) = .ok out ∧
      ∀ l ∈ out, ∃ r ∈ sx, r.label = l := by
  by_cases hpe : px = []
  · subst hpe
    by_cases hse : sx = []
    · subst hse
      exact ⟨[], rfl, by simp⟩
    · have hds : df_or_none sx = some sx := by simp [df_or_none, hse]
      refine ⟨[], ?_, by simp⟩
      rw [show df_or_none ([] : List ExonRow) = none from rfl, hds, get_itr_none_some,
        if_pos hs2]
  · have hdp : df_or_none px = some px := by simp [df_or_none, hpe]
    by_cases hse : sx = []
    · subst hse
      refine ⟨[], ?_, by simp⟩
      rw [show df_or_none ([] : List ExonRow) = none from rfl, hdp, get_itr_some_none,
        if_pos (by rw [List.append_nil]; exact hs1)]
    · have hds : df_or_none sx = some sx := by simp [df_or_none, hse]
      rw [hdp, hds, get_itr_some_some]
      by_cases hov : test_for_overlaps (px ++ sx) = []
      · rw [if_pos hov]
        exact ⟨[], rfl, by simp⟩
      · rw [if_neg hov]
        refine ⟨_, rfl, ?_⟩
        intro l hl
        rw [List.mem_map] at hl
        obtain ⟨ov, hovmem, hpick⟩ := hl
        obtain ⟨r1, hr1, r2, hr2, hoveq, hseq, hstr, hlt1, hlt2⟩ :=
          test_for_overlaps_mem hovmem
        rw [hoveq] at hpick
        have hloc : loc_row (px ++ sx) r1.label = r1 := loc_row_eq_of_mem hnd hr1
        have hfirst : (sx.getD 0 default).busco_id = bs := by
          cases sx with
          | nil => exact absurd rfl hse
          | cons a t => exact hsx a (List.mem_cons_self a t)
        rcases List.mem_append.mp hr1 with hr1p | hr1s
        · have hc : ¬ (sx.getD 0 default).busco_id =
              (loc_row (px ++ sx) (r1.label, r2.label).1).busco_id := by
            rw [show (r1.label, r2.label).1 = r1.label from rfl, hloc, hfirst,
              hpx r1 hr1p]
            exact fun he => hne he.symm
          rw [if_neg hc] at hpick
          rcases List.mem_append.mp hr2 with hr2p | hr2s
          · exfalso
            have hcontr := test_for_overlaps_intro hr1p hr2p hseq hstr hlt1 hlt2
            rw [hs1] at hcontr
            simp at hcontr
          · exact ⟨r2, hr2s, hpick⟩
        · have hc : (sx.getD 0 default).busco_id =
              (loc_row (px ++ sx) (r1.label, r2.label).1).busco_id := by
            rw [show (r1.label, r2.label).1 = r1.label from rfl, hloc, hfirst,
              hsx r1 hr1s]
          rw [if_pos hc] at hpick
          exact ⟨r1, hr1s, hpick⟩

theorem getD_df_or_none (x : List ExonRow) : (df_or_none x).getD [] = x := by
  by_cases h : x = [] <;> simp [df_or_none, h]

theorem handle_diff_unfold (hit1 hit2 : GeneRecord) (exons1 exons2 : List ExonRow)
    (pu pn su sn : List ExonRow)
    (hscore : hit2.score < hit1.score)
    (hw1 : find_unused_exons hit1.env_coords exons1 = .ok (pu, pn))
    (hw2 : find_unused_exons hit2.env_coords exons2 = .ok (su, sn)) :
    handle_diff_busco_overlap hit1 hit2 exons1 exons2 =
      if df_or_none pu = none ∧ df_or_none su = none then .error .valueErr
      else if test_for_overlaps (pu ++ su) ≠ [] then .ok (exons2.map (fun r => r.label))
      else
        get_indices_to_remove (df_or_none su) (df_or_none pn) >>= fun r1 =>
        get_indices_to_remove (df_or_none pu) (df_or_none sn) >>= fun r2 =>
        get_indices_to_remove (df_or_none pn) (df_or_none sn) >>= fun r3 =>
        Except.ok (r1 ++ r2 ++ r3) := by
  have hgt : hit1.score > hit2.score := hscore
  simp only [handle_diff_busco_overlap, if_pos hgt, hw1, hw2, except_bind_ok, getD_df_or_none]

/-- C4 (amended): with P the higher-bitscore match and S the other, when
any used exon of P or S overlaps another used exon, all of S's exons are
dropped and none of P's, as the claim says. Otherwise three pairwise
checks run; in the (P.used, S.unused) and (P.unused, S.unused) checks
every dropped label is a secondary-side (S unused) exon, but in the
(S.used, P.unused) check every dropped label is a priority-side
(P unused) exon - the opposite of the claim. Hypotheses: the two walks
succeed, P's used-exon set is nonempty, the two frames carry the two
distinct BUSCO ids uniformly, index labels are unique, and no two exons
of the same group overlap. -/
theorem c4_overlap_resolution (hit1 hit2 : GeneRecord) (exons1 exons2 : List ExonRow)
    (bp bs : String) (pu pn su sn : List ExonRow)
    (hscore : hit2.score < hit1.score)
    (hw1 : find_unused_exons hit1.env_coords exons1 = .ok (pu, pn))
    (hw2 : find_unused_exons hit2.env_coords exons2 = .ok (su, sn))
    (hpu : pu ≠ [])
    (hbp : ∀ r ∈ exons1, r.busco_id = bp) (hbs : ∀ r ∈ exons2, r.busco_id = bs)
    (hne : bp ≠ bs)
    (hnd : ((exons1 ++ exons2).map ExonRow.label).Nodup) :
    (test_for_overlaps (pu ++ su) ≠ [] →
      handle_diff_busco_overlap hit1 hit2 exons1 exons2 =
        .ok (exons2.map (fun r => r.label))) ∧
    (test_for_overlaps (pu ++ su) = [] →
     test_for_overlaps pn = [] → test_for_overlaps su = [] → test_for_overlaps sn = [] →
      ∃ out1 out2 out3,
        handle_diff_busco_overlap hit1 hit2 exons1 exons2 =
          .ok (out1 ++ out2 ++ out3) ∧
        (∀ l ∈ out1, ∃ r ∈ pn, r.label = l) ∧
        (∀ l ∈ out2, ∃ r ∈ sn, r.label = l) ∧
        (∀ l ∈ out3, ∃ r ∈ sn, r.label = l)) := by
  have hu1 := find_unused_exons_sublist hw1
  have hu2 := find_unused_exons_sublist hw2
  have hvc : ¬ (df_or_none pu = none ∧ df_or_none su = none) := by
    intro hcon
    have := hcon.1
    simp [df_or_none, hpu] at this
  constructor
  · intro hovne
    rw [handle_diff_unfold hit1 hit2 exons1 exons2 pu pn su sn hscore hw1 hw2,
      if_neg hvc, if_pos hovne]
  · intro hov hspn hssu hssn
    have hspu : test_for_overlaps pu = [] := by
      by_contra hne2
      obtain ⟨ov, hovm⟩ := List.exists_mem_of_ne_nil _ hne2
      obtain ⟨r1, hr1, r2, hr2, _, hseq, hstr, ha1, ha2⟩ := test_for_overlaps_mem hovm
      have hcontr := test_for_overlaps_intro (List.mem_append_left su hr1)
        (List.mem_append_left su hr2) hseq hstr ha1 ha2
      rw [hov] at hcontr
      simp at hcontr
    obtain ⟨out1, he1, hp1⟩ := get_indices_to_remove_side su pn bs bp
      (fun r hr => hbs r (hu2.1.subset hr)) (fun r hr => hbp r (hu1.2.subset hr))
      (fun he => hne he.symm)
      (labels_nodup_append hu2.1 hu1.2 (labels_nodup_swap hnd)) hssu hspn
    obtain ⟨out2, he2, hp2⟩ := get_indices_to_remove_side pu sn bp bs
      (fun r hr => hbp r (hu1.1.subset hr)) (fun r hr => hbs r (hu2.2.subset hr))
      hne (labels_nodup_append hu1.1 hu2.2 hnd) hspu hssn
    obtain ⟨out3, he3, hp3⟩ := get_indices_to_remove_side pn sn bp bs
      (fun r hr => hbp r (hu1.2.subset hr)) (fun r hr => hbs r (hu2.2.subset hr))
      hne (labels_nodup_append hu1.2 hu2.2 hnd) hspn hssn
    refine ⟨out1, out2, out3, ?_, hp1, hp2, hp3⟩
    rw [handle_diff_unfold hit1 hit2 exons1 exons2 pu pn su sn hscore hw1 hw2,
      if_neg hvc, if_neg (not_not.mpr hov), he1, except_bind_ok, he2, except_bind_ok, he3, except_bind_ok]


theorem overlap_eval_walk_p :
    find_unused_exons [(1, 10)]
      [⟨0, "P", "s", 1, 30, "+", 0, 1, "gP"⟩, ⟨1, "P", "s", 100, 129, "+", 0, 1, "gP"⟩] =
      .ok ([⟨0, "P", "s", 1, 30, "+", 0, 1, "gP"⟩],
        [⟨1, "P", "s", 100, 129, "+", 0, 1, "gP"⟩]) := by
  norm_num [find_unused_exons, List.foldlM, find_unused_step, find_unused_step_body,
    env_while, except_bind_ok]

theorem overlap_eval_walk_s :
    find_unused_exons [(1, 10)] [⟨2, "S", "s", 95, 124, "+", 0, 1, "gS"⟩] =
      .ok ([⟨2, "S", "s", 95, 124, "+", 0, 1, "gS"⟩], []) := by
  norm_num [find_unused_exons, List.foldlM, find_unused_step, find_unused_step_body,
    env_while, except_bind_ok]

theorem overlap_eval_used_union :
    test_for_overlaps [⟨0, "P", "s", 1, 30, "+", 0, 1, "gP"⟩,
      ⟨2, "S", "s", 95, 124, "+", 0, 1, "gS"⟩] = [] := by
  norm_num [test_for_overlaps, detect_overlap, List.mergeSort, List.dedup]

theorem overlap_eval_pair1 :
    get_indices_to_remove (some [⟨2, "S", "s", 95, 124, "+", 0, 1, "gS"⟩])
      (some [⟨1, "P", "s", 100, 129, "+", 0, 1, "gP"⟩]) = .ok [1] := by
  norm_num [get_indices_to_remove, test_for_overlaps, detect_overlap, loc_row,
    List.mergeSort, List.dedup]
  decide

theorem overlap_eval_pair2 :
    get_indices_to_remove (some [⟨0, "P", "s", 1, 30, "+", 0, 1, "gP"⟩]) none = .ok [] := by
  norm_num [get_indices_to_remove, test_for_overlaps, detect_overlap, List.mergeSort,
    List.dedup]

theorem overlap_eval_pair3 :
    get_indices_to_remove (some [⟨1, "P", "s", 100, 129, "+", 0, 1, "gP"⟩]) none = .ok [] := by
  norm_num [get_indices_to_remove, test_for_overlaps, detect_overlap, List.mergeSort,
    List.dedup]

/-- C4 counterexample: the priority BUSCO "P" (bitscore 50 over 20) has
used exon 0 and unused exon 1; the secondary BUSCO "S" has used exon 2,
which overlaps P's unused exon 1 but no used exon. The reconciler
returns index 1 - an exon of the priority match P - although the claim
says only secondary-side exons are ever dropped in the pairwise checks.
The second conjunct records that label 1 is one of P's exons. -/
theorem c4_counterexample :
    handle_diff_busco_overlap ⟨300, 10, [(1, 10)], 50, none⟩ ⟨300, 10, [(1, 10)], 20, none⟩
      [⟨0, "P", "s", 1, 30, "+", 0, 1, "gP"⟩, ⟨1, "P", "s", 100, 129, "+", 0, 1, "gP"⟩]
      [⟨2, "S", "s", 95, 124, "+", 0, 1, "gS"⟩] = .ok [1] ∧
    (⟨1, "P", "s", 100, 129, "+", 0, 1, "gP"⟩ : ExonRow) ∈
      [⟨0, "P", "s", 1, 30, "+", 0, 1, "gP"⟩,
       (⟨1, "P", "s", 100, 129, "+", 0, 1, "gP"⟩ : ExonRow)] := by
  refine ⟨?_, by simp⟩
  have hgt : ((20 : ℚ) < 50) := by decide
  simp only [handle_diff_busco_overlap, gt_iff_lt, hgt, if_true, if_pos hgt,
    overlap_eval_walk_p, overlap_eval_walk_s, except_bind_ok, df_or_none]
  norm_num [overlap_eval_used_union, overlap_eval_pair1, overlap_eval_pair2,
    overlap_eval_pair3, except_bind_ok]
  intro h
  simp at h

/-- Witness for C4 at the counterexample data: both branch conclusions
hold there, and the second branch names the dropped priority-side label. -/
theorem c4_overlap_resolution_witness :
    (test_for_overlaps ([(⟨0, "P", "s", 1, 30, "+", 0, 1, "gP"⟩ : ExonRow)] ++
        [⟨2, "S", "s", 95, 124, "+", 0, 1, "gS"⟩]) ≠ [] →
      handle_diff_busco_overlap ⟨300, 10, [(1, 10)], 50, none⟩
          ⟨300, 10, [(1, 10)], 20, none⟩
          [⟨0, "P", "s", 1, 30, "+", 0, 1, "gP"⟩, ⟨1, "P", "s", 100, 129, "+", 0, 1, "gP"⟩]
          [⟨2, "S", "s", 95, 124, "+", 0, 1, "gS"⟩] =
        .ok ([(⟨2, "S", "s", 95, 124, "+", 0, 1, "gS"⟩ : ExonRow)].map (fun r => r.label))) ∧
    (test_for_overlaps ([(⟨0, "P", "s", 1, 30, "+", 0, 1, "gP"⟩ : ExonRow)] ++
        [⟨2, "S", "s", 95, 124, "+", 0, 1, "gS"⟩]) = [] →
     test_for_overlaps [(⟨1, "P", "s", 100, 129, "+", 0, 1, "gP"⟩ : ExonRow)] = [] →
     test_for_overlaps [(⟨2, "S", "s", 95, 124, "+", 0, 1, "gS"⟩ : ExonRow)] = [] →
     test_for_overlaps ([] : List ExonRow) = [] →
      ∃ out1 out2 out3,
        handle_diff_busco_overlap ⟨300, 10, [(1, 10)], 50, none⟩
            ⟨300, 10, [(1, 10)], 20, none⟩
            [⟨0, "P", "s", 1, 30, "+", 0, 1, "gP"⟩, ⟨1, "P", "s", 100, 129, "+", 0, 1, "gP"⟩]
            [⟨2, "S", "s", 95, 124, "+", 0, 1, "gS"⟩] =
          .ok (out1 ++ out2 ++ out3) ∧
        (∀ l ∈ out1, ∃ r ∈ [(⟨1, "P", "s", 100, 129, "+", 0, 1, "gP"⟩ : ExonRow)],
          r.label = l) ∧
        (∀ l ∈ out2, ∃ r ∈ ([] : List ExonRow), r.label = l) ∧
        (∀ l ∈ out3, ∃ r ∈ ([] : List ExonRow), r.label = l)) :=
  c4_overlap_resolution ⟨300, 10, [(1, 10)], 50, none⟩ ⟨300, 10, [(1, 10)], 20, none⟩
    [⟨0, "P", "s", 1, 30, "+", 0, 1, "gP"⟩, ⟨1, "P", "s", 100, 129, "+", 0, 1, "gP"⟩]
    [⟨2, "S", "s", 95, 124, "+", 0, 1, "gS"⟩] "P" "S"
    [⟨0, "P", "s", 1, 30, "+", 0, 1, "gP"⟩] [⟨1, "P", "s", 100, 129, "+", 0, 1, "gP"⟩]
    [⟨2, "S", "s", 95, 124, "+", 0, 1, "gS"⟩] []
    (by decide) overlap_eval_walk_p overlap_eval_walk_s (by simp)
    (by decide) (by decide) (by decide) (by decide)

/-! ## Deduplicator invariants (claims C1 and C8): operation-level lemmas -/

theorem aerase_sublist (k : String) : ∀ (l : List (String × α)),
    List.Sublist (aerase k l) l
  | [] => List.Sublist.refl _
  | p :: t => by
    rw [aerase]
    by_cases hp : p.1 = k
    · rw [if_pos hp]
      exact List.sublist_cons_self p t
    · rw [if_neg hp]
      exact List.Sublist.cons₂ p (aerase_sublist k t)

theorem mem_aerase {p : String × α} {k : String} {l : List (String × α)}
    (h : p ∈ aerase k l) : p ∈ l :=
  (aerase_sublist k l).subset h

theorem keysOf_amodify (k : String) (f : α → α) : ∀ (l : List (String × α)),
    keysOf (amodify k f l) = keysOf l
  | [] => rfl
  | p :: t => by
    rw [amodify]
    by_cases hp : p.1 = k
    · rw [if_pos hp]
      rfl
    · rw [if_neg hp]
      simp only [keysOf, List.map_cons]
      rw [show (List.map Prod.fst (amodify k f t)) = keysOf (amodify k f t) from rfl,
        keysOf_amodify k f t]
      rfl

theorem mem_amodify {p : String × α} {k : String} {f : α → α} : ∀ {l : List (String × α)},
    p ∈ amodify k f l → p ∈ l ∨ (p.1 = k ∧ ∃ v, (k, v) ∈ l ∧ p.2 = f v)
  | [], h => absurd h (by simp [amodify])
  | q :: t, h => by
    rw [amodify] at h
    by_cases hq : q.1 = k
    · rw [if_pos hq] at h
      rcases List.mem_cons.mp h with hh | ht
      · right
        refine ⟨by rw [hh, ← hq], q.2, ?_, ?_⟩
        · rw [← hq]
          exact List.mem_cons_self q t
        · rw [hh]
      · exact Or.inl (List.mem_cons_of_mem q ht)
    · rw [if_neg hq] at h
      rcases List.mem_cons.mp h with hh | ht
      · exact Or.inl (hh ▸ List.mem_cons_self q t)
      · rcases mem_amodify ht with h1 | ⟨hk, v, hv, he⟩
        · exact Or.inl (List.mem_cons_of_mem q h1)
        · exact Or.inr ⟨hk, v, List.mem_cons_of_mem q hv, he⟩

theorem mem_amodify_ne_key {p : String × α} {k : String} {f : α → α} {l : List (String × α)}
    (h : p ∈ amodify k f l) (hk : p.1 ≠ k) : p ∈ l := by
  rcases mem_amodify h with h1 | ⟨hk2, _⟩
  · exact h1
  · exact absurd hk2 hk

theorem mem_aset {p : String × α} {k : String} {v : α} : ∀ {l : List (String × α)},
    p ∈ aset k v l → p ∈ l ∨ p = (k, v)
  | [], h => by
    rw [aset] at h
    exact Or.inr (List.mem_singleton.mp h)
  | q :: t, h => by
    rw [aset] at h
    by_cases hq : q.1 = k
    · rw [if_pos hq] at h
      rcases List.mem_cons.mp h with hh | ht
      · exact Or.inr hh
      · exact Or.inl (List.mem_cons_of_mem q ht)
    · rw [if_neg hq] at h
      rcases List.mem_cons.mp h with hh | ht
      · exact Or.inl (hh ▸ List.mem_cons_self q t)
      · rcases mem_aset ht with h1 | h2
        · exact Or.inl (List.mem_cons_of_mem q h1)
        · exact Or.inr h2

theorem keysOf_aset_mem {k : String} {v : α} : ∀ {l : List (String × α)},
    k ∈ keysOf l → keysOf (aset k v l) = keysOf l
  | [], h => absurd h (by simp [keysOf])
  | q :: t, h => by
    rw [aset]
    by_cases hq : q.1 = k
    · rw [if_pos hq]
      simp [keysOf, hq]
    · rw [if_neg hq]
      have ht : k ∈ keysOf t := by
        rcases List.mem_cons.mp h with hh | hh
        · exact absurd hh.symm hq
        · exact hh
      simp only [keysOf, List.map_cons]
      rw [show (List.map Prod.fst (aset k v t)) = keysOf (aset k v t) from rfl,
        keysOf_aset_mem ht]
      rfl

theorem alookup_of_mem_nodup {k : String} {v : α} : ∀ {l : List (String × α)},
    (k, v) ∈ l → (keysOf l).Nodup → alookup k l = some v
  | [], h, _ => absurd h (by simp)
  | q :: t, h, hnd => by
    rw [keysOf, List.map_cons, List.nodup_cons] at hnd
    rcases List.mem_cons.mp h with hh | ht
    · rw [alookup, if_pos (by rw [← hh])]
      rw [← hh]
    · have hq : ¬ q.1 = k := by
        intro he
        exact hnd.1 (he ▸ List.mem_map_of_mem Prod.fst ht)
      rw [alookup, if_neg hq]
      exact alookup_of_mem_nodup ht hnd.2

theorem foldl_fixed {f : α → β → α} {st : α} : ∀ {ks : List β},
    (∀ b ∈ ks, f st b = st) → ks.foldl f st = st
  | [], _ => rfl
  | b :: ks, h => by
    rw [List.foldl_cons, h b (List.mem_cons_self b ks)]
    exact foldl_fixed (fun x hx => h x (List.mem_cons_of_mem b hx))

theorem length_le_one_of_all_eq : ∀ {l : List String}, l.Nodup →
    ∀ (w : String), (∀ x ∈ l, x = w) → l.length ≤ 1
  | [], _, _, _ => by simp
  | [a], _, _, _ => by simp
  | a :: b :: t, hnd, w, h => by
    exfalso
    rw [List.nodup_cons] at hnd
    have ha := h a (List.mem_cons_self _ _)
    have hb := h b (List.mem_cons_of_mem a (List.mem_cons_self _ _))
    exact hnd.1 (by rw [ha, ← hb]; exact List.mem_cons_self _ _)

theorem eq_of_mem_length_le_one {l : List String} {a b : String}
    (ha : a ∈ l) (hb : b ∈ l) (h : l.length ≤ 1) : a = b := by
  match l with
  | [] => simp at ha
  | [x] =>
    rw [List.mem_singleton] at ha hb
    rw [ha, hb]
  | x :: y :: t => simp at h

theorem aerase_eq_nil {k : String} : ∀ {l : List (String × α)},
    aerase k l = [] → l = [] ∨ ∃ v, l = [(k, v)]
  | [], _ => Or.inl rfl
  | p :: t, h => by
    rw [aerase] at h
    by_cases hp : p.1 = k
    · rw [if_pos hp] at h
      right
      refine ⟨p.2, ?_⟩
      rw [h, ← hp]
    · rw [if_neg hp] at h
      exact absurd h (by simp)

theorem claims_pop_if_empty {x y : String} (b : String) (bd2 : BuscoDict)
    (hnd : (keysOf bd2).Nodup) :
    claimsB (if (alookup b bd2).getD [] = [] then aerase b bd2 else bd2) x y =
      claimsB bd2 x y := by
  by_cases hc : (alookup b bd2).getD [] = []
  · rw [if_pos hc]
    by_cases hx : x = b
    · subst hx
      unfold claimsB
      rw [alookup_aerase_self hnd]
      cases he : alookup x bd2 with
      | none => rfl
      | some gm =>
        simp only [he, Option.getD_some] at hc
        rw [hc]
        rfl
    · unfold claimsB
      rw [alookup_aerase_ne hx]
  · rw [if_neg hc]

theorem keysOf_nodup_pop (b : String) (bd2 : BuscoDict) (hnd : (keysOf bd2).Nodup) :
    (keysOf (if (alookup b bd2).getD [] = [] then aerase b bd2 else bd2)).Nodup := by
  by_cases hc : (alookup b bd2).getD [] = []
  · rw [if_pos hc]
    exact ((aerase_sublist b bd2).map Prod.fst).nodup hnd
  · rw [if_neg hc]
    exact hnd

theorem claims_amodify_aerase {x y : String} (b g : String) (bd : BuscoDict)
    (hinner : ∀ gm, alookup b bd = some gm → (keysOf gm).Nodup) :
    claimsB (amodify b (aerase g) bd) x y =
      (claimsB bd x y && !(decide (x = b) && decide (y = g))) := by
  by_cases hx : x = b
  · subst hx
    unfold claimsB
    rw [alookup_amodify_self]
    cases he : alookup x bd with
    | none => simp [alookup]
    | some gm =>
      have hred : (Option.map (aerase g) (some gm)).getD [] = aerase g gm := rfl
      rw [hred]
      by_cases hy : y = g
      · rw [hy, alookup_aerase_self (hinner gm he)]
        simp
      · rw [alookup_aerase_ne hy]
        simp [hy]
  · unfold claimsB
    rw [alookup_amodify_ne hx]
    simp [hx]

theorem claims_aerase_busco {x y : String} (b : String) (bd : BuscoDict)
    (hnd : (keysOf bd).Nodup) :
    claimsB (aerase b bd) x y = (claimsB bd x y && !(decide (x = b))) := by
  by_cases hx : x = b
  · subst hx
    unfold claimsB
    rw [alookup_aerase_self hnd]
    simp [alookup]
  · unfold claimsB
    rw [alookup_aerase_ne hx]
    simp [hx]

theorem BdWF_aerase (b : String) (bd : BuscoDict) (h : BdWF bd) : BdWF (aerase b bd) := by
  refine ⟨((aerase_sublist b bd).map Prod.fst).nodup h.1, ?_⟩
  intro p hp
  exact h.2 p (mem_aerase hp)

theorem BdWF_amodify_pop (b g : String) (bd : BuscoDict) (h : BdWF bd) :
    BdWF (if (alookup b (amodify b (aerase g) bd)).getD [] = [] then
        aerase b (amodify b (aerase g) bd) else amodify b (aerase g) bd) := by
  have hknd : (keysOf (amodify b (aerase g) bd)).Nodup := by
    rw [keysOf_amodify]
    exact h.1
  by_cases hc : (alookup b (amodify b (aerase g) bd)).getD [] = []
  · rw [if_pos hc]
    refine ⟨((aerase_sublist b _).map Prod.fst).nodup hknd, ?_⟩
    intro p hp
    have hpne : p.1 ≠ b := by
      intro he
      have hmem : p.1 ∈ keysOf (aerase b (amodify b (aerase g) bd)) :=
        List.mem_map_of_mem Prod.fst hp
      rw [he, ← alookup_isSome_iff_mem_keys, alookup_aerase_self hknd] at hmem
      simp at hmem
    exact h.2 p (mem_amodify_ne_key (mem_aerase hp) hpne)
  · rw [if_neg hc]
    refine ⟨hknd, ?_⟩
    intro p hp
    rcases mem_amodify hp with h1 | ⟨hk, v, hv, he⟩
    · exact h.2 p h1
    · have hv2 := h.2 (b, v) hv
      refine ⟨?_, ?_, ?_⟩
      · rw [he]
        exact ((aerase_sublist g v).map Prod.fst).nodup hv2.1
      · intro hpe
        apply hc
        have halo : alookup b bd = some v := alookup_of_mem_nodup hv h.1
        rw [alookup_amodify_self, halo]
        rw [he] at hpe
        exact hpe
      · intro q hq
        rw [he] at hq
        exact hv2.2.2 q (mem_aerase hq)

theorem rbm_alookup (g b : String) (mg : MatchedGenes) (hnd : (keysOf mg).Nodup)
    (y : String) :
    alookup y (remove_busco_from_matched g b mg) =
      if y = g then
        (alookup g mg).bind (fun l =>
          if l.filter (fun x => x ≠ b) = [] then none
          else some (l.filter (fun x => x ≠ b)))
      else alookup y mg := by
  unfold remove_busco_from_matched
  cases he : alookup g mg with
  | none =>
    by_cases hy : y = g
    · rw [hy, if_pos rfl, he]
      rfl
    · rw [if_neg hy]
  | some l =>
    simp only
    by_cases hl : l.filter (fun x => x ≠ b) = []
    · rw [if_pos hl]
      by_cases hy : y = g
      · subst hy
        rw [if_pos rfl, alookup_aerase_self hnd]
        show none = if l.filter (fun x => x ≠ b) = [] then none
          else some (l.filter (fun x => x ≠ b))
        rw [if_pos hl]
      · rw [if_neg hy, alookup_aerase_ne hy]
    · rw [if_neg hl]
      by_cases hy : y = g
      · subst hy
        rw [if_pos rfl, alookup_aset_self]
        show some (l.filter (fun x => x ≠ b)) = if l.filter (fun x => x ≠ b) = [] then none
          else some (l.filter (fun x => x ≠ b))
        rw [if_neg hl]
      · rw [if_neg hy, alookup_aset_ne hy]

theorem MgWF_rbm (g b : String) (mg : MatchedGenes) (h : MgWF mg) :
    MgWF (remove_busco_from_matched g b mg) := by
  unfold remove_busco_from_matched
  cases he : alookup g mg with
  | none => exact h
  | some l =>
    simp only
    by_cases hl : l.filter (fun x => x ≠ b) = []
    · rw [if_pos hl]
      refine ⟨((aerase_sublist g mg).map Prod.fst).nodup h.1, ?_⟩
      intro p hp
      exact h.2 p (mem_aerase hp)
    · rw [if_neg hl]
      refine ⟨?_, ?_⟩
      · rw [keysOf_aset_mem]
        · exact h.1
        · rw [← alookup_isSome_iff_mem_keys, he]
          rfl
      · intro p hp
        rcases mem_aset hp with h1 | h2
        · exact h.2 p h1
        · have hmem : (g, l) ∈ mg := alookup_eq_some_mem he
          have hv := h.2 (g, l) hmem
          rw [h2]
          exact ⟨hv.1.filter _, hl⟩

theorem inv_rbm {y x : String} (g b : String) (mg : MatchedGenes)
    (hnd : (keysOf mg).Nodup) :
    inv_containsB (remove_busco_from_matched g b mg) y x =
      (inv_containsB mg y x && !(decide (y = g) && decide (x = b))) := by
  unfold inv_containsB
  rw [rbm_alookup g b mg hnd y]
  by_cases hy : y = g
  · subst hy
    rw [if_pos rfl]
    cases he : alookup y mg with
    | none => simp
    | some l =>
      have hred : ((some l).bind (fun l =>
          if l.filter (fun x => x ≠ b) = [] then none
          else some (l.filter (fun x => x ≠ b)))) =
          if l.filter (fun x => x ≠ b) = [] then none
          else some (l.filter (fun x => x ≠ b)) := rfl
      rw [hred]
      by_cases hl : l.filter (fun q => q ≠ b) = []
      · rw [if_pos hl]
        by_cases hx : x = b
        · simp [hx]
        · have hxl : ¬ x ∈ l := by
            intro hxm
            have hxf : x ∈ l.filter (fun q => q ≠ b) := by
              rw [List.mem_filter]
              exact ⟨hxm, by simp [hx]⟩
            rw [hl] at hxf
            simp at hxf
          simp only [Option.getD_none, Option.getD_some]
          simp [List.contains, List.elem_eq_mem, hxl, hx]
      · rw [if_neg hl]
        simp only [Option.getD_some]
        by_cases hx : x = b
        · subst hx
          simp [List.contains, List.elem_eq_mem, List.mem_filter]
        · simp [List.contains, List.elem_eq_mem, List.mem_filter, hx]
  · rw [if_neg hy]
    simp [hy]

theorem claims_eq_mem_keys {b y : String} {bd : BuscoDict} {gm : GeneMap}
    (h : alookup b bd = some gm) : claimsB bd b y = decide (y ∈ keysOf gm) := by
  unfold claimsB
  rw [h]
  simp only [Option.getD_some]
  by_cases hy : y ∈ keysOf gm
  · rw [alookup_isSome_iff_mem_keys.mpr hy]
    simp [hy]
  · rw [alookup_eq_none_of_not_mem hy]
    simp [hy]

theorem rugs_claims (b : String) (used : List String) (st2 : BuscoDict × MatchedGenes)
    (g : String) (hbd : BdWF st2.1) (x y : String) :
    claimsB (remove_used_gene_step b used st2 g).1 x y =
      (claimsB st2.1 x y &&
        !(decide (g ∈ used) && decide (x = b) && decide (y = g))) := by
  unfold remove_used_gene_step
  by_cases hg : g ∈ used
  · rw [if_pos hg]
    simp only
    rw [claims_pop_if_empty b _ (by rw [keysOf_amodify]; exact hbd.1)]
    rw [claims_amodify_aerase b g st2.1 (fun gm hgm => (hbd.2 _ (alookup_eq_some_mem hgm)).1)]
    simp [hg]
  · rw [if_neg hg]
    simp [hg]

theorem rugs_inv (b : String) (used : List String) (st2 : BuscoDict × MatchedGenes)
    (g : String) (hmg : MgWF st2.2) (x y : String) :
    inv_containsB (remove_used_gene_step b used st2 g).2 y x =
      (inv_containsB st2.2 y x &&
        !(decide (g ∈ used) && decide (x = b) && decide (y = g))) := by
  unfold remove_used_gene_step
  by_cases hg : g ∈ used
  · rw [if_pos hg]
    simp only
    rw [inv_rbm g b st2.2 hmg.1]
    by_cases hyg : y = g <;> by_cases hxb : x = b <;> simp [hyg, hxb, hg]
  · rw [if_neg hg]
    simp [hg]

theorem rugs_bdwf (b : String) (used : List String) (st2 : BuscoDict × MatchedGenes)
    (g : String) (hbd : BdWF st2.1) : BdWF (remove_used_gene_step b used st2 g).1 := by
  unfold remove_used_gene_step
  by_cases hg : g ∈ used
  · rw [if_pos hg]
    exact BdWF_amodify_pop b g st2.1 hbd
  · rw [if_neg hg]
    exact hbd

theorem rugs_mgwf (b : String) (used : List String) (st2 : BuscoDict × MatchedGenes)
    (g : String) (hmg : MgWF st2.2) : MgWF (remove_used_gene_step b used st2 g).2 := by
  unfold remove_used_gene_step
  by_cases hg : g ∈ used
  · rw [if_pos hg]
    exact MgWF_rbm g b st2.2 hmg
  · rw [if_neg hg]
    exact hmg

theorem rugs_frame (b : String) (used : List String) (st2 : BuscoDict × MatchedGenes)
    (g : String) (x : String) (hx : x ≠ b) :
    alookup x (remove_used_gene_step b used st2 g).1 = alookup x st2.1 := by
  unfold remove_used_gene_step
  by_cases hg : g ∈ used
  · rw [if_pos hg]
    simp only
    by_cases hc : (alookup b (amodify b (aerase g) st2.1)).getD [] = []
    · rw [if_pos hc, alookup_aerase_ne hx, alookup_amodify_ne hx]
    · rw [if_neg hc, alookup_amodify_ne hx]
  · rw [if_neg hg]

theorem rlrd_gene_fold (b : String) (used : List String) :
    ∀ (gs : List String) (st2 : BuscoDict × MatchedGenes),
      BdWF st2.1 → MgWF st2.2 → Consistent st2.1 st2.2 →
      BdWF (gs.foldl (remove_used_gene_step b used) st2).1 ∧
      MgWF (gs.foldl (remove_used_gene_step b used) st2).2 ∧
      Consistent (gs.foldl (remove_used_gene_step b used) st2).1
        (gs.foldl (remove_used_gene_step b used) st2).2 ∧
      (∀ x y, claimsB (gs.foldl (remove_used_gene_step b used) st2).1 x y =
        (claimsB st2.1 x y &&
          !(decide (y ∈ gs) && decide (y ∈ used) && decide (x = b)))) ∧
      (∀ x, x ≠ b →
        alookup x (gs.foldl (remove_used_gene_step b used) st2).1 = alookup x st2.1)
  | [], st2, hbd, hmg, hcons => by
    refine ⟨hbd, hmg, hcons, ?_, fun x _ => rfl⟩
    intro x y
    simp
  | g :: gs, st2, hbd, hmg, hcons => by
    rw [List.foldl_cons]
    have hbd3 := rugs_bdwf b used st2 g hbd
    have hmg3 := rugs_mgwf b used st2 g hmg
    have hcons3 : Consistent (remove_used_gene_step b used st2 g).1
        (remove_used_gene_step b used st2 g).2 := by
      intro x y
      rw [rugs_claims b used st2 g hbd, rugs_inv b used st2 g hmg, hcons x y]
    obtain ⟨h1, h2, h3, h4, h5⟩ := rlrd_gene_fold b used gs _ hbd3 hmg3 hcons3
    refine ⟨h1, h2, h3, ?_, ?_⟩
    · intro x y
      rw [h4 x y, rugs_claims b used st2 g hbd]
      by_cases hyg : y = g
      · subst hyg
        by_cases hyu : y ∈ used <;> by_cases hxb : x = b <;>
          simp [hyu, hxb, List.mem_cons]
      · by_cases hygs : y ∈ gs <;> by_cases hyu : y ∈ used <;> by_cases hxb : x = b <;>
          simp [hyg, hygs, hyu, hxb, List.mem_cons]
    · intro x hx
      rw [h5 x hx, rugs_frame b used st2 g x hx]

theorem rbm_fold (b : String) :
    ∀ (gl : List String) (mg : MatchedGenes), MgWF mg →
      MgWF (gl.foldl (fun m gene_id => remove_busco_from_matched gene_id b m) mg) ∧
      ∀ y x, inv_containsB
          (gl.foldl (fun m gene_id => remove_busco_from_matched gene_id b m) mg) y x =
        (inv_containsB mg y x && !(decide (y ∈ gl) && decide (x = b)))
  | [], mg, hmg => by
    refine ⟨hmg, ?_⟩
    intro y x
    simp
  | g :: gl, mg, hmg => by
    rw [List.foldl_cons]
    obtain ⟨h1, h2⟩ := rbm_fold b gl (remove_busco_from_matched g b mg) (MgWF_rbm g b mg hmg)
    refine ⟨h1, ?_⟩
    intro y x
    rw [h2 y x, inv_rbm g b mg hmg.1]
    by_cases hyg : y = g
    · subst hyg
      by_cases hxb : x = b <;> simp [hxb, List.mem_cons]
    · by_cases hygl : y ∈ gl <;> by_cases hxb : x = b <;>
        simp [hyg, hygl, hxb, List.mem_cons]

theorem rlrd_step_wf (higher used : List String) (st : BuscoDict × MatchedGenes)
    (b : String) (hbd : BdWF st.1) (hmg : MgWF st.2) (hcons : Consistent st.1 st.2) :
    BdWF (remove_lower_ranked_step higher used st b).1 ∧
    MgWF (remove_lower_ranked_step higher used st b).2 ∧
    Consistent (remove_lower_ranked_step higher used st b).1
      (remove_lower_ranked_step higher used st b).2 ∧
    (∀ x, x ≠ b → alookup x (remove_lower_ranked_step higher used st b).1 = alookup x st.1) ∧
    rlrd_done higher used (remove_lower_ranked_step higher used st b).1 b ∧
    (∀ x y, claimsB (remove_lower_ranked_step higher used st b).1 x y = true →
      claimsB st.1 x y = true) := by
  unfold remove_lower_ranked_step
  cases he : alookup b st.1 with
  | none =>
    simp only
    refine ⟨hbd, hmg, hcons, ?_, ⟨?_, ?_⟩, fun x y h => h⟩
    · intro x h
      trivial
    · intro hmem
      rw [← alookup_isSome_iff_mem_keys, he] at hmem
      simp at hmem
    · intro gm hgm
      rw [he] at hgm
      simp at hgm
  | some gm =>
    simp only
    by_cases hhi : b ∈ higher
    · rw [if_pos hhi]
      obtain ⟨hm1, hm2⟩ := rbm_fold b (keysOf gm) st.2 hmg
      refine ⟨BdWF_aerase b st.1 hbd, hm1, ?_, ?_, ⟨?_, ?_⟩, ?_⟩
      · intro x y
        rw [claims_aerase_busco b st.1 hbd.1, hm2 y x, hcons x y]
        by_cases hxb : x = b
        · subst hxb
          by_cases hyk : y ∈ keysOf gm
          · simp [hyk]
          · have hcl : claimsB st.1 x y = false := by
              rw [claims_eq_mem_keys he]
              simp [hyk]
            rw [← hcons x y, hcl]
            simp [hyk]
        · simp [hxb]
      · intro x hx
        exact alookup_aerase_ne hx
      · intro hmem
        rw [← alookup_isSome_iff_mem_keys, alookup_aerase_self hbd.1] at hmem
        simp at hmem
      · intro gm' hgm'
        rw [alookup_aerase_self hbd.1] at hgm'
        simp at hgm'
      · intro x y h
        rw [claims_aerase_busco b st.1 hbd.1, Bool.and_eq_true] at h
        exact h.1
    · rw [if_neg hhi]
      obtain ⟨h1, h2, h3, h4, h5⟩ := rlrd_gene_fold b used (keysOf gm) st hbd hmg hcons
      refine ⟨h1, h2, h3, h5, ⟨fun _ => hhi, ?_⟩, ?_⟩
      · intro gm' hgm' q hq hqu
        have hcl : claimsB ((keysOf gm).foldl (remove_used_gene_step b used) st).1 b q.1 =
            true := by
          unfold claimsB
          rw [hgm']
          simp only [Option.getD_some]
          rw [alookup_isSome_iff_mem_keys]
          exact List.mem_map_of_mem Prod.fst hq
        rw [h4 b q.1, Bool.and_eq_true] at hcl
        obtain ⟨hcl1, hcl2⟩ := hcl
        have hqk : q.1 ∈ keysOf gm := by
          rw [claims_eq_mem_keys he] at hcl1
          exact of_decide_eq_true hcl1
        simp [hqk, hqu] at hcl2
      · intro x y h
        rw [h4 x y, Bool.and_eq_true] at h
        exact h.1

theorem rlrd_fold (higher used : List String) :
    ∀ (ks : List String) (st : BuscoDict × MatchedGenes),
      BdWF st.1 → MgWF st.2 → Consistent st.1 st.2 →
      (∀ b, b ∉ ks → rlrd_done higher used st.1 b) →
      BdWF (ks.foldl (remove_lower_ranked_step higher used) st).1 ∧
      MgWF (ks.foldl (remove_lower_ranked_step higher used) st).2 ∧
      Consistent (ks.foldl (remove_lower_ranked_step higher used) st).1
        (ks.foldl (remove_lower_ranked_step higher used) st).2 ∧
      (∀ b, rlrd_done higher used (ks.foldl (remove_lower_ranked_step higher used) st).1 b) ∧
      (∀ x y, claimsB (ks.foldl (remove_lower_ranked_step higher used) st).1 x y = true →
        claimsB st.1 x y = true)
  | [], st, hbd, hmg, hcons, hdone => by
    exact ⟨hbd, hmg, hcons, fun b => hdone b (by simp), fun x y h => h⟩
  | b :: ks, st, hbd, hmg, hcons, hdone => by
    rw [List.foldl_cons]
    obtain ⟨s1, s2, s3, s4, s5, s6⟩ := rlrd_step_wf higher used st b hbd hmg hcons
    have hdone' : ∀ b', b' ∉ ks →
        rlrd_done higher used (remove_lower_ranked_step higher used st b).1 b' := by
      intro b' hb'
      by_cases hbb : b' = b
      · rw [hbb]
        exact s5
      · have hold : rlrd_done higher used st.1 b' := by
          apply hdone
          intro hmem
          rcases List.mem_cons.mp hmem with h | h
          · exact hbb h
          · exact hb' h
        refine ⟨?_, ?_⟩
        · intro hmem
          apply hold.1
          rw [← alookup_isSome_iff_mem_keys, s4 b' hbb, alookup_isSome_iff_mem_keys] at hmem
          exact hmem
        · intro gm' hgm'
          rw [s4 b' hbb] at hgm'
          exact hold.2 gm' hgm'
    obtain ⟨h1, h2, h3, h4, h5⟩ := rlrd_fold higher used ks _ s1 s2 s3 hdone'
    exact ⟨h1, h2, h3, h4, fun x y h => s6 x y (h5 x y h)⟩

theorem rlrd_invariants (higher used : List String) (bd : BuscoDict) (mg : MatchedGenes)
    (hbd : BdWF bd) (hmg : MgWF mg) (hcons : Consistent bd mg) :
    BdWF (remove_lower_ranked_duplicates higher used bd mg).1 ∧
    MgWF (remove_lower_ranked_duplicates higher used bd mg).2 ∧
    Consistent (remove_lower_ranked_duplicates higher used bd mg).1
      (remove_lower_ranked_duplicates higher used bd mg).2 ∧
    (∀ b, rlrd_done higher used (remove_lower_ranked_duplicates higher used bd mg).1 b) ∧
    (∀ x y, claimsB (remove_lower_ranked_duplicates higher used bd mg).1 x y = true →
      claimsB bd x y = true) := by
  unfold remove_lower_ranked_duplicates
  exact rlrd_fold higher used (keysOf bd) (bd, mg) hbd hmg hcons (by
    intro b hb
    refine ⟨fun hmem => absurd hmem hb, ?_⟩
    intro gm hgm
    exfalso
    apply hb
    rw [← alookup_isSome_iff_mem_keys, hgm]
    rfl)

theorem pops_fold (g : String) :
    ∀ (ds : List String) (bd : BuscoDict), BdWF bd →
      BdWF (ds.foldl (fun bd duplicate =>
        if (alookup duplicate (amodify duplicate (aerase g) bd)).getD [] = []
        then aerase duplicate (amodify duplicate (aerase g) bd)
        else amodify duplicate (aerase g) bd) bd) ∧
      ∀ x y, claimsB (ds.foldl (fun bd duplicate =>
          if (alookup duplicate (amodify duplicate (aerase g) bd)).getD [] = []
          then aerase duplicate (amodify duplicate (aerase g) bd)
          else amodify duplicate (aerase g) bd) bd) x y =
        (claimsB bd x y && !(decide (x ∈ ds) && decide (y = g)))
  | [], bd, hbd => by
    refine ⟨hbd, ?_⟩
    intro x y
    simp
  | d :: ds, bd, hbd => by
    rw [List.foldl_cons]
    have hstep : BdWF (if (alookup d (amodify d (aerase g) bd)).getD [] = []
        then aerase d (amodify d (aerase g) bd)
        else amodify d (aerase g) bd) := BdWF_amodify_pop d g bd hbd
    obtain ⟨h1, h2⟩ := pops_fold g ds _ hstep
    refine ⟨h1, ?_⟩
    intro x y
    rw [h2 x y, claims_pop_if_empty d _ (by rw [keysOf_amodify]; exact hbd.1),
      claims_amodify_aerase d g bd (fun gm hgm => (hbd.2 _ (alookup_eq_some_mem hgm)).1)]
    by_cases hxd : x = d
    · subst hxd
      by_cases hyg : y = g <;> simp [hyg, List.mem_cons]
    · by_cases hxds : x ∈ ds <;> by_cases hyg : y = g <;>
        simp [hxd, hxds, hyg, List.mem_cons]

theorem rrg_neg (st : BuscoDict × List (String × String)) (p : String × List String)
    (h : rrdm_processedL st.1 p.1 p.2 = false) : remove_remaining_gene st p = st := by
  simp [remove_remaining_gene, h]

theorem rrg_pos (st : BuscoDict × List (String × String)) (p : String × List String)
    (h : rrdm_processedL st.1 p.1 p.2 = true) : remove_remaining_gene st p =
      (((p.2.filter (fun x => x ≠ rrdm_winnerL st.1 p.1 p.2)).dedup).foldl
          (fun bd duplicate =>
            if (alookup duplicate (amodify duplicate (aerase p.1) bd)).getD [] = []
            then aerase duplicate (amodify duplicate (aerase p.1) bd)
            else amodify duplicate (aerase p.1) bd) st.1,
       st.2 ++ ((p.2.filter (fun x => x ≠ rrdm_winnerL st.1 p.1 p.2)).dedup).map
          (fun d => (p.1, d))) := by
  simp [remove_remaining_gene, h]

theorem rrdm_fold (bd0 : BuscoDict) (mg0 : MatchedGenes)
    (hmg0 : (keysOf mg0).Nodup) (hcons0 : Consistent bd0 mg0) :
    ∀ (ms : List (String × List String)) (st : BuscoDict × List (String × String)),
      BdWF st.1 →
      (∀ x y, claimsB st.1 x y = (claimsB bd0 x y && !(decide ((y, x) ∈ st.2)))) →
      (∀ p ∈ ms, ∀ x, (p.1, x) ∉ st.2) →
      (∀ p ∈ ms, p ∈ mg0 ∧ p.2.Nodup ∧ p.2 ≠ []) →
      (ms.map Prod.fst).Nodup →
      BdWF (ms.foldl remove_remaining_gene st).1 ∧
      (∀ x y, claimsB (ms.foldl remove_remaining_gene st).1 x y =
        (claimsB bd0 x y && !(decide ((y, x) ∈ (ms.foldl remove_remaining_gene st).2)))) ∧
      (∀ pr ∈ st.2, pr ∈ (ms.foldl remove_remaining_gene st).2) ∧
      (∀ p ∈ ms, p.2.length ≤ 1 ∨
        ∃ w, ∀ x ∈ p.2, x ≠ w → (p.1, x) ∈ (ms.foldl remove_remaining_gene st).2)
  | [], st, hbd, hclaims, _, _, _ => by
    exact ⟨hbd, hclaims, fun pr hpr => hpr, fun p hp => absurd hp (by simp)⟩
  | p :: ms, st, hbd, hclaims, hfresh, hsub, hknd => by
    rw [List.foldl_cons]
    rw [List.map_cons, List.nodup_cons] at hknd
    cases hguard : rrdm_processedL st.1 p.1 p.2 with
    | false =>
      rw [rrg_neg st p hguard]
      have hlen : p.2.length ≤ 1 := by
        by_cases hl1 : p.2.length > 1
        · exfalso
          unfold rrdm_processedL at hguard
          rw [decide_eq_true hl1] at hguard
          obtain ⟨hpm, hpnd, hpne⟩ := hsub p (List.mem_cons_self p ms)
          by_cases hpz : rrdm_pairs st.1 p.1 p.2 = []
          · cases hp2 : p.2 with
            | nil => exact hpne hp2
            | cons d rest =>
              have hd : d ∈ p.2 := by rw [hp2]; exact List.mem_cons_self d rest
              have hinv : inv_containsB mg0 p.1 d = true := by
                unfold inv_containsB
                rw [alookup_of_mem_nodup hpm hmg0]
                simp only [Option.getD_some]
                simp [List.contains, List.elem_eq_mem, hd]
              have hcl0 : claimsB bd0 d p.1 = true := by
                rw [hcons0 d p.1]
                exact hinv
              have hcl : claimsB st.1 d p.1 = true := by
                rw [hclaims d p.1, hcl0]
                have hnm : (p.1, d) ∉ st.2 := hfresh p (List.mem_cons_self p ms) d
                simp [hnm]
              unfold claimsB at hcl
              cases hed : alookup d st.1 with
              | none =>
                rw [hed] at hcl
                simp [alookup] at hcl
              | some gmD =>
                rw [hed] at hcl
                simp only [Option.getD_some] at hcl
                cases her : alookup p.1 gmD with
                | none =>
                  rw [her] at hcl
                  simp at hcl
                | some recs =>
                  have hrne : recs ≠ [] :=
                    (hbd.2 (d, gmD) (alookup_eq_some_mem hed)).2.2 (p.1, recs)
                      (alookup_eq_some_mem her)
                  cases hrecs : recs with
                  | nil => exact hrne hrecs
                  | cons r rs =>
                    have hmemp : (r.bitscore, d) ∈ rrdm_pairs st.1 p.1 p.2 := by
                      unfold rrdm_pairs
                      rw [List.mem_flatten]
                      refine ⟨_, List.mem_map_of_mem _ hd, ?_⟩
                      rw [hed]
                      simp only [Option.getD_some]
                      rw [her]
                      simp only [Option.getD_some]
                      rw [hrecs]
                      exact List.mem_map_of_mem _ (List.mem_cons_self r rs)
                    rw [hpz] at hmemp
                    simp at hmemp
          · rw [decide_eq_false hpz] at hguard
            simp at hguard
            have hdl : p.2.dedup.length = 1 := hguard
            rw [List.Nodup.dedup hpnd] at hdl
            rw [hdl] at hl1
            simp at hl1
        · exact Nat.not_lt.mp hl1
      obtain ⟨h1, h2, h3, h4⟩ := rrdm_fold bd0 mg0 hmg0 hcons0 ms st hbd hclaims
        (fun q hq => hfresh q (List.mem_cons_of_mem p hq))
        (fun q hq => hsub q (List.mem_cons_of_mem p hq)) hknd.2
      refine ⟨h1, h2, h3, ?_⟩
      intro q hq
      rcases List.mem_cons.mp hq with hqp | hqm
      · rw [hqp]
        exact Or.inl hlen
      · exact h4 q hqm
    | true =>
      rw [rrg_pos st p hguard]
      have hpops := pops_fold p.1
        ((p.2.filter (fun x => x ≠ rrdm_winnerL st.1 p.1 p.2)).dedup) st.1 hbd
      have hbd' := hpops.1
      have hclaims' : ∀ x y, claimsB (((p.2.filter
          (fun x => x ≠ rrdm_winnerL st.1 p.1 p.2)).dedup).foldl
            (fun bd duplicate =>
              if (alookup duplicate (amodify duplicate (aerase p.1) bd)).getD [] = []
              then aerase duplicate (amodify duplicate (aerase p.1) bd)
              else amodify duplicate (aerase p.1) bd) st.1) x y =
          (claimsB bd0 x y && !(decide ((y, x) ∈ st.2 ++
            ((p.2.filter (fun x => x ≠ rrdm_winnerL st.1 p.1 p.2)).dedup).map
              (fun d => (p.1, d))))) := by
        intro x y
        rw [hpops.2 x y, hclaims x y]
        by_cases hys : (y, x) ∈ st.2 <;>
          by_cases hxl : x ∈ (p.2.filter (fun x => x ≠ rrdm_winnerL st.1 p.1 p.2)).dedup <;>
          by_cases hyg : y = p.1 <;>
          simp [hys, hxl, hyg, List.mem_append, List.mem_map, Bool.and_assoc,
            List.mem_dedup, List.mem_filter] <;>
          exact fun _ => Or.inr (Or.inr (fun he => hyg he.symm))
      have hfresh' : ∀ q ∈ ms, ∀ x, (q.1, x) ∉ st.2 ++
          ((p.2.filter (fun x => x ≠ rrdm_winnerL st.1 p.1 p.2)).dedup).map
            (fun d => (p.1, d)) := by
        intro q hq x hmem
        rcases List.mem_append.mp hmem with hm1 | hm2
        · exact hfresh q (List.mem_cons_of_mem p hq) x hm1
        · rw [List.mem_map] at hm2
          obtain ⟨d, _, hde⟩ := hm2
          apply hknd.1
          rw [show p.1 = q.1 from ((Prod.mk.inj hde.symm).1).symm]
          exact List.mem_map_of_mem Prod.fst hq
      obtain ⟨h1, h2, h3, h4⟩ := rrdm_fold bd0 mg0 hmg0 hcons0 ms
        (((p.2.filter (fun x => x ≠ rrdm_winnerL st.1 p.1 p.2)).dedup).foldl
            (fun bd duplicate =>
              if (alookup duplicate (amodify duplicate (aerase p.1) bd)).getD [] = []
              then aerase duplicate (amodify duplicate (aerase p.1) bd)
              else amodify duplicate (aerase p.1) bd) st.1,
         st.2 ++ ((p.2.filter (fun x => x ≠ rrdm_winnerL st.1 p.1 p.2)).dedup).map
            (fun d => (p.1, d)))
        hbd' hclaims' hfresh' (fun q hq => hsub q (List.mem_cons_of_mem p hq)) hknd.2
      refine ⟨h1, h2, ?_, ?_⟩
      · intro pr hpr
        exact h3 pr (List.mem_append_left _ hpr)
      · intro q hq
        rcases List.mem_cons.mp hq with hqp | hqm
        · right
          refine ⟨rrdm_winnerL st.1 p.1 p.2, ?_⟩
          intro x hx hxw
          apply h3
          apply List.mem_append_right
          rw [List.mem_map]
          refine ⟨x, ?_, by rw [hqp]⟩
          rw [List.mem_dedup, List.mem_filter]
          exact ⟨hqp ▸ hx, by simp [hxw]⟩
        · exact h4 q hqm

theorem amtr_cons (mg : MatchedGenes) (pr : String × String)
    (rest : List (String × String)) :
    apply_matches_to_remove mg (pr :: rest) =
      apply_matches_to_remove (match alookup pr.1 mg with
        | none => mg
        | some l =>
          if l.erase pr.2 = [] then aerase pr.1 mg
          else aset pr.1 (l.erase pr.2) mg) rest := by
  unfold apply_matches_to_remove
  rw [List.foldl_cons]

theorem filter_pair_cons_ne {g : String} (pr : String × String)
    (rest : List (String × String)) (l2 : List String) (hg : g ≠ pr.1) :
    l2.filter (fun x => !(decide ((g, x) ∈ rest))) =
      l2.filter (fun x => !(decide ((g, x) ∈ pr :: rest))) := by
  apply List.filter_congr
  intro a _
  have hiff : ((g, a) ∈ pr :: rest) ↔ ((g, a) ∈ rest) := by
    rw [List.mem_cons]
    constructor
    · intro hh
      rcases hh with hh | hh
      · exact absurd (congrArg Prod.fst hh) hg
      · exact hh
    · exact Or.inr
  simp [hiff]

theorem match_filter_congr {g : String} (o : Option (List String))
    (pr : String × String) (rest : List (String × String)) (hg : g ≠ pr.1) :
    (match o with
      | none => none
      | some l => if l.filter (fun x => !(decide ((g, x) ∈ rest))) = [] then none
        else some (l.filter (fun x => !(decide ((g, x) ∈ rest))))) =
    (match o with
      | none => none
      | some l => if l.filter (fun x => !(decide ((g, x) ∈ pr :: rest))) = [] then none
        else some (l.filter (fun x => !(decide ((g, x) ∈ pr :: rest))))) := by
  cases o with
  | none => rfl
  | some l =>
    show (if l.filter (fun x => !(decide ((g, x) ∈ rest))) = [] then none
        else some (l.filter (fun x => !(decide ((g, x) ∈ rest))))) =
      (if l.filter (fun x => !(decide ((g, x) ∈ pr :: rest))) = [] then none
        else some (l.filter (fun x => !(decide ((g, x) ∈ pr :: rest)))))
    rw [filter_pair_cons_ne pr rest l hg]

theorem apply_mtr_alookup :
    ∀ (rem : List (String × String)) (mg : MatchedGenes), MgWF mg →
      MgWF (apply_matches_to_remove mg rem) ∧
      ∀ g, alookup g (apply_matches_to_remove mg rem) =
        match alookup g mg with
        | none => none
        | some l =>
          if l.filter (fun x => !(decide ((g, x) ∈ rem))) = [] then none
          else some (l.filter (fun x => !(decide ((g, x) ∈ rem))))
  | [], mg, hwf => by
    refine ⟨hwf, ?_⟩
    intro g
    show alookup g mg = _
    cases he : alookup g mg with
    | none => rfl
    | some l =>
      have hfl : l.filter (fun x => !(decide ((g, x) ∈ ([] : List (String × String))))) =
          l := by
        rw [List.filter_eq_self]
        intro a _
        simp
      have hlne : l ≠ [] := (hwf.2 (g, l) (alookup_eq_some_mem he)).2
      show _ = (if l.filter (fun x => !(decide ((g, x) ∈ ([] : List (String × String))))) = []
        then none else some (l.filter (fun x => !(decide ((g, x) ∈ ([] : List (String × String)))))))
      rw [hfl, if_neg hlne]
  | pr :: rest, mg, hwf => by
    cases he : alookup pr.1 mg with
    | none =>
      have hred : apply_matches_to_remove mg (pr :: rest) =
          apply_matches_to_remove mg rest := by
        rw [amtr_cons, he]
      rw [hred]
      obtain ⟨hw, hform⟩ := apply_mtr_alookup rest mg hwf
      refine ⟨hw, ?_⟩
      intro g
      rw [hform g]
      by_cases hg : g = pr.1
      · rw [hg, he]
      · exact match_filter_congr (alookup g mg) pr rest hg
    | some l =>
      have hlmem : (pr.1, l) ∈ mg := alookup_eq_some_mem he
      have hlnd : l.Nodup := (hwf.2 (pr.1, l) hlmem).1
      have herase : l.erase pr.2 = l.filter (fun x => x != pr.2) :=
        hlnd.erase_eq_filter pr.2
      by_cases hl2 : l.erase pr.2 = []
      · have hred : apply_matches_to_remove mg (pr :: rest) =
            apply_matches_to_remove (aerase pr.1 mg) rest := by
          rw [amtr_cons, he]
          show apply_matches_to_remove (if l.erase pr.2 = [] then aerase pr.1 mg
            else aset pr.1 (l.erase pr.2) mg) rest = _
          rw [if_pos hl2]
        rw [hred]
        have hw2 : MgWF (aerase pr.1 mg) := by
          refine ⟨((aerase_sublist pr.1 mg).map Prod.fst).nodup hwf.1, ?_⟩
          intro p hp
          exact hwf.2 p (mem_aerase hp)
        obtain ⟨hw, hform⟩ := apply_mtr_alookup rest (aerase pr.1 mg) hw2
        refine ⟨hw, ?_⟩
        intro g
        rw [hform g]
        by_cases hg : g = pr.1
        · subst hg
          rw [alookup_aerase_self hwf.1, he]
          have hall : ∀ a ∈ l, a = pr.2 := by
            intro a ha
            by_contra hap
            have hmf : a ∈ l.filter (fun x => x != pr.2) := by
              rw [List.mem_filter]
              exact ⟨ha, by simp [hap]⟩
            rw [← herase, hl2] at hmf
            simp at hmf
          have hfe : l.filter (fun x => !(decide ((pr.1, x) ∈ pr :: rest))) = [] := by
            rw [List.eq_nil_iff_forall_not_mem]
            intro a hmem
            rw [List.mem_filter] at hmem
            have hap := hall a hmem.1
            have hin : (pr.1, a) ∈ pr :: rest := by
              rw [hap]
              exact List.mem_cons_self pr rest
            have hcontr := hmem.2
            simp [hin] at hcontr
          show (none : Option (List String)) =
            (if l.filter (fun x => !(decide ((pr.1, x) ∈ pr :: rest))) = [] then none
              else some (l.filter (fun x => !(decide ((pr.1, x) ∈ pr :: rest)))))
          rw [if_pos hfe]
        · rw [alookup_aerase_ne hg]
          exact match_filter_congr (alookup g mg) pr rest hg
      · have hred : apply_matches_to_remove mg (pr :: rest) =
            apply_matches_to_remove (aset pr.1 (l.erase pr.2) mg) rest := by
          rw [amtr_cons, he]
          show apply_matches_to_remove (if l.erase pr.2 = [] then aerase pr.1 mg
            else aset pr.1 (l.erase pr.2) mg) rest = _
          rw [if_neg hl2]
        rw [hred]
        have hw2 : MgWF (aset pr.1 (l.erase pr.2) mg) := by
          refine ⟨?_, ?_⟩
          · rw [keysOf_aset_mem]
            · exact hwf.1
            · rw [← alookup_isSome_iff_mem_keys, he]
              rfl
          · intro p hp
            rcases mem_aset hp with h1 | h2
            · exact hwf.2 p h1
            · rw [h2]
              refine ⟨?_, hl2⟩
              rw [herase]
              exact hlnd.filter _
        obtain ⟨hw, hform⟩ := apply_mtr_alookup rest (aset pr.1 (l.erase pr.2) mg) hw2
        refine ⟨hw, ?_⟩
        intro g
        rw [hform g]
        by_cases hg : g = pr.1
        · subst hg
          rw [alookup_aset_self, he]
          have hcomp : (l.erase pr.2).filter (fun x => !(decide ((pr.1, x) ∈ rest))) =
              l.filter (fun x => !(decide ((pr.1, x) ∈ pr :: rest))) := by
            rw [herase, List.filter_filter]
            apply List.filter_congr
            intro a _
            by_cases hap : a = pr.2 <;> by_cases har : (pr.1, a) ∈ rest <;>
              simp [hap, har, List.mem_cons, Prod.ext_iff]
          show (if (l.erase pr.2).filter (fun x => !(decide ((pr.1, x) ∈ rest))) = []
              then none
              else some ((l.erase pr.2).filter (fun x => !(decide ((pr.1, x) ∈ rest))))) =
            (if l.filter (fun x => !(decide ((pr.1, x) ∈ pr :: rest))) = [] then none
              else some (l.filter (fun x => !(decide ((pr.1, x) ∈ pr :: rest)))))
          rw [hcomp]
        · rw [alookup_aset_ne hg]
          exact match_filter_congr (alookup g mg) pr rest hg

theorem apply_mtr_inv (rem : List (String × String)) (mg : MatchedGenes) (hwf : MgWF mg)
    (y x : String) :
    inv_containsB (apply_matches_to_remove mg rem) y x =
      (inv_containsB mg y x && !(decide ((y, x) ∈ rem))) := by
  unfold inv_containsB
  rw [(apply_mtr_alookup rem mg hwf).2 y]
  cases he : alookup y mg with
  | none =>
    show (List.contains [] x) = ((List.contains [] x) && !(decide ((y, x) ∈ rem)))
    simp
  | some l =>
    show ((if l.filter (fun q => !(decide ((y, q) ∈ rem))) = [] then none
        else some (l.filter (fun q => !(decide ((y, q) ∈ rem))))).getD []).contains x =
      (l.contains x && !(decide ((y, x) ∈ rem)))
    by_cases hf : l.filter (fun q => !(decide ((y, q) ∈ rem))) = []
    · rw [if_pos hf]
      by_cases hr : (y, x) ∈ rem
      · simp [hr]
      · by_cases hx : x ∈ l
        · exfalso
          have hmf : x ∈ l.filter (fun q => !(decide ((y, q) ∈ rem))) := by
            rw [List.mem_filter]
            exact ⟨hx, by simp [hr]⟩
          rw [hf] at hmf
          simp at hmf
        · simp [List.contains, List.elem_eq_mem, hx]
    · rw [if_neg hf]
      simp only [Option.getD_some]
      by_cases hr : (y, x) ∈ rem <;> by_cases hx : x ∈ l <;>
        simp [List.contains, List.elem_eq_mem, List.mem_filter, hr, hx]

theorem apply_mtr_entries (rem : List (String × String)) (mg : MatchedGenes)
    (hwf : MgWF mg) :
    ∀ p ∈ apply_matches_to_remove mg rem,
      ∃ l0, (p.1, l0) ∈ mg ∧ p.2 = l0.filter (fun x => !(decide ((p.1, x) ∈ rem))) := by
  intro p hp
  obtain ⟨hw, hform⟩ := apply_mtr_alookup rem mg hwf
  have halo : alookup p.1 (apply_matches_to_remove mg rem) = some p.2 :=
    alookup_of_mem_nodup hp hw.1
  rw [hform p.1] at halo
  cases he : alookup p.1 mg with
  | none =>
    rw [he] at halo
    exact Option.noConfusion halo
  | some l0 =>
    rw [he] at halo
    have halo2 : (if l0.filter (fun x => !(decide ((p.1, x) ∈ rem))) = [] then none
        else some (l0.filter (fun x => !(decide ((p.1, x) ∈ rem))))) = some p.2 := halo
    by_cases hf : l0.filter (fun x => !(decide ((p.1, x) ∈ rem))) = []
    · rw [if_pos hf] at halo2
      exact Option.noConfusion halo2
    · rw [if_neg hf] at halo2
      exact ⟨l0, alookup_eq_some_mem he, (Option.some.inj halo2).symm⟩

theorem rrdm_invariants (bd : BuscoDict) (mg : MatchedGenes)
    (hbd : BdWF bd) (hmg : MgWF mg) (hcons : Consistent bd mg) :
    BdWF (remove_remaining_duplicate_matches bd mg).1 ∧
    MgWF (remove_remaining_duplicate_matches bd mg).2 ∧
    Consistent (remove_remaining_duplicate_matches bd mg).1
      (remove_remaining_duplicate_matches bd mg).2 ∧
    (∀ x y, claimsB (remove_remaining_duplicate_matches bd mg).1 x y = true →
      claimsB bd x y = true) ∧
    (∀ p ∈ (remove_remaining_duplicate_matches bd mg).2, p.2.length ≤ 1) := by
  obtain ⟨hf1, hf2, _, hf4⟩ := rrdm_fold bd mg hmg.1 hcons mg (bd, []) hbd
    (by intro x y; simp) (by intro p _ x h; simp at h)
    (fun p hp => ⟨hp, (hmg.2 p hp).1, (hmg.2 p hp).2⟩) hmg.1
  have hrr : remove_remaining_duplicate_matches bd mg =
      ((mg.foldl remove_remaining_gene (bd, [])).1,
       apply_matches_to_remove mg (mg.foldl remove_remaining_gene (bd, [])).2) := rfl
  rw [hrr]
  obtain ⟨ha1, _⟩ := apply_mtr_alookup (mg.foldl remove_remaining_gene (bd, [])).2 mg hmg
  refine ⟨hf1, ha1, ?_, ?_, ?_⟩
  · intro x y
    rw [hf2 x y, apply_mtr_inv _ mg hmg y x, hcons x y]
  · intro x y h
    rw [hf2 x y, Bool.and_eq_true] at h
    exact h.1
  · intro p hp
    obtain ⟨l0, hl0, hpe⟩ := apply_mtr_entries _ mg hmg p hp
    rcases hf4 (p.1, l0) hl0 with hle | ⟨w, hw⟩
    · rw [hpe]
      exact le_trans (List.length_filter_le _ _) hle
    · have hnd0 : l0.Nodup := (hmg.2 (p.1, l0) hl0).1
      rw [hpe]
      refine length_le_one_of_all_eq (hnd0.filter _) w ?_
      intro x hx
      rw [List.mem_filter] at hx
      by_contra hxw
      have hmem := hw x hx.1 hxw
      have hneg := hx.2
      simp [hmem] at hneg

theorem rlrd_noop (higher used : List String) (bd : BuscoDict) (mg : MatchedGenes)
    (h1 : ∀ b ∈ keysOf bd, b ∉ higher)
    (h2 : ∀ p ∈ bd, ∀ q ∈ p.2, q.1 ∉ used) :
    remove_lower_ranked_duplicates higher used bd mg = (bd, mg) := by
  unfold remove_lower_ranked_duplicates
  apply foldl_fixed
  intro b hb
  unfold remove_lower_ranked_step
  cases he : alookup b (bd, mg).1 with
  | none => rfl
  | some gm =>
    simp only
    rw [if_neg (h1 b hb)]
    apply foldl_fixed
    intro g hg
    have hgu : g ∉ used := by
      unfold keysOf at hg
      rw [List.mem_map] at hg
      obtain ⟨q, hq, hqe⟩ := hg
      rw [← hqe]
      exact h2 (b, gm) (alookup_eq_some_mem he) q hq
    unfold remove_used_gene_step
    rw [if_neg hgu]

theorem rrdm_noop (bd : BuscoDict) (mg : MatchedGenes)
    (h : ∀ p ∈ mg, p.2.length ≤ 1) :
    remove_remaining_duplicate_matches bd mg = (bd, mg) := by
  have hfold : mg.foldl remove_remaining_gene (bd, []) = (bd, []) := by
    apply foldl_fixed
    intro p hp
    apply rrg_neg
    unfold rrdm_processedL
    have hlen : ¬ p.2.length > 1 := by
      have := h p hp
      omega
    rw [decide_eq_false hlen]
    simp
  have hrr : remove_remaining_duplicate_matches bd mg =
      ((mg.foldl remove_remaining_gene (bd, [])).1,
       apply_matches_to_remove mg (mg.foldl remove_remaining_gene (bd, [])).2) := rfl
  rw [hrr, hfold]
  rfl

theorem remove_duplicates_fixed (st : HmmerState) (h : DedupFixed st) :
    remove_duplicates st = st := by
  obtain ⟨h1, h2, h3, h4, h5, h6, h7⟩ := h
  have e1 : remove_lower_ranked_duplicates (keysOf st.is_complete)
      (update_used_gene_set st.is_complete []) st.is_very_large st.matched_genes_vlarge =
      (st.is_very_large, st.matched_genes_vlarge) := rlrd_noop _ _ _ _ h1 h2
  have hsplit : remove_duplicates st =
      { is_complete := (remove_remaining_duplicate_matches st.is_complete
          st.matched_genes_complete).1,
        is_very_large := (remove_remaining_duplicate_matches
          (remove_lower_ranked_duplicates (keysOf st.is_complete)
            (update_used_gene_set st.is_complete [])
            st.is_very_large st.matched_genes_vlarge).1
          (remove_lower_ranked_duplicates (keysOf st.is_complete)
            (update_used_gene_set st.is_complete [])
            st.is_very_large st.matched_genes_vlarge).2).1,
        is_fragment := (remove_remaining_duplicate_matches
          (remove_lower_ranked_duplicates (keysOf st.is_complete ++
              keysOf (remove_lower_ranked_duplicates (keysOf st.is_complete)
                (update_used_gene_set st.is_complete [])
                st.is_very_large st.matched_genes_vlarge).1)
            (update_used_gene_set (remove_lower_ranked_duplicates (keysOf st.is_complete)
                (update_used_gene_set st.is_complete [])
                st.is_very_large st.matched_genes_vlarge).1
              (update_used_gene_set st.is_complete []))
            st.is_fragment st.matched_genes_fragment).1
          (remove_lower_ranked_duplicates (keysOf st.is_complete ++
              keysOf (remove_lower_ranked_duplicates (keysOf st.is_complete)
                (update_used_gene_set st.is_complete [])
                st.is_very_large st.matched_genes_vlarge).1)
            (update_used_gene_set (remove_lower_ranked_duplicates (keysOf st.is_complete)
                (update_used_gene_set st.is_complete [])
                st.is_very_large st.matched_genes_vlarge).1
              (update_used_gene_set st.is_complete []))
            st.is_fragment st.matched_genes_fragment).2).1,
        matched_genes_complete := (remove_remaining_duplicate_matches st.is_complete
          st.matched_genes_complete).2,
        matched_genes_vlarge := (remove_remaining_duplicate_matches
          (remove_lower_ranked_duplicates (keysOf st.is_complete)
            (update_used_gene_set st.is_complete [])
            st.is_very_large st.matched_genes_vlarge).1
          (remove_lower_ranked_duplicates (keysOf st.is_complete)
            (update_used_gene_set st.is_complete [])
            st.is_very_large st.matched_genes_vlarge).2).2,
        matched_genes_fragment := (remove_remaining_duplicate_matches
          (remove_lower_ranked_duplicates (keysOf st.is_complete ++
              keysOf (remove_lower_ranked_duplicates (keysOf st.is_complete)
                (update_used_gene_set st.is_complete [])
                st.is_very_large st.matched_genes_vlarge).1)
            (update_used_gene_set (remove_lower_ranked_duplicates (keysOf st.is_complete)
                (update_used_gene_set st.is_complete [])
                st.is_very_large st.matched_genes_vlarge).1
              (update_used_gene_set st.is_complete []))
            st.is_fragment st.matched_genes_fragment).1
          (remove_lower_ranked_duplicates (keysOf st.is_complete ++
              keysOf (remove_lower_ranked_duplicates (keysOf st.is_complete)
                (update_used_gene_set st.is_complete [])
                st.is_very_large st.matched_genes_vlarge).1)
            (update_used_gene_set (remove_lower_ranked_duplicates (keysOf st.is_complete)
                (update_used_gene_set st.is_complete [])
                st.is_very_large st.matched_genes_vlarge).1
              (update_used_gene_set st.is_complete []))
            st.is_fragment st.matched_genes_fragment).2).2 } := rfl
  rw [hsplit, e1]
  simp only
  have e2 : remove_lower_ranked_duplicates (keysOf st.is_complete ++
      keysOf st.is_very_large)
      (update_used_gene_set st.is_very_large (update_used_gene_set st.is_complete []))
      st.is_fragment st.matched_genes_fragment =
      (st.is_fragment, st.matched_genes_fragment) := rlrd_noop _ _ _ _ h3 h4
  rw [e2]
  simp only
  rw [rrdm_noop _ _ h5, rrdm_noop _ _ h6, rrdm_noop _ _ h7]

theorem entry_of_claims {bd : BuscoDict} {b g : String} (h : claimsB bd b g = true) :
    ∃ gm, alookup b bd = some gm ∧ g ∈ keysOf gm := by
  unfold claimsB at h
  cases he : alookup b bd with
  | none =>
    rw [he] at h
    simp [alookup] at h
  | some gm =>
    rw [he] at h
    simp only [Option.getD_some] at h
    exact ⟨gm, rfl, alookup_isSome_iff_mem_keys.mp h⟩

theorem claims_of_entry {bd : BuscoDict} (hbd : BdWF bd) {p : String × GeneMap}
    (hp : p ∈ bd) {g : String} (hg : g ∈ keysOf p.2) : claimsB bd p.1 g = true := by
  unfold claimsB
  rw [alookup_of_mem_nodup hp hbd.1]
  simp only [Option.getD_some]
  rw [alookup_isSome_iff_mem_keys]
  exact hg

theorem mem_keys_claims {bd : BuscoDict} (hbd : BdWF bd) {b : String}
    (hb : b ∈ keysOf bd) : ∃ g, claimsB bd b g = true := by
  rw [← alookup_isSome_iff_mem_keys] at hb
  cases he : alookup b bd with
  | none =>
    rw [he] at hb
    simp at hb
  | some gm =>
    have hmem : (b, gm) ∈ bd := alookup_eq_some_mem he
    have hne := (hbd.2 _ hmem).2.1
    cases hgm : gm with
    | nil => exact absurd hgm hne
    | cons q t =>
      refine ⟨q.1, ?_⟩
      unfold claimsB
      rw [he]
      simp only [Option.getD_some]
      rw [alookup_isSome_iff_mem_keys, hgm]
      exact List.mem_map_of_mem Prod.fst (List.mem_cons_self q t)

theorem mem_update_used {bd : BuscoDict} {used : List String} {g : String} :
    g ∈ update_used_gene_set bd used ↔ g ∈ used ∨ ∃ p ∈ bd, g ∈ keysOf p.2 := by
  unfold update_used_gene_set
  rw [List.mem_append, List.mem_flatten]
  constructor
  · rintro (h | ⟨l, hl, hg⟩)
    · exact Or.inl h
    · rw [List.mem_map] at hl
      obtain ⟨p, hp, hpe⟩ := hl
      exact Or.inr ⟨p, hp, hpe ▸ hg⟩
  · rintro (h | ⟨p, hp, hg⟩)
    · exact Or.inl h
    · exact Or.inr ⟨keysOf p.2, List.mem_map_of_mem _ hp, hg⟩

theorem consistentB_to_Consistent {bd : BuscoDict} {mg : MatchedGenes}
    (h : consistentB bd mg = true) : Consistent bd mg := by
  unfold consistentB at h
  rw [Bool.and_eq_true, List.all_eq_true, List.all_eq_true] at h
  obtain ⟨h1, h2⟩ := h
  intro b g
  by_cases hcl : claimsB bd b g = true
  · rw [hcl]
    obtain ⟨gm, hgm, hgk⟩ := entry_of_claims hcl
    have hmem : (b, gm) ∈ bd := alookup_eq_some_mem hgm
    have h1' := h1 (b, gm) hmem
    rw [List.all_eq_true] at h1'
    unfold keysOf at hgk
    rw [List.mem_map] at hgk
    obtain ⟨q, hq, hqe⟩ := hgk
    have hc := h1' q hq
    unfold inv_containsB
    rw [← hqe]
    exact hc.symm
  · have hcl2 : claimsB bd b g = false := by
      cases hc : claimsB bd b g
      · rfl
      · exact absurd hc hcl
    rw [hcl2]
    by_cases hinv : inv_containsB mg g b = true
    · exfalso
      unfold inv_containsB at hinv
      cases he : alookup g mg with
      | none =>
        rw [he] at hinv
        simp at hinv
      | some l =>
        rw [he] at hinv
        simp only [Option.getD_some] at hinv
        have hbl : b ∈ l := by simpa [List.contains, List.elem_eq_mem] using hinv
        have h2' := h2 (g, l) (alookup_eq_some_mem he)
        rw [List.all_eq_true] at h2'
        exact hcl (h2' b hbl)
    · cases hc : inv_containsB mg g b
      · rfl
      · exact absurd hc hinv

theorem dedup_establishes (st : HmmerState) (hwf : StateWF st) :
    DedupFixed (remove_duplicates st) ∧
    Consistent (remove_duplicates st).is_complete
      (remove_duplicates st).matched_genes_complete ∧
    Consistent (remove_duplicates st).is_very_large
      (remove_duplicates st).matched_genes_vlarge ∧
    Consistent (remove_duplicates st).is_fragment
      (remove_duplicates st).matched_genes_fragment ∧
    BdWF (remove_duplicates st).is_complete ∧
    BdWF (remove_duplicates st).is_very_large ∧
    BdWF (remove_duplicates st).is_fragment := by
  obtain ⟨hbdC, hbdV, hbdF, hmgC, hmgV, hmgF, hcC, hcV, hcF⟩ := hwf
  have hconsC := consistentB_to_Consistent hcC
  have hconsV := consistentB_to_Consistent hcV
  have hconsF := consistentB_to_Consistent hcF
  set U1 := update_used_gene_set st.is_complete [] with hU1
  set R1 := remove_lower_ranked_duplicates (keysOf st.is_complete) U1
    st.is_very_large st.matched_genes_vlarge with hR1def
  obtain ⟨hR1bd, hR1mg, hR1c, hR1done, hR1sub⟩ :=
    rlrd_invariants (keysOf st.is_complete) U1 st.is_very_large st.matched_genes_vlarge
      hbdV hmgV hconsV
  set U2 := update_used_gene_set R1.1 U1 with hU2
  set R2 := remove_lower_ranked_duplicates (keysOf st.is_complete ++ keysOf R1.1) U2
    st.is_fragment st.matched_genes_fragment with hR2def
  obtain ⟨hR2bd, hR2mg, hR2c, hR2done, hR2sub⟩ :=
    rlrd_invariants (keysOf st.is_complete ++ keysOf R1.1) U2
      st.is_fragment st.matched_genes_fragment hbdF hmgF hconsF
  obtain ⟨hR3bd, hR3mg, hR3c, hR3sub, hR3len⟩ :=
    rrdm_invariants st.is_complete st.matched_genes_complete hbdC hmgC hconsC
  obtain ⟨hR4bd, hR4mg, hR4c, hR4sub, hR4len⟩ :=
    rrdm_invariants R1.1 R1.2 hR1bd hR1mg hR1c
  obtain ⟨hR5bd, hR5mg, hR5c, hR5sub, hR5len⟩ :=
    rrdm_invariants R2.1 R2.2 hR2bd hR2mg hR2c
  have hfields : remove_duplicates st =
      { is_complete := (remove_remaining_duplicate_matches st.is_complete
          st.matched_genes_complete).1,
        is_very_large := (remove_remaining_duplicate_matches R1.1 R1.2).1,
        is_fragment := (remove_remaining_duplicate_matches R2.1 R2.2).1,
        matched_genes_complete := (remove_remaining_duplicate_matches st.is_complete
          st.matched_genes_complete).2,
        matched_genes_vlarge := (remove_remaining_duplicate_matches R1.1 R1.2).2,
        matched_genes_fragment := (remove_remaining_duplicate_matches R2.1 R2.2).2 } := rfl
  rw [hfields]
  have hkeysV : ∀ b ∈ keysOf (remove_remaining_duplicate_matches R1.1 R1.2).1,
      b ∈ keysOf R1.1 := by
    intro b hb
    obtain ⟨g, hg⟩ := mem_keys_claims hR4bd hb
    obtain ⟨gm, hgm, _⟩ := entry_of_claims (hR4sub b g hg)
    rw [← alookup_isSome_iff_mem_keys, hgm]
    rfl
  have hkeysC : ∀ b ∈ keysOf (remove_remaining_duplicate_matches st.is_complete
      st.matched_genes_complete).1, b ∈ keysOf st.is_complete := by
    intro b hb
    obtain ⟨g, hg⟩ := mem_keys_claims hR3bd hb
    obtain ⟨gm, hgm, _⟩ := entry_of_claims (hR3sub b g hg)
    rw [← alookup_isSome_iff_mem_keys, hgm]
    rfl
  have hkeysF : ∀ b ∈ keysOf (remove_remaining_duplicate_matches R2.1 R2.2).1,
      b ∈ keysOf R2.1 := by
    intro b hb
    obtain ⟨g, hg⟩ := mem_keys_claims hR5bd hb
    obtain ⟨gm, hgm, _⟩ := entry_of_claims (hR5sub b g hg)
    rw [← alookup_isSome_iff_mem_keys, hgm]
    rfl
  have hgenesC : ∀ g, (∃ p ∈ (remove_remaining_duplicate_matches st.is_complete
      st.matched_genes_complete).1, g ∈ keysOf p.2) → g ∈ U1 := by
    rintro g ⟨p, hp, hg⟩
    have hcl := claims_of_entry hR3bd hp hg
    obtain ⟨gm, hgm, hgk⟩ := entry_of_claims (hR3sub p.1 g hcl)
    rw [hU1, mem_update_used]
    exact Or.inr ⟨(p.1, gm), alookup_eq_some_mem hgm, hgk⟩
  have hgenesV : ∀ g, (∃ p ∈ (remove_remaining_duplicate_matches R1.1 R1.2).1,
      g ∈ keysOf p.2) → ∃ p ∈ R1.1, g ∈ keysOf p.2 := by
    rintro g ⟨p, hp, hg⟩
    have hcl := claims_of_entry hR4bd hp hg
    obtain ⟨gm, hgm, hgk⟩ := entry_of_claims (hR4sub p.1 g hcl)
    exact ⟨(p.1, gm), alookup_eq_some_mem hgm, hgk⟩
  refine ⟨⟨?_, ?_, ?_, ?_, hR3len, hR4len, hR5len⟩, hR3c, hR4c, hR5c, hR3bd, hR4bd, hR5bd⟩
  · intro b hbV hbC
    exact (hR1done b).1 (hkeysV b hbV) (hkeysC b hbC)
  · intro p hp q hq hused
    have hcl := claims_of_entry hR4bd hp (List.mem_map_of_mem Prod.fst hq)
    obtain ⟨gm, hgm, hgk⟩ := entry_of_claims (hR4sub p.1 q.1 hcl)
    have hnotused := (hR1done p.1).2 gm hgm
    unfold keysOf at hgk
    rw [List.mem_map] at hgk
    obtain ⟨q', hq', hqe⟩ := hgk
    apply hnotused q' hq'
    rw [hqe]
    rw [mem_update_used] at hused
    rcases hused with h | ⟨p', hp', hg'⟩
    · simp at h
    · exact hgenesC q.1 ⟨p', hp', hg'⟩
  · intro b hbF hbCV
    have hbR2 := hkeysF b hbF
    have hnothi := (hR2done b).1 hbR2
    rw [List.mem_append] at hbCV hnothi
    rcases hbCV with h | h
    · exact hnothi (Or.inl (hkeysC b h))
    · exact hnothi (Or.inr (hkeysV b h))
  · intro p hp q hq hused
    have hcl := claims_of_entry hR5bd hp (List.mem_map_of_mem Prod.fst hq)
    obtain ⟨gm, hgm, hgk⟩ := entry_of_claims (hR5sub p.1 q.1 hcl)
    have hnotused := (hR2done p.1).2 gm hgm
    unfold keysOf at hgk
    rw [List.mem_map] at hgk
    obtain ⟨q', hq', hqe⟩ := hgk
    apply hnotused q' hq'
    rw [hqe]
    rw [mem_update_used] at hused
    rw [hU2, mem_update_used]
    rcases hused with h | ⟨p', hp', hg'⟩
    · rw [mem_update_used] at h
      rcases h with h2 | ⟨p', hp', hg'⟩
      · simp at h2
      · exact Or.inl (hgenesC q.1 ⟨p', hp', hg'⟩)
    · exact Or.inr (hgenesV q.1 ⟨p', hp', hg'⟩)

theorem gene_in_rank_iff {bd : BuscoDict} {g : String} :
    gene_in_rankB bd g = true ↔ ∃ p ∈ bd, g ∈ keysOf p.2 := by
  unfold gene_in_rankB
  rw [List.any_eq_true]
  constructor
  · rintro ⟨p, hp, hs⟩
    exact ⟨p, hp, alookup_isSome_iff_mem_keys.mp hs⟩
  · rintro ⟨p, hp, hk⟩
    exact ⟨p, hp, alookup_isSome_iff_mem_keys.mpr hk⟩

theorem rank_disjoint_of_fixed (st : HmmerState) (h : DedupFixed st) :
    RankDisjoint st := by
  obtain ⟨_, f2, _, f4, _, _, _⟩ := h
  intro g
  refine ⟨?_, ?_, ?_⟩
  · intro hc
    cases hv : gene_in_rankB st.is_very_large g
    · rfl
    · exfalso
      obtain ⟨p, hp, hk⟩ := gene_in_rank_iff.mp hv
      unfold keysOf at hk
      rw [List.mem_map] at hk
      obtain ⟨q, hq, hqe⟩ := hk
      apply f2 p hp q hq
      rw [hqe, mem_update_used]
      exact Or.inr (gene_in_rank_iff.mp hc)
  · intro hc
    cases hv : gene_in_rankB st.is_fragment g
    · rfl
    · exfalso
      obtain ⟨p, hp, hk⟩ := gene_in_rank_iff.mp hv
      unfold keysOf at hk
      rw [List.mem_map] at hk
      obtain ⟨q, hq, hqe⟩ := hk
      apply f4 p hp q hq
      rw [hqe, mem_update_used]
      left
      rw [mem_update_used]
      exact Or.inr (gene_in_rank_iff.mp hc)
  · intro hc
    cases hv : gene_in_rankB st.is_fragment g
    · rfl
    · exfalso
      obtain ⟨p, hp, hk⟩ := gene_in_rank_iff.mp hv
      unfold keysOf at hk
      rw [List.mem_map] at hk
      obtain ⟨q, hq, hqe⟩ := hk
      apply f4 p hp q hq
      rw [hqe, mem_update_used]
      exact Or.inr (gene_in_rank_iff.mp hc)

theorem unique_claim_of {bd : BuscoDict} {mg : MatchedGenes}
    (hcons : Consistent bd mg) (hlen : ∀ p ∈ mg, p.2.length ≤ 1) : UniqueClaim bd := by
  intro g b1 b2 h1 h2
  rw [hcons b1 g] at h1
  rw [hcons b2 g] at h2
  unfold inv_containsB at h1 h2
  cases he : alookup g mg with
  | none =>
    rw [he] at h1
    simp at h1
  | some l =>
    rw [he] at h1 h2
    simp only [Option.getD_some] at h1 h2
    have hb1 : b1 ∈ l := by simpa [List.contains, List.elem_eq_mem] using h1
    have hb2 : b2 ∈ l := by simpa [List.contains, List.elem_eq_mem] using h2
    exact eq_of_mem_length_le_one hb1 hb2 (hlen (g, l) (alookup_eq_some_mem he))

theorem prune_claims_subset (bd : BuscoDict) (b g : String)
    (h : claimsB (remove_low_scoring_matches bd) b g = true) : claimsB bd b g = true := by
  obtain ⟨gm', hgm', hgk⟩ := entry_of_claims h
  rw [alookup_remove_low_scoring] at hgm'
  cases he : alookup b bd with
  | none =>
    rw [he] at hgm'
    exact Option.noConfusion hgm'
  | some gm =>
    rw [he] at hgm'
    have hFgm := Option.some.inj hgm'
    simp only at hFgm
    have hkeys : g ∈ keysOf gm := by
      by_cases hl : gm.length > 1
      · rw [if_pos hl] at hFgm
        rw [← hFgm] at hgk
        unfold keysOf at hgk ⊢
        rw [List.mem_map] at hgk ⊢
        obtain ⟨q, hq, hqe⟩ := hgk
        rw [List.mem_filter] at hq
        obtain ⟨hq1, _⟩ := hq
        rw [List.mem_map] at hq1
        obtain ⟨q0, hq0, hq0e⟩ := hq1
        refine ⟨q0, hq0, ?_⟩
        rw [← hqe, ← hq0e]
      · rw [if_neg hl] at hFgm
        rw [← hFgm] at hgk
        exact hgk
    unfold claimsB
    rw [he]
    simp only [Option.getD_some]
    rw [alookup_isSome_iff_mem_keys]
    exact hkeys

theorem prune_gene_in_rank (bd : BuscoDict) (g : String)
    (h : gene_in_rankB (remove_low_scoring_matches bd) g = true) :
    gene_in_rankB bd g = true := by
  rw [gene_in_rank_iff] at h ⊢
  obtain ⟨p, hp, hk⟩ := h
  unfold remove_low_scoring_matches at hp
  rw [List.mem_map] at hp
  obtain ⟨p0, hp0, hpe⟩ := hp
  refine ⟨p0, hp0, ?_⟩
  by_cases hl : p0.2.length > 1
  · rw [← hpe, if_pos hl] at hk
    unfold keysOf at hk ⊢
    rw [List.mem_map] at hk ⊢
    obtain ⟨q, hq, hqe⟩ := hk
    rw [List.mem_filter] at hq
    obtain ⟨hq1, _⟩ := hq
    rw [List.mem_map] at hq1
    obtain ⟨q0, hq0, hq0e⟩ := hq1
    exact ⟨q0, hq0, by rw [← hqe, ← hq0e]⟩
  · rw [← hpe, if_neg hl] at hk
    exact hk

theorem rank_disjoint_prune (st1 : HmmerState) (h : RankDisjoint st1) :
    RankDisjoint { st1 with is_complete := remove_low_scoring_matches st1.is_complete,
                            is_very_large := remove_low_scoring_matches st1.is_very_large,
                            is_fragment := remove_low_scoring_matches st1.is_fragment } := by
  intro g
  obtain ⟨h1, h2, h3⟩ := h g
  refine ⟨?_, ?_, ?_⟩ <;> intro hc
  · cases hv : gene_in_rankB (remove_low_scoring_matches st1.is_very_large) g
    · rfl
    · have hvv := prune_gene_in_rank st1.is_very_large g hv
      simp [h1 (prune_gene_in_rank _ _ hc)] at hvv
  · cases hv : gene_in_rankB (remove_low_scoring_matches st1.is_fragment) g
    · rfl
    · have hvv := prune_gene_in_rank st1.is_fragment g hv
      simp [h2 (prune_gene_in_rank _ _ hc)] at hvv
  · cases hv : gene_in_rankB (remove_low_scoring_matches st1.is_fragment) g
    · rfl
    · have hvv := prune_gene_in_rank st1.is_fragment g hv
      simp [h3 (prune_gene_in_rank _ _ hc)] at hvv

/-- C8: on any wellformed classification state (distinct keys, nonempty
entries, consistent inverse indices) the cross-SCO deduplicator is
idempotent: a second `_remove_duplicates` pass leaves all three rank
maps and all three inverse indices exactly as the first pass left
them. -/
theorem c8_dedup_idempotent (st : HmmerState) (h : StateWF st) :
    remove_duplicates (remove_duplicates st) = remove_duplicates st :=
  remove_duplicates_fixed _ (dedup_establishes st h).1

/-- Witness for C8 at a one-SCO, one-gene state. -/
theorem c8_dedup_idempotent_witness :
    remove_duplicates (remove_duplicates
        ⟨[("100at2759", [("g1", [⟨10, 5, none⟩])])], [], [],
         [("g1", ["100at2759"])], [], []⟩) =
      remove_duplicates
        ⟨[("100at2759", [("g1", [⟨10, 5, none⟩])])], [], [],
         [("g1", ["100at2759"])], [], []⟩ :=
  c8_dedup_idempotent
    ⟨[("100at2759", [("g1", [⟨10, 5, none⟩])])], [], [],
     [("g1", ["100at2759"])], [], []⟩ (by decide)

/-- C1 (amended): after the full deduplicator, every gene lies in at
most one rank, is claimed by at most one SCO within its rank, and each
inverse index agrees with its forward map in both directions. After the
low-score pruner these survive only in weakened form: rank disjointness
and unique claims still hold, and every forward entry is still listed in
the inverse index, but the converse direction of the consistency
invariant is lost, because the pruner deletes forward entries without
updating the inverse indices. -/
theorem c1_dedup_prune_invariants (st : HmmerState) (h : StateWF st) :
    (RankDisjoint (remove_duplicates st) ∧
     UniqueClaim (remove_duplicates st).is_complete ∧
     UniqueClaim (remove_duplicates st).is_very_large ∧
     UniqueClaim (remove_duplicates st).is_fragment ∧
     Consistent (remove_duplicates st).is_complete
       (remove_duplicates st).matched_genes_complete ∧
     Consistent (remove_duplicates st).is_very_large
       (remove_duplicates st).matched_genes_vlarge ∧
     Consistent (remove_duplicates st).is_fragment
       (remove_duplicates st).matched_genes_fragment) ∧
    (RankDisjoint (filter_matches st) ∧
     UniqueClaim (filter_matches st).is_complete ∧
     UniqueClaim (filter_matches st).is_very_large ∧
     UniqueClaim (filter_matches st).is_fragment ∧
     FwdSubInv (filter_matches st).is_complete
       (filter_matches st).matched_genes_complete ∧
     FwdSubInv (filter_matches st).is_very_large
       (filter_matches st).matched_genes_vlarge ∧
     FwdSubInv (filter_matches st).is_fragment
       (filter_matches st).matched_genes_fragment) := by
  obtain ⟨hfix, hc1, hc2, hc3, hb1, hb2, hb3⟩ := dedup_establishes st h
  obtain ⟨f1, f2, f3, f4, f5, f6, f7⟩ := hfix
  have hrd := rank_disjoint_of_fixed _ ⟨f1, f2, f3, f4, f5, f6, f7⟩
  have hu1 := unique_claim_of hc1 f5
  have hu2 := unique_claim_of hc2 f6
  have hu3 := unique_claim_of hc3 f7
  refine ⟨⟨hrd, hu1, hu2, hu3, hc1, hc2, hc3⟩,
    rank_disjoint_prune _ hrd, ?_, ?_, ?_, ?_, ?_, ?_⟩
  · intro g b1 b2 ha hb
    exact hu1 g b1 b2 (prune_claims_subset _ _ _ ha) (prune_claims_subset _ _ _ hb)
  · intro g b1 b2 ha hb
    exact hu2 g b1 b2 (prune_claims_subset _ _ _ ha) (prune_claims_subset _ _ _ hb)
  · intro g b1 b2 ha hb
    exact hu3 g b1 b2 (prune_claims_subset _ _ _ ha) (prune_claims_subset _ _ _ hb)
  · intro b g hbg
    have hcl := prune_claims_subset _ _ _ hbg
    rw [hc1 b g] at hcl
    exact hcl
  · intro b g hbg
    have hcl := prune_claims_subset _ _ _ hbg
    rw [hc2 b g] at hcl
    exact hcl
  · intro b g hbg
    have hcl := prune_claims_subset _ _ _ hbg
    rw [hc3 b g] at hcl
    exact hcl

/-- Witness for C1 at a one-SCO, one-gene state. -/
theorem c1_dedup_prune_invariants_witness :
    (RankDisjoint (remove_duplicates
        ⟨[("b", [("g1", [(⟨10, 5, none⟩ : HmmerMatch)])])], [], [],
         [("g1", ["b"])], [], []⟩) ∧
     UniqueClaim (remove_duplicates
        ⟨[("b", [("g1", [(⟨10, 5, none⟩ : HmmerMatch)])])], [], [],
         [("g1", ["b"])], [], []⟩).is_complete ∧
     UniqueClaim (remove_duplicates
        ⟨[("b", [("g1", [(⟨10, 5, none⟩ : HmmerMatch)])])], [], [],
         [("g1", ["b"])], [], []⟩).is_very_large ∧
     UniqueClaim (remove_duplicates
        ⟨[("b", [("g1", [(⟨10, 5, none⟩ : HmmerMatch)])])], [], [],
         [("g1", ["b"])], [], []⟩).is_fragment ∧
     Consistent (remove_duplicates
        ⟨[("b", [("g1", [(⟨10, 5, none⟩ : HmmerMatch)])])], [], [],
         [("g1", ["b"])], [], []⟩).is_complete
       (remove_duplicates
        ⟨[("b", [("g1", [(⟨10, 5, none⟩ : HmmerMatch)])])], [], [],
         [("g1", ["b"])], [], []⟩).matched_genes_complete ∧
     Consistent (remove_duplicates
        ⟨[("b", [("g1", [(⟨10, 5, none⟩ : HmmerMatch)])])], [], [],
         [("g1", ["b"])], [], []⟩).is_very_large
       (remove_duplicates
        ⟨[("b", [("g1", [(⟨10, 5, none⟩ : HmmerMatch)])])], [], [],
         [("g1", ["b"])], [], []⟩).matched_genes_vlarge ∧
     Consistent (remove_duplicates
        ⟨[("b", [("g1", [(⟨10, 5, none⟩ : HmmerMatch)])])], [], [],
         [("g1", ["b"])], [], []⟩).is_fragment
       (remove_duplicates
        ⟨[("b", [("g1", [(⟨10, 5, none⟩ : HmmerMatch)])])], [], [],
         [("g1", ["b"])], [], []⟩).matched_genes_fragment) ∧
    (RankDisjoint (filter_matches
        ⟨[("b", [("g1", [(⟨10, 5, none⟩ : HmmerMatch)])])], [], [],
         [("g1", ["b"])], [], []⟩) ∧
     UniqueClaim (filter_matches
        ⟨[("b", [("g1", [(⟨10, 5, none⟩ : HmmerMatch)])])], [], [],
         [("g1", ["b"])], [], []⟩).is_complete ∧
     UniqueClaim (filter_matches
        ⟨[("b", [("g1", [(⟨10, 5, none⟩ : HmmerMatch)])])], [], [],
         [("g1", ["b"])], [], []⟩).is_very_large ∧
     UniqueClaim (filter_matches
        ⟨[("b", [("g1", [(⟨10, 5, none⟩ : HmmerMatch)])])], [], [],
         [("g1", ["b"])], [], []⟩).is_fragment ∧
     FwdSubInv (filter_matches
        ⟨[("b", [("g1", [(⟨10, 5, none⟩ : HmmerMatch)])])], [], [],
         [("g1", ["b"])], [], []⟩).is_complete
       (filter_matches
        ⟨[("b", [("g1", [(⟨10, 5, none⟩ : HmmerMatch)])])], [], [],
         [("g1", ["b"])], [], []⟩).matched_genes_complete ∧
     FwdSubInv (filter_matches
        ⟨[("b", [("g1", [(⟨10, 5, none⟩ : HmmerMatch)])])], [], [],
         [("g1", ["b"])], [], []⟩).is_very_large
       (filter_matches
        ⟨[("b", [("g1", [(⟨10, 5, none⟩ : HmmerMatch)])])], [], [],
         [("g1", ["b"])], [], []⟩).matched_genes_vlarge ∧
     FwdSubInv (filter_matches
        ⟨[("b", [("g1", [(⟨10, 5, none⟩ : HmmerMatch)])])], [], [],
         [("g1", ["b"])], [], []⟩).is_fragment
       (filter_matches
        ⟨[("b", [("g1", [(⟨10, 5, none⟩ : HmmerMatch)])])], [], [],
         [("g1", ["b"])], [], []⟩).matched_genes_fragment) :=
  c1_dedup_prune_invariants
    ⟨[("b", [("g1", [(⟨10, 5, none⟩ : HmmerMatch)])])], [], [],
     [("g1", ["b"])], [], []⟩ (by decide)

/-- C1 counterexample: a wellformed state on which, after the pruner,
the inverse index lists SCO "b" for gene "g2" although the forward
complete map no longer has the entry - the iff direction of the claimed
invariant fails after the low-score pruning step. -/
theorem c1_counterexample :
    StateWF ⟨[("b", [("g1", [(⟨10, 5, none⟩ : HmmerMatch)]),
        ("g2", [(⟨1, 5, none⟩ : HmmerMatch)])])], [], [],
      [("g1", ["b"]), ("g2", ["b"])], [], []⟩ ∧
    consistentB (filter_matches ⟨[("b", [("g1", [(⟨10, 5, none⟩ : HmmerMatch)]),
        ("g2", [(⟨1, 5, none⟩ : HmmerMatch)])])], [], [],
      [("g1", ["b"]), ("g2", ["b"])], [], []⟩).is_complete
      (filter_matches ⟨[("b", [("g1", [(⟨10, 5, none⟩ : HmmerMatch)]),
        ("g2", [(⟨1, 5, none⟩ : HmmerMatch)])])], [], [],
      [("g1", ["b"]), ("g2", ["b"])], [], []⟩).matched_genes_complete = false := by
  constructor
  · decide
  · have hdd : remove_duplicates ⟨[("b", [("g1", [(⟨10, 5, none⟩ : HmmerMatch)]),
        ("g2", [(⟨1, 5, none⟩ : HmmerMatch)])])], [], [],
      [("g1", ["b"]), ("g2", ["b"])], [], []⟩ =
        ⟨[("b", [("g1", [(⟨10, 5, none⟩ : HmmerMatch)]),
          ("g2", [(⟨1, 5, none⟩ : HmmerMatch)])])], [], [],
        [("g1", ["b"]), ("g2", ["b"])], [], []⟩ := by decide
    have hfm : (filter_matches ⟨[("b", [("g1", [(⟨10, 5, none⟩ : HmmerMatch)]),
        ("g2", [(⟨1, 5, none⟩ : HmmerMatch)])])], [], [],
      [("g1", ["b"]), ("g2", ["b"])], [], []⟩).is_complete =
        remove_low_scoring_matches (remove_duplicates
          ⟨[("b", [("g1", [(⟨10, 5, none⟩ : HmmerMatch)]),
            ("g2", [(⟨1, 5, none⟩ : HmmerMatch)])])], [], [],
          [("g1", ["b"]), ("g2", ["b"])], [], []⟩).is_complete := rfl
    have hfm2 : (filter_matches ⟨[("b", [("g1", [(⟨10, 5, none⟩ : HmmerMatch)]),
        ("g2", [(⟨1, 5, none⟩ : HmmerMatch)])])], [], [],
      [("g1", ["b"]), ("g2", ["b"])], [], []⟩).matched_genes_complete =
        (remove_duplicates ⟨[("b", [("g1", [(⟨10, 5, none⟩ : HmmerMatch)]),
          ("g2", [(⟨1, 5, none⟩ : HmmerMatch)])])], [], [],
        [("g1", ["b"]), ("g2", ["b"])], [], []⟩).matched_genes_complete := rfl
    rw [hfm, hfm2, hdd]
    have hprune : remove_low_scoring_matches [("b", [("g1", [(⟨10, 5, none⟩ : HmmerMatch)]),
        ("g2", [(⟨1, 5, none⟩ : HmmerMatch)])])] =
        [("b", [("g1", [(⟨10, 5, none⟩ : HmmerMatch)])])] := by
      norm_num [remove_low_scoring_matches, get_best_scoring_match, argmax_first,
        argmax_first_go]
    rw [show (⟨[("b", [("g1", [(⟨10, 5, none⟩ : HmmerMatch)]),
          ("g2", [(⟨1, 5, none⟩ : HmmerMatch)])])], [], [],
        [("g1", ["b"]), ("g2", ["b"])], [], []⟩ : HmmerState).is_complete =
        [("b", [("g1", [(⟨10, 5, none⟩ : HmmerMatch)]),
          ("g2", [(⟨1, 5, none⟩ : HmmerMatch)])])] from rfl, hprune]
    decide

end Busco
